import Mathlib

/-!
# gojsonschema: the schema document parser

A shallow embedding of `src/gojsonschema/schemaDocument.go` and a verification of
its specification.

* Decoded JSON values (`interface{}` in the source) are the inductive type `Json`.
* Schema nodes are allocated by the source with `&JsonSchema{...}` and mutated through
  pointers.  Here a node is a value carrying its address (`addr`); a function that
  mutates `currentSchema` takes the node and returns the updated node.
* The package `gojsonreference` (and the pointer type it hands out) is an external
  collaborator: its operations are the fields of `Collaborators`.
* `parseSchema` may recurse forever when a `$ref` chain is cyclic, so it takes a bound
  on the recursion depth (`fuel`); `Outcome.outOfFuel` reports that the bound was hit.
-/

namespace gojsonschema

/-! ## Constants (schemaDocument.go, lines 14-29) -/

abbrev KEY_SCHEMA : String := "$schema"
abbrev KEY_ID : String := "$id"
abbrev KEY_REF : String := "$ref"
abbrev KEY_TITLE : String := "title"
abbrev KEY_DESCRIPTION : String := "description"
abbrev KEY_TYPE : String := "type"
abbrev KEY_ITEMS : String := "items"
abbrev KEY_PROPERTIES : String := "properties"

abbrev STRING_STRING : String := "string"
abbrev STRING_SCHEMA : String := "schema"
abbrev STRING_PROPERTIES : String := "properties"

abbrev ROOT_SCHEMA_PROPERTY : String := "(root)"

/-- Modelled from the spec: the constant `SCHEMA_TYPES` is declared outside
schemaDocument.go; section 3 lists the fixed enumerated set of primitive type names. -/
abbrev SCHEMA_TYPES : List String :=
  ["object", "array", "string", "number", "integer", "boolean", "null"]

/-! ## Decoded documents -/

/-- A decoded document value, as the JSON decoder hands it to the parser in an
`interface{}`: `nil`, `bool`, `float64`, `string`, `[]interface{}` or
`map[string]interface{}`.  The entries of an object are listed in the order in which a
`range` over the map enumerates them; a Go map holds each key once, see `Json.WF`.
The payload of a number is never inspected by the parser. -/
inductive Json where
  | null
  | bool (b : Bool)
  | number (n : Int)
  | string (s : String)
  | array (xs : List Json)
  | object (m : List (String × Json))

/-- The values of `reflect.Kind` that a decoded document value can have. -/
inductive Kind where
  | Invalid
  | Bool
  | Float64
  | String
  | Slice
  | Map
deriving DecidableEq

/-- The kind `reflect.ValueOf(what).Kind()` of a decoded value. -/
def kindOf : Json → Kind
  | .null => .Invalid
  | .bool _ => .Bool
  | .number _ => .Float64
  | .string _ => .String
  | .array _ => .Slice
  | .object _ => .Map

/-- Modelled from the spec: the helper `isKind` is declared outside schemaDocument.go;
it tests the run-time kind of a decoded value ("must decode to a key/value mapping",
"must be a string"). -/
def isKind (what : Json) (kind : Kind) : Bool :=
  kindOf what == kind

/-- The map type `map[string]interface{}`. -/
abbrev JsonMap := List (String × Json)

/-- The index expression `m[k]`: the stored value, or `nil` when the key is absent. -/
def mapIndex (m : JsonMap) (k : String) : Json :=
  (m.lookup k).getD Json.null

/-- Modelled from the spec: the helper `existsMapKey` is declared outside
schemaDocument.go; it tells whether a keyword is present in a mapping. -/
def existsMapKey (m : JsonMap) (k : String) : Bool :=
  (m.lookup k).isSome

/-- Modelled from the spec: the helper `isStringInSlice` is declared outside
schemaDocument.go; it tells whether a `type` value is one of the enumerated names. -/
def isStringInSlice (s : List String) (what : String) : Bool :=
  s.contains what

/-- The keys of a mapping, in enumeration order. -/
def mapKeys (m : JsonMap) : List String :=
  m.map Prod.fst

/-! ## Errors and outcomes -/

/-- Modelled from the spec: the format constants `ERROR_MESSAGE_X_MUST_BE_AN_OBJECT`,
`ERROR_MESSAGE_X_IS_REQUIRED` and `ERROR_MESSAGE_X_MUST_BE_OF_TYPE_Y` are declared
outside schemaDocument.go.  Section 7 of the spec names the errors built from them
`NotAnObjectError(context)`, `MissingRequiredKeywordError(key)` and
`WrongTypeError(key, expectedKind)`.  An error whose message is written out in
schemaDocument.go, or that a collaborator returns, is `message` with its text. -/
inductive Error where
  | NotAnObjectError (context : String)
  | MissingRequiredKeywordError (key : String)
  | WrongTypeError (key expectedKind : String)
  | message (text : String)
deriving DecidableEq

/-- The error `errors.New(fmt.Sprintf(ERROR_MESSAGE_X_MUST_BE_AN_OBJECT, x))`. -/
abbrev ERROR_MESSAGE_X_MUST_BE_AN_OBJECT (x : String) : Error :=
  Error.NotAnObjectError x

/-- The error `errors.New(fmt.Sprintf(ERROR_MESSAGE_X_IS_REQUIRED, x))`. -/
abbrev ERROR_MESSAGE_X_IS_REQUIRED (x : String) : Error :=
  Error.MissingRequiredKeywordError x

/-- The error `errors.New(fmt.Sprintf(ERROR_MESSAGE_X_MUST_BE_OF_TYPE_Y, x, y))`. -/
abbrev ERROR_MESSAGE_X_MUST_BE_OF_TYPE_Y (x y : String) : Error :=
  Error.WrongTypeError x y

/-- How a call ends: `return nil`, `return err`, a run-time panic on dereferencing a
nil `ref`, or the recursion bound of the embedding was reached. -/
inductive Outcome where
  | ok
  | error (e : Error)
  | nilDereference
  | outOfFuel
deriving DecidableEq

/-! ## Schema nodes -/

/-- Modelled from the spec: the node type `JsonSchema` and its method
`AddPropertiesChild` are declared outside schemaDocument.go.  The fields are those the
source assigns (`property`, `schema`, `ref`, `id`, `title`, `description`, `etype`,
`parent`) and the child links of section 3 of the spec: the properties children, each
labelled by its own `property`, and the single items child.  `addr` is the identity of
the node, what a `*JsonSchema` points to; `parent` holds the address of the parent. -/
structure JsonSchema (Ref : Type) where
  addr : Nat
  id : Option String := none
  title : Option String := none
  description : Option String := none
  etype : Option String := none
  schema : Option Ref := none
  ref : Option Ref := none
  property : String := ""
  parent : Option Nat := none
  itemsChild : Option (JsonSchema Ref)
  propertiesChildren : List (JsonSchema Ref)

variable {Ref : Type}

/-- Modelled from the spec: `AddPropertiesChild` (declared outside schemaDocument.go)
registers a child among the properties children of the node. -/
def JsonSchema.AddPropertiesChild (s child : JsonSchema Ref) : JsonSchema Ref :=
  { s with propertiesChildren := s.propertiesChildren ++ [child] }

/-! ## Collaborators -/

/-- The operations of the external package `gojsonreference` that the parser calls.
A Go call returning `(value, error)` is a pair whose second component is the error, if
any: the source stores the value of `NewJsonReference` before it looks at the error. -/
structure Collaborators (Ref : Type) where
  /-- The constructor `gojsonreference.NewJsonReference(s)`. -/
  NewJsonReference : String → Ref × Option Error
  /-- The field `HasFullUrl` of a reference. -/
  HasFullUrl : Ref → Bool
  /-- The function `gojsonreference.Inherits(parent, child)`; the first component is the
  returned pointer. -/
  Inherits : Ref → Ref → Option Ref × Option Error
  /-- The navigation `ref.GetPointer().Get(document)`. -/
  PointerGet : Ref → Json → Json × Option Error

/-- Modelled from the spec: the type `SchemaPool` is declared outside
schemaDocument.go.  `GetPoolDocument(ref)` returns the decoded document stored under
the canonical form of `ref`, or the error of the loader. -/
structure SchemaPool (Ref : Type) where
  GetPoolDocument : Ref → Except Error Json

/-- The struct `JsonSchemaDocument` (lines 48-52).  `rootSchema` is the pointer to the
root node: its address, or `none` for nil. -/
structure JsonSchemaDocument (Ref : Type) where
  documentReference : Ref
  rootSchema : Option Nat
  pool : SchemaPool Ref

/-- The part of the run-time state that the parser changes besides the node it is
given: the next free node address, and the references passed to `GetPoolDocument` so
far, oldest first. -/
structure St (Ref : Type) where
  next : Nat
  requests : List Ref

/-- The result of a call: its outcome, the node `currentSchema` as the call leaves it,
and the state. -/
structure Res (Ref : Type) where
  out : Outcome
  node : JsonSchema Ref
  st : St Ref

/-! ## Well-formed documents -/

mutual
/-- A decoded value is well formed when every mapping in it holds each key once, as a
Go map does. -/
def Json.WF : Json → Bool
  | .array xs => wfList xs
  | .object m => decide (m.map Prod.fst).Nodup && wfEntries m
  | _ => true
/-- Every element of a sequence is well formed. -/
def wfList : List Json → Bool
  | [] => true
  | v :: vs => v.WF && wfList vs
/-- Every value of a mapping is well formed. -/
def wfEntries : List (String × Json) → Bool
  | [] => true
  | (_, v) :: rest => v.WF && wfEntries rest
end

/-! ## The parser (schemaDocument.go, lines 54-215) -/

/-- A `for k := range m` loop over the keys of a mapping whose body may return from the
enclosing function: the keys are visited in enumeration order, and the first body that
does not end with `ok` ends the loop with its result. -/
def forRange (body : String → JsonSchema Ref → St Ref → Res Ref) :
    List String → JsonSchema Ref → St Ref → Res Ref
  | [], currentSchema, st => ⟨Outcome.ok, currentSchema, st⟩
  | k :: ks, currentSchema, st =>
    let r := body k currentSchema st
    if r.out = Outcome.ok then forRange body ks r.node r.st else r

/-- Lines 67-87 of `parseSchema`: the `$schema` keyword of the root node. -/
def rootSection (x : Collaborators Ref) (d : JsonSchemaDocument Ref) (m : JsonMap)
    (currentSchema : JsonSchema Ref) : Option Error × JsonSchema Ref :=
  if some currentSchema.addr = d.rootSchema then
    if !existsMapKey m KEY_SCHEMA then
      (some (ERROR_MESSAGE_X_IS_REQUIRED KEY_SCHEMA), currentSchema)
    else
      match mapIndex m KEY_SCHEMA with
      | .string schemaRef =>
        match x.NewJsonReference schemaRef with
        | (schemaReference, some err) =>
          (some err, { currentSchema with schema := some schemaReference })
        | (schemaReference, none) =>
          let currentSchema := { currentSchema with schema := some schemaReference }
          let currentSchema := { currentSchema with ref := some d.documentReference }
          if existsMapKey m KEY_REF then
            (some (Error.message ("No " ++ KEY_REF ++ " is allowed in root schema")),
              currentSchema)
          else
            (none, currentSchema)
      | _ =>
        -- `!isKind(m[KEY_SCHEMA], reflect.String)`
        (some (ERROR_MESSAGE_X_MUST_BE_OF_TYPE_Y KEY_SCHEMA STRING_STRING), currentSchema)
  else
    (none, currentSchema)

/-- Lines 99-107 of `parseSchema`: the parsed `$ref` becomes the `ref` of the node,
directly when it is a full URL and through `Inherits` otherwise.  Dereferencing
`*currentSchema.ref` panics when the node has no `ref`. -/
def setRef (x : Collaborators Ref) (jsonReference : Ref) (currentSchema : JsonSchema Ref) :
    Outcome × JsonSchema Ref :=
  if x.HasFullUrl jsonReference then
    (Outcome.ok, { currentSchema with ref := some jsonReference })
  else
    match currentSchema.ref with
    | none => (Outcome.nilDereference, currentSchema)
    | some base =>
      match x.Inherits base jsonReference with
      | (_, some err) => (Outcome.error err, currentSchema)
      | (inheritedReference, none) =>
        (Outcome.ok, { currentSchema with ref := inheritedReference })

/-- The result of the `$ref` section: its outcome, the mapping `m` the rest of
`parseSchema` goes on with, the node and the state. -/
structure RefRes (Ref : Type) where
  out : Outcome
  m : JsonMap
  node : JsonSchema Ref
  st : St Ref

/-- Lines 109-124 of `parseSchema`: the document of the node's `ref` is asked from the
pool, the pointer of the `ref` is followed in it, and the mapping found there replaces
`m`. -/
def resolve (x : Collaborators Ref) (d : JsonSchemaDocument Ref) (m : JsonMap)
    (currentSchema : JsonSchema Ref) (st : St Ref) : RefRes Ref :=
  match currentSchema.ref with
  | none => ⟨Outcome.nilDereference, m, currentSchema, st⟩
  | some ref =>
    let st := { st with requests := st.requests ++ [ref] }
    match d.pool.GetPoolDocument ref with
    | .error err => ⟨Outcome.error err, m, currentSchema, st⟩
    | .ok document =>
      match x.PointerGet ref document with
      | (_, some err) => ⟨Outcome.error err, m, currentSchema, st⟩
      | (.object httpDocumentNode, none) => ⟨Outcome.ok, httpDocumentNode, currentSchema, st⟩
      | (_, none) =>
        ⟨Outcome.error (ERROR_MESSAGE_X_MUST_BE_AN_OBJECT STRING_SCHEMA), m, currentSchema, st⟩

/-- Lines 89-125 of `parseSchema`: the `$ref` keyword. -/
def refSection (x : Collaborators Ref) (d : JsonSchemaDocument Ref) (m : JsonMap)
    (currentSchema : JsonSchema Ref) (st : St Ref) : RefRes Ref :=
  if existsMapKey m KEY_REF && !isKind (mapIndex m KEY_REF) Kind.String then
    ⟨Outcome.error (ERROR_MESSAGE_X_MUST_BE_OF_TYPE_Y KEY_REF STRING_STRING), m,
      currentSchema, st⟩
  else
    match mapIndex m KEY_REF with
    | .string k =>
      match x.NewJsonReference k with
      | (_, some err) => ⟨Outcome.error err, m, currentSchema, st⟩
      | (jsonReference, none) =>
        match setRef x jsonReference currentSchema with
        | (Outcome.ok, currentSchema) => resolve x d m currentSchema st
        | (out, currentSchema) => ⟨out, m, currentSchema, st⟩
    | _ => ⟨Outcome.ok, m, currentSchema, st⟩

/-- Lines 127-133 of `parseSchema`: the keyword `$id`. -/
def idKeyword (m : JsonMap) (currentSchema : JsonSchema Ref) : Option Error × JsonSchema Ref :=
  if existsMapKey m KEY_ID && !isKind (mapIndex m KEY_ID) Kind.String then
    (some (ERROR_MESSAGE_X_MUST_BE_OF_TYPE_Y KEY_ID STRING_STRING), currentSchema)
  else
    match mapIndex m KEY_ID with
    | .string k => (none, { currentSchema with id := some k })
    | _ => (none, currentSchema)

/-- Lines 135-141 of `parseSchema`: the keyword `title`. -/
def titleKeyword (m : JsonMap) (currentSchema : JsonSchema Ref) :
    Option Error × JsonSchema Ref :=
  if existsMapKey m KEY_TITLE && !isKind (mapIndex m KEY_TITLE) Kind.String then
    (some (ERROR_MESSAGE_X_MUST_BE_OF_TYPE_Y KEY_TITLE STRING_STRING), currentSchema)
  else
    match mapIndex m KEY_TITLE with
    | .string k => (none, { currentSchema with title := some k })
    | _ => (none, currentSchema)

/-- Lines 143-149 of `parseSchema`: the keyword `description`. -/
def descriptionKeyword (m : JsonMap) (currentSchema : JsonSchema Ref) :
    Option Error × JsonSchema Ref :=
  if existsMapKey m KEY_DESCRIPTION && !isKind (mapIndex m KEY_DESCRIPTION) Kind.String then
    (some (ERROR_MESSAGE_X_MUST_BE_OF_TYPE_Y KEY_DESCRIPTION STRING_STRING), currentSchema)
  else
    match mapIndex m KEY_DESCRIPTION with
    | .string k => (none, { currentSchema with description := some k })
    | _ => (none, currentSchema)

/-- Lines 151-162 of `parseSchema`: the keyword `type`. -/
def typeKeyword (m : JsonMap) (currentSchema : JsonSchema Ref) :
    Option Error × JsonSchema Ref :=
  if existsMapKey m KEY_TYPE && !isKind (mapIndex m KEY_TYPE) Kind.String then
    (some (ERROR_MESSAGE_X_MUST_BE_OF_TYPE_Y KEY_TYPE STRING_STRING), currentSchema)
  else
    match mapIndex m KEY_TYPE with
    | .string k =>
      if !isStringInSlice SCHEMA_TYPES k then
        (some (Error.message
          ("schema " ++ currentSchema.property ++ " - " ++ KEY_TYPE ++ " is invalid")),
          currentSchema)
      else
        (none, { currentSchema with etype := some k })
    | _ =>
      (some (Error.message
        ("schema " ++ currentSchema.property ++ " - " ++ KEY_TYPE ++ " is required")),
        currentSchema)

/-- Sequencing of two keyword checks: the second runs on the node the first left,
unless the first returned an error. -/
def andThen (r : Option Error × JsonSchema Ref)
    (next : JsonSchema Ref → Option Error × JsonSchema Ref) : Option Error × JsonSchema Ref :=
  match r with
  | (some err, currentSchema) => (some err, currentSchema)
  | (none, currentSchema) => next currentSchema

/-- Lines 127-162 of `parseSchema`: the keywords `$id`, `title`, `description` and
`type`, in this order. -/
def keywordSection (m : JsonMap) (currentSchema : JsonSchema Ref) :
    Option Error × JsonSchema Ref :=
  andThen (idKeyword m currentSchema) fun currentSchema =>
  andThen (titleKeyword m currentSchema) fun currentSchema =>
  andThen (descriptionKeyword m currentSchema) fun currentSchema =>
  typeKeyword m currentSchema

/-- The node `&JsonSchema{property: ROOT_SCHEMA_PROPERTY}` of line 55, allocated at the
next free address. -/
def newRootSchema (st : St Ref) : JsonSchema Ref :=
  { addr := st.next, property := ROOT_SCHEMA_PROPERTY, itemsChild := none,
    propertiesChildren := [] }

/-- The node `&JsonSchema{property: schemaProperty, parent: currentSchema,
ref: currentSchema.ref}` of line 206, allocated at the next free address. -/
def newPropertySchema (schemaProperty : String) (currentSchema : JsonSchema Ref)
    (st : St Ref) : JsonSchema Ref :=
  { addr := st.next, property := schemaProperty, parent := some currentSchema.addr,
    ref := currentSchema.ref, itemsChild := none, propertiesChildren := [] }

/-- The node `&JsonSchema{parent: currentSchema}` of line 185, allocated at the next
free address. -/
def newItemsSchema (currentSchema : JsonSchema Ref) (st : St Ref) : JsonSchema Ref :=
  { addr := st.next, parent := some currentSchema.addr, itemsChild := none,
    propertiesChildren := [] }

/-- The body of the loop of `parseProperties` (lines 205-211) for the key `k`.  The
source registers the new node with `AddPropertiesChild` before it parses it, and the
recursive call fills the node in through the pointer; here the node is registered as
the recursive call leaves it.  `parseSchema` is the recursive call. -/
def propertyBody (parseSchema : Json → JsonSchema Ref → St Ref → Res Ref) (m : JsonMap)
    (k : String) (currentSchema : JsonSchema Ref) (st : St Ref) : Res Ref :=
  let schemaProperty := k
  let newSchema := newPropertySchema schemaProperty currentSchema st
  let r := parseSchema (mapIndex m k) newSchema { st with next := st.next + 1 }
  ⟨r.out, currentSchema.AddPropertiesChild r.node, r.st⟩

/-- The function `parseProperties` (lines 197-215), over the recursive call
`parseSchema`. -/
def parsePropertiesWith (parseSchema : Json → JsonSchema Ref → St Ref → Res Ref)
    (documentNode : Json) (currentSchema : JsonSchema Ref) (st : St Ref) : Res Ref :=
  match documentNode with
  | .object m => forRange (propertyBody parseSchema m) (mapKeys m) currentSchema st
  | _ => ⟨Outcome.error (ERROR_MESSAGE_X_MUST_BE_AN_OBJECT STRING_PROPERTIES), currentSchema, st⟩

/-- The body of the first loop of `parseSchema` (lines 169-176) for the key `k`. -/
def propertiesBody (parseSchema : Json → JsonSchema Ref → St Ref → Res Ref) (m : JsonMap)
    (k : String) (currentSchema : JsonSchema Ref) (st : St Ref) : Res Ref :=
  if k = KEY_PROPERTIES then
    parsePropertiesWith parseSchema (mapIndex m k) currentSchema st
  else
    ⟨Outcome.ok, currentSchema, st⟩

/-- The body of the second loop of `parseSchema` (lines 183-192) for the key `k`.  As
in `propertyBody`, the new node is registered as the recursive call leaves it. -/
def itemsBody (parseSchema : Json → JsonSchema Ref → St Ref → Res Ref) (m : JsonMap)
    (k : String) (currentSchema : JsonSchema Ref) (st : St Ref) : Res Ref :=
  if k = KEY_ITEMS then
    let newSchema := newItemsSchema currentSchema st
    let r := parseSchema (mapIndex m k) newSchema { st with next := st.next + 1 }
    ⟨r.out, currentSchema.AddPropertiesChild r.node, r.st⟩
  else
    ⟨Outcome.ok, currentSchema, st⟩

/-- Lines 164-194 of `parseSchema`: the keywords `properties` and `items`. -/
def childrenSection (parseSchema : Json → JsonSchema Ref → St Ref → Res Ref) (m : JsonMap)
    (currentSchema : JsonSchema Ref) (st : St Ref) : Res Ref :=
  let r := forRange (propertiesBody parseSchema m) (mapKeys m) currentSchema st
  if r.out = Outcome.ok then
    forRange (itemsBody parseSchema m) (mapKeys m) r.node r.st
  else
    r

/-- Lines 127-194 of `parseSchema`: everything after the `$ref` section, run on the
mapping `m` that section left. -/
def parseKeywords (parseSchema : Json → JsonSchema Ref → St Ref → Res Ref) (m : JsonMap)
    (currentSchema : JsonSchema Ref) (st : St Ref) : Res Ref :=
  match keywordSection m currentSchema with
  | (some err, currentSchema) => ⟨Outcome.error err, currentSchema, st⟩
  | (none, currentSchema) => childrenSection parseSchema m currentSchema st

/-- The function `parseSchema` (lines 59-195).  `fuel` bounds the depth of the
recursion: each nested call of `parseSchema` has one unit less. -/
def parseSchema (x : Collaborators Ref) (d : JsonSchemaDocument Ref) :
    Nat → Json → JsonSchema Ref → St Ref → Res Ref
  | 0, _, currentSchema, st => ⟨Outcome.outOfFuel, currentSchema, st⟩
  | fuel + 1, .object m, currentSchema, st =>
    match rootSection x d m currentSchema with
    | (some err, currentSchema) => ⟨Outcome.error err, currentSchema, st⟩
    | (none, currentSchema) =>
      let r := refSection x d m currentSchema st
      if r.out = Outcome.ok then
        parseKeywords (parseSchema x d fuel) r.m r.node r.st
      else
        ⟨r.out, r.node, r.st⟩
  | _ + 1, _, currentSchema, st =>
    ⟨Outcome.error (ERROR_MESSAGE_X_MUST_BE_AN_OBJECT STRING_SCHEMA), currentSchema, st⟩

/-- The function `parseProperties` (lines 197-215); `fuel` is the bound for the calls
of `parseSchema` it makes. -/
def parseProperties (x : Collaborators Ref) (d : JsonSchemaDocument Ref) (fuel : Nat)
    (documentNode : Json) (currentSchema : JsonSchema Ref) (st : St Ref) : Res Ref :=
  parsePropertiesWith (parseSchema x d fuel) documentNode currentSchema st

/-- The function `parse` (lines 54-57): a fresh root node is allocated, `d.rootSchema`
points to it, and the document is parsed into it.  Returns the document struct and the
result of `parseSchema`, whose node is the root. -/
def parse (x : Collaborators Ref) (d : JsonSchemaDocument Ref) (fuel : Nat) (document : Json)
    (st : St Ref) : JsonSchemaDocument Ref × Res Ref :=
  let rootSchema := newRootSchema st
  let d := { d with rootSchema := some rootSchema.addr }
  (d, parseSchema x d fuel document rootSchema { st with next := st.next + 1 })

/-- What `NewJsonSchemaDocument` returns: the pointer to the document struct (with the
root node it points to), or `none` for nil; the outcome; the state. -/
structure NewRes (Ref : Type) where
  document : Option (JsonSchemaDocument Ref × JsonSchema Ref)
  out : Outcome
  st : St Ref

/-- The function `NewJsonSchemaDocument` (lines 31-46).  `NewSchemaPool` is the pool
that `NewSchemaPool()` returns.  The error of `NewJsonReference` is assigned to `err`
and overwritten by the next assignment before it is read. -/
def NewJsonSchemaDocument (x : Collaborators Ref) (NewSchemaPool : SchemaPool Ref) (fuel : Nat)
    (documentReferenceString : String) (st : St Ref) : NewRes Ref :=
  let d : JsonSchemaDocument Ref :=
    { documentReference := (x.NewJsonReference documentReferenceString).1,
      rootSchema := none, pool := NewSchemaPool }
  let st := { st with requests := st.requests ++ [d.documentReference] }
  match d.pool.GetPoolDocument d.documentReference with
  | .error err => ⟨none, Outcome.error err, st⟩
  | .ok document =>
    let r := parse x d fuel document st
    ⟨some (r.1, r.2.node), r.2.out, r.2.st⟩

/-- The state before anything is allocated or fetched. -/
def St.initial : St Ref :=
  { next := 0, requests := [] }

/-! ## The parser over pointers

The same functions with the nodes and the references held in a store and named by
their addresses, as the source holds them behind `*JsonSchema` and `*JsonReference`:
two nodes can point to one reference, and an assignment to a field of a node is an
update of the store.  Used for the properties that are about this sharing. -/

namespace Ptr

/-- Modelled from the spec: the struct `JsonSchema` (declared outside
schemaDocument.go) as it lies in memory.  The links to references (`schema`, `ref`) and
to other nodes (`parent`, the items child, the properties children) are addresses in
the store, `none` for nil. -/
structure JsonSchema where
  id : Option String := none
  title : Option String := none
  description : Option String := none
  etype : Option String := none
  schema : Option Nat := none
  ref : Option Nat := none
  property : String := ""
  parent : Option Nat := none
  itemsChild : Option Nat := none
  propertiesChildren : List Nat := []

/-- The memory the parser works on: the `JsonSchema` structs allocated so far (a
`*JsonSchema` is an index in `schemas`), the `JsonReference` values that a pointer can
point to (a `*JsonReference` is an index in `references`), and the references passed to
`GetPoolDocument` so far. -/
structure Store (Ref : Type) where
  schemas : List JsonSchema
  references : List Ref
  requests : List Ref

/-- The struct `JsonSchemaDocument` (lines 48-52) in memory: `documentReference` is the
address `&d.documentReference` of its field, `rootSchema` the pointer to the root
node. -/
structure JsonSchemaDocument (Ref : Type) where
  documentReference : Nat
  rootSchema : Option Nat
  pool : SchemaPool Ref

/-- The address-of a local or returned reference value, `&jsonReference`: the value
gets a place of its own in memory. -/
def Store.addressOf (s : Store Ref) (r : Ref) : Nat × Store Ref :=
  (s.references.length, { s with references := s.references ++ [r] })

/-- The allocation `&JsonSchema{...}` of a node. -/
def Store.alloc (s : Store Ref) (n : JsonSchema) : Nat × Store Ref :=
  (s.schemas.length, { s with schemas := s.schemas ++ [n] })

/-- The assignment `p.field = value` to a field of the node that `p` points to. -/
def Store.assign (s : Store Ref) (p : Nat) (f : JsonSchema → JsonSchema) : Store Ref :=
  match s.schemas[p]? with
  | some n => { s with schemas := s.schemas.set p (f n) }
  | none => s

/-- The field `p.ref` of the node that `p` points to. -/
def Store.ref (s : Store Ref) (p : Nat) : Option Nat :=
  (s.schemas[p]?).bind fun n => n.ref

/-- The field `p.property` of the node that `p` points to. -/
def Store.property (s : Store Ref) (p : Nat) : String :=
  ((s.schemas[p]?).map fun n => n.property).getD ""

/-- The dereference `*r` of a pointer to a reference; `none` when the pointer is nil. -/
def Store.deref (s : Store Ref) (r : Option Nat) : Option Ref :=
  r.bind fun a => s.references[a]?

/-- Modelled from the spec: `AddPropertiesChild` (declared outside schemaDocument.go)
appends the pointer to the child to the properties children of the node. -/
def AddPropertiesChild (currentSchema child : Nat) (s : Store Ref) : Store Ref :=
  s.assign currentSchema fun n => { n with propertiesChildren := n.propertiesChildren ++ [child] }

/-- A `for k := range m` loop whose body may return from the enclosing function. -/
def forRange (body : String → Store Ref → Outcome × Store Ref) :
    List String → Store Ref → Outcome × Store Ref
  | [], s => (Outcome.ok, s)
  | k :: ks, s =>
    let r := body k s
    if r.1 = Outcome.ok then forRange body ks r.2 else r

/-- Lines 67-87 of `parseSchema`: the `$schema` keyword of the root node. -/
def rootSection (x : Collaborators Ref) (d : JsonSchemaDocument Ref) (m : JsonMap)
    (currentSchema : Nat) (s : Store Ref) : Option Error × Store Ref :=
  if some currentSchema = d.rootSchema then
    if !existsMapKey m KEY_SCHEMA then
      (some (ERROR_MESSAGE_X_IS_REQUIRED KEY_SCHEMA), s)
    else
      match mapIndex m KEY_SCHEMA with
      | .string schemaRef =>
        match x.NewJsonReference schemaRef with
        | (schemaReference, err) =>
          let (p, s) := s.addressOf schemaReference
          let s := s.assign currentSchema fun n => { n with schema := some p }
          match err with
          | some err => (some err, s)
          | none =>
            let s := s.assign currentSchema fun n => { n with ref := some d.documentReference }
            if existsMapKey m KEY_REF then
              (some (Error.message ("No " ++ KEY_REF ++ " is allowed in root schema")), s)
            else
              (none, s)
      | _ => (some (ERROR_MESSAGE_X_MUST_BE_OF_TYPE_Y KEY_SCHEMA STRING_STRING), s)
  else
    (none, s)

/-- Lines 99-107 of `parseSchema`: `currentSchema.ref` is made to point to the parsed
`$ref`, or to the reference `Inherits` returns for `*currentSchema.ref` and the parsed
`$ref`.  The field gets a new pointer; nothing is written to the reference it pointed
to. -/
def setRef (x : Collaborators Ref) (jsonReference : Ref) (currentSchema : Nat)
    (s : Store Ref) : Outcome × Store Ref :=
  if x.HasFullUrl jsonReference then
    let (p, s) := s.addressOf jsonReference
    (Outcome.ok, s.assign currentSchema fun n => { n with ref := some p })
  else
    match s.deref (s.ref currentSchema) with
    | none => (Outcome.nilDereference, s)
    | some base =>
      match x.Inherits base jsonReference with
      | (_, some err) => (Outcome.error err, s)
      | (some inheritedReference, none) =>
        let (p, s) := s.addressOf inheritedReference
        (Outcome.ok, s.assign currentSchema fun n => { n with ref := some p })
      | (none, none) =>
        (Outcome.ok, s.assign currentSchema fun n => { n with ref := none })

/-- Lines 109-124 of `parseSchema`: the document of `*currentSchema.ref` is asked from
the pool, the pointer of the reference is followed in it, and the mapping found there
replaces `m`. -/
def resolve (x : Collaborators Ref) (d : JsonSchemaDocument Ref) (m : JsonMap)
    (currentSchema : Nat) (s : Store Ref) : Outcome × JsonMap × Store Ref :=
  match s.deref (s.ref currentSchema) with
  | none => (Outcome.nilDereference, m, s)
  | some ref =>
    let s := { s with requests := s.requests ++ [ref] }
    match d.pool.GetPoolDocument ref with
    | .error err => (Outcome.error err, m, s)
    | .ok document =>
      match x.PointerGet ref document with
      | (_, some err) => (Outcome.error err, m, s)
      | (.object httpDocumentNode, none) => (Outcome.ok, httpDocumentNode, s)
      | (_, none) => (Outcome.error (ERROR_MESSAGE_X_MUST_BE_AN_OBJECT STRING_SCHEMA), m, s)

/-- Lines 89-125 of `parseSchema`: the `$ref` keyword. -/
def refSection (x : Collaborators Ref) (d : JsonSchemaDocument Ref) (m : JsonMap)
    (currentSchema : Nat) (s : Store Ref) : Outcome × JsonMap × Store Ref :=
  if existsMapKey m KEY_REF && !isKind (mapIndex m KEY_REF) Kind.String then
    (Outcome.error (ERROR_MESSAGE_X_MUST_BE_OF_TYPE_Y KEY_REF STRING_STRING), m, s)
  else
    match mapIndex m KEY_REF with
    | .string k =>
      match x.NewJsonReference k with
      | (_, some err) => (Outcome.error err, m, s)
      | (jsonReference, none) =>
        match setRef x jsonReference currentSchema s with
        | (Outcome.ok, s) => resolve x d m currentSchema s
        | (out, s) => (out, m, s)
    | _ => (Outcome.ok, m, s)

/-- Lines 127-133 of `parseSchema`: the keyword `$id`. -/
def idKeyword (m : JsonMap) (currentSchema : Nat) (s : Store Ref) : Option Error × Store Ref :=
  if existsMapKey m KEY_ID && !isKind (mapIndex m KEY_ID) Kind.String then
    (some (ERROR_MESSAGE_X_MUST_BE_OF_TYPE_Y KEY_ID STRING_STRING), s)
  else
    match mapIndex m KEY_ID with
    | .string k => (none, s.assign currentSchema fun n => { n with id := some k })
    | _ => (none, s)

/-- Lines 135-141 of `parseSchema`: the keyword `title`. -/
def titleKeyword (m : JsonMap) (currentSchema : Nat) (s : Store Ref) :
    Option Error × Store Ref :=
  if existsMapKey m KEY_TITLE && !isKind (mapIndex m KEY_TITLE) Kind.String then
    (some (ERROR_MESSAGE_X_MUST_BE_OF_TYPE_Y KEY_TITLE STRING_STRING), s)
  else
    match mapIndex m KEY_TITLE with
    | .string k => (none, s.assign currentSchema fun n => { n with title := some k })
    | _ => (none, s)

/-- Lines 143-149 of `parseSchema`: the keyword `description`. -/
def descriptionKeyword (m : JsonMap) (currentSchema : Nat) (s : Store Ref) :
    Option Error × Store Ref :=
  if existsMapKey m KEY_DESCRIPTION && !isKind (mapIndex m KEY_DESCRIPTION) Kind.String then
    (some (ERROR_MESSAGE_X_MUST_BE_OF_TYPE_Y KEY_DESCRIPTION STRING_STRING), s)
  else
    match mapIndex m KEY_DESCRIPTION with
    | .string k => (none, s.assign currentSchema fun n => { n with description := some k })
    | _ => (none, s)

/-- Lines 151-162 of `parseSchema`: the keyword `type`. -/
def typeKeyword (m : JsonMap) (currentSchema : Nat) (s : Store Ref) :
    Option Error × Store Ref :=
  if existsMapKey m KEY_TYPE && !isKind (mapIndex m KEY_TYPE) Kind.String then
    (some (ERROR_MESSAGE_X_MUST_BE_OF_TYPE_Y KEY_TYPE STRING_STRING), s)
  else
    match mapIndex m KEY_TYPE with
    | .string k =>
      if !isStringInSlice SCHEMA_TYPES k then
        (some (Error.message
          ("schema " ++ s.property currentSchema ++ " - " ++ KEY_TYPE ++ " is invalid")), s)
      else
        (none, s.assign currentSchema fun n => { n with etype := some k })
    | _ =>
      (some (Error.message
        ("schema " ++ s.property currentSchema ++ " - " ++ KEY_TYPE ++ " is required")), s)

/-- Sequencing of two keyword checks: the second runs in the store the first left,
unless the first returned an error. -/
def andThen (r : Option Error × Store Ref) (next : Store Ref → Option Error × Store Ref) :
    Option Error × Store Ref :=
  match r with
  | (some err, s) => (some err, s)
  | (none, s) => next s

/-- Lines 127-162 of `parseSchema`: the keywords `$id`, `title`, `description` and
`type`, in this order. -/
def keywordSection (m : JsonMap) (currentSchema : Nat) (s : Store Ref) :
    Option Error × Store Ref :=
  andThen (idKeyword m currentSchema s) fun s =>
  andThen (titleKeyword m currentSchema s) fun s =>
  andThen (descriptionKeyword m currentSchema s) fun s =>
  typeKeyword m currentSchema s

/-- The body of the loop of `parseProperties` (lines 205-211) for the key `k`: the new
node is allocated with the pointer `currentSchema.ref` of its parent in its own `ref`,
registered with the parent, and parsed.  `parseSchema` is the recursive call. -/
def propertyBody (parseSchema : Json → Nat → Store Ref → Outcome × Store Ref) (m : JsonMap)
    (currentSchema : Nat) (k : String) (s : Store Ref) : Outcome × Store Ref :=
  let schemaProperty := k
  let (newSchema, s) := s.alloc
    { property := schemaProperty, parent := some currentSchema, ref := s.ref currentSchema }
  let s := AddPropertiesChild currentSchema newSchema s
  parseSchema (mapIndex m k) newSchema s

/-- The function `parseProperties` (lines 197-215), over the recursive call
`parseSchema`. -/
def parsePropertiesWith (parseSchema : Json → Nat → Store Ref → Outcome × Store Ref)
    (documentNode : Json) (currentSchema : Nat) (s : Store Ref) : Outcome × Store Ref :=
  match documentNode with
  | .object m => forRange (propertyBody parseSchema m currentSchema) (mapKeys m) s
  | _ => (Outcome.error (ERROR_MESSAGE_X_MUST_BE_AN_OBJECT STRING_PROPERTIES), s)

/-- The body of the first loop of `parseSchema` (lines 169-176) for the key `k`. -/
def propertiesBody (parseSchema : Json → Nat → Store Ref → Outcome × Store Ref) (m : JsonMap)
    (currentSchema : Nat) (k : String) (s : Store Ref) : Outcome × Store Ref :=
  if k = KEY_PROPERTIES then
    parsePropertiesWith parseSchema (mapIndex m k) currentSchema s
  else
    (Outcome.ok, s)

/-- The body of the second loop of `parseSchema` (lines 183-192) for the key `k`. -/
def itemsBody (parseSchema : Json → Nat → Store Ref → Outcome × Store Ref) (m : JsonMap)
    (currentSchema : Nat) (k : String) (s : Store Ref) : Outcome × Store Ref :=
  if k = KEY_ITEMS then
    let (newSchema, s) := s.alloc { parent := some currentSchema }
    let s := AddPropertiesChild currentSchema newSchema s
    parseSchema (mapIndex m k) newSchema s
  else
    (Outcome.ok, s)

/-- Lines 164-194 of `parseSchema`: the keywords `properties` and `items`. -/
def childrenSection (parseSchema : Json → Nat → Store Ref → Outcome × Store Ref) (m : JsonMap)
    (currentSchema : Nat) (s : Store Ref) : Outcome × Store Ref :=
  let r := forRange (propertiesBody parseSchema m currentSchema) (mapKeys m) s
  if r.1 = Outcome.ok then
    forRange (itemsBody parseSchema m currentSchema) (mapKeys m) r.2
  else
    r

/-- Lines 127-194 of `parseSchema`: everything after the `$ref` section, run on the
mapping `m` that section left. -/
def parseKeywords (parseSchema : Json → Nat → Store Ref → Outcome × Store Ref) (m : JsonMap)
    (currentSchema : Nat) (s : Store Ref) : Outcome × Store Ref :=
  match keywordSection m currentSchema s with
  | (some err, s) => (Outcome.error err, s)
  | (none, s) => childrenSection parseSchema m currentSchema s

/-- The function `parseSchema` (lines 59-195) on the node that `currentSchema` points
to.  `fuel` bounds the depth of the recursion. -/
def parseSchema (x : Collaborators Ref) (d : JsonSchemaDocument Ref) :
    Nat → Json → Nat → Store Ref → Outcome × Store Ref
  | 0, _, _, s => (Outcome.outOfFuel, s)
  | fuel + 1, .object m, currentSchema, s =>
    match rootSection x d m currentSchema s with
    | (some err, s) => (Outcome.error err, s)
    | (none, s) =>
      match refSection x d m currentSchema s with
      | (Outcome.ok, m, s) => parseKeywords (parseSchema x d fuel) m currentSchema s
      | (out, _, s) => (out, s)
  | _ + 1, _, _, s => (Outcome.error (ERROR_MESSAGE_X_MUST_BE_AN_OBJECT STRING_SCHEMA), s)

/-- The function `parseProperties` (lines 197-215); `fuel` is the bound for the calls
of `parseSchema` it makes. -/
def parseProperties (x : Collaborators Ref) (d : JsonSchemaDocument Ref) (fuel : Nat)
    (documentNode : Json) (currentSchema : Nat) (s : Store Ref) : Outcome × Store Ref :=
  parsePropertiesWith (parseSchema x d fuel) documentNode currentSchema s

/-- The store `t` is the store `s` with more nodes and more references: every reference
of `s` is in its place with its value, and every node of `s` other than the one at `p`
is as it was. -/
def Store.Frame (p : Nat) (s t : Store Ref) : Prop :=
  s.references <+: t.references ∧ s.schemas.length ≤ t.schemas.length
    ∧ ∀ q, q < s.schemas.length → q ≠ p → t.schemas[q]? = s.schemas[q]?

end Ptr

/-- The node `cur` of the embedding over values stands for the node at `p` of the
store: the address is allocated, the label is the same, and the `ref` of `cur` is the
reference that the pointer `p.ref` points to, a reference of the store when it is not
nil. -/
def Represents (s : Ptr.Store Ref) (p : Nat) (cur : JsonSchema Ref) : Prop :=
  p < s.schemas.length ∧ cur.property = s.property p ∧ cur.ref = s.deref (s.ref p)
    ∧ ∀ a, s.ref p = some a → a < s.references.length

/-- The document struct `d` of the embedding over values stands for the struct `dP` in
the store `s`: the pool is the same, and the reference of the document lies at the
address `dP.documentReference`. -/
def SameDocument (d : JsonSchemaDocument Ref) (dP : Ptr.JsonSchemaDocument Ref)
    (s : Ptr.Store Ref) : Prop :=
  dP.pool = d.pool ∧ s.references[dP.documentReference]? = some d.documentReference

/-- What the loops of the two embeddings keep: the node of the one stands for the node
of the other, the document struct of the one for that of the other, and the root node
was allocated before every free address. -/
def AgreeInv (d : JsonSchemaDocument Ref) (dP : Ptr.JsonSchemaDocument Ref) (p : Nat)
    (s : Ptr.Store Ref) (c : JsonSchema Ref) (st : St Ref) : Prop :=
  Represents s p c ∧ SameDocument d dP s ∧ (∀ a, d.rootSchema = some a → a < st.next)
    ∧ ∀ a, dP.rootSchema = some a → a < s.schemas.length

/-- The recursive calls of the two embeddings have the same outcome on nodes that stand
for each other, both the root or both not. -/
def AgreeCall (d : JsonSchemaDocument Ref) (dP : Ptr.JsonSchemaDocument Ref)
    (callP : Json → Nat → Ptr.Store Ref → Outcome × Ptr.Store Ref)
    (callT : Json → JsonSchema Ref → St Ref → Res Ref) : Prop :=
  ∀ doc q s cur st, AgreeInv d dP q s cur st →
    (some cur.addr = d.rootSchema ↔ some q = dP.rootSchema) →
    (callP doc q s).1 = (callT doc cur st).out

/-! ## Properties of schema trees and documents -/

mutual
/-- Every node of the tree (the node, and every node reached through properties and
items children) has its `etype` set to one of `SCHEMA_TYPES`. -/
def JsonSchema.allTyped : JsonSchema Ref → Bool
  | ⟨_, _, _, _, etype, _, _, _, _, itemsChild, propertiesChildren⟩ =>
    (match etype with
      | some t => isStringInSlice SCHEMA_TYPES t
      | none => false)
    && allTypedOption itemsChild && allTypedList propertiesChildren
/-- The items child, when there is one, is `allTyped`. -/
def allTypedOption : Option (JsonSchema Ref) → Bool
  | none => true
  | some c => c.allTyped
/-- Every child of the list is `allTyped`. -/
def allTypedList : List (JsonSchema Ref) → Bool
  | [] => true
  | c :: cs => c.allTyped && allTypedList cs
end

/-- Two nodes have the same identity, label, parent and children: they differ at most in
the fields that hold keyword values (`id`, `title`, `description`, `etype`, `schema`,
`ref`). -/
def JsonSchema.SameLinks (a b : JsonSchema Ref) : Prop :=
  a.addr = b.addr ∧ a.property = b.property ∧ a.parent = b.parent
    ∧ a.itemsChild = b.itemsChild ∧ a.propertiesChildren = b.propertiesChildren

/-- The recursive call, on a node whose children are typed, leaves a typed tree
whenever it ends with `ok`. -/
def TypedCall (call : Json → JsonSchema Ref → St Ref → Res Ref) : Prop :=
  ∀ doc cur st, allTypedOption cur.itemsChild = true →
    allTypedList cur.propertiesChildren = true →
    (call doc cur st).out = Outcome.ok → (call doc cur st).node.allTyped = true

/-- The keyword `key` is absent from the mapping or holds a string: the check of an
optional string keyword (`$id`, `title`, `description`) passes. -/
def stringOrAbsent (m : JsonMap) (key : String) : Bool :=
  !existsMapKey m key || isKind (mapIndex m key) Kind.String

/-- The document holds a node without `type` that the parser reaches without following
a `$ref`: the mapping has neither `type` nor `$ref`; or it has no `$ref` and such a node
lies in a value of its `properties` mapping or in its `items` value. -/
inductive MissingType : Json → Prop where
  | here (m : JsonMap) (htype : KEY_TYPE ∉ mapKeys m) (href : KEY_REF ∉ mapKeys m) :
      MissingType (Json.object m)
  | property (m ps : JsonMap) (k : String) (v : Json) (href : KEY_REF ∉ mapKeys m)
      (hps : m.lookup KEY_PROPERTIES = some (Json.object ps)) (hv : ps.lookup k = some v)
      (hmiss : MissingType v) : MissingType (Json.object m)
  | items (m : JsonMap) (v : Json) (href : KEY_REF ∉ mapKeys m)
      (hv : m.lookup KEY_ITEMS = some v) (hmiss : MissingType v) : MissingType (Json.object m)

mutual
/-- Two documents are the same up to the enumeration order of the entries of their node
mappings: the two mappings hold each key once, agree on every keyword other than
`properties` and `items`, have `items` values that are the same up to that order, and
have `properties` mappings that list the same names in the same order, with values
that are the same up to that order. -/
inductive SameNode : Json → Json → Prop where
  | refl (v : Json) : SameNode v v
  | node (m1 m2 : JsonMap) (h1 : (mapKeys m1).Nodup) (h2 : (mapKeys m2).Nodup)
      (hother : ∀ k, k ≠ KEY_PROPERTIES → k ≠ KEY_ITEMS → m1.lookup k = m2.lookup k)
      (hitems : SameItems (m1.lookup KEY_ITEMS) (m2.lookup KEY_ITEMS))
      (hprops : SamePropertiesValue (m1.lookup KEY_PROPERTIES) (m2.lookup KEY_PROPERTIES)) :
      SameNode (Json.object m1) (Json.object m2)
/-- The `items` values of two mappings: both absent, or related by `SameNode`. -/
inductive SameItems : Option Json → Option Json → Prop where
  | absent : SameItems none none
  | present (v1 v2 : Json) (h : SameNode v1 v2) : SameItems (some v1) (some v2)
/-- The `properties` values of two mappings: equal, or two mappings related by
`SameProperties`. -/
inductive SamePropertiesValue : Option Json → Option Json → Prop where
  | same (o : Option Json) : SamePropertiesValue o o
  | mappings (ps1 ps2 : JsonMap) (h : SameProperties ps1 ps2) :
      SamePropertiesValue (some (Json.object ps1)) (some (Json.object ps2))
/-- Two `properties` mappings list the same names in the same order, with values related
by `SameNode`. -/
inductive SameProperties : JsonMap → JsonMap → Prop where
  | nil : SameProperties [] []
  | cons (k : String) (v1 v2 : Json) (r1 r2 : JsonMap) (h : SameNode v1 v2)
      (hrest : SameProperties r1 r2) : SameProperties ((k, v1) :: r1) ((k, v2) :: r2)
end

/-- The recursive call gives the same result on documents that are the same up to the
enumeration order of the entries of their node mappings. -/
def OrderBlindCall (call : Json → JsonSchema Ref → St Ref → Res Ref) : Prop :=
  ∀ v1 v2, SameNode v1 v2 → ∀ cur st, call v1 cur st = call v2 cur st

/-- Two nodes have the same identity, label and parent. -/
def JsonSchema.SameLabel (a b : JsonSchema Ref) : Prop :=
  a.addr = b.addr ∧ a.property = b.property ∧ a.parent = b.parent

/-- Node `a` is node `b` with more properties children: the `ref`, the `$schema`
dialect and the items child are the same, and the properties children of `b` are the
first properties children of `a`, unchanged. -/
def JsonSchema.Grown (a b : JsonSchema Ref) : Prop :=
  a.ref = b.ref ∧ a.schema = b.schema ∧ a.itemsChild = b.itemsChild
    ∧ b.propertiesChildren <+: a.propertiesChildren

mutual
/-- No node of the tree (the node, and every node reached through properties and items
children) has the `$schema` dialect reference set. -/
def JsonSchema.noDialect : JsonSchema Ref → Bool
  | ⟨_, _, _, _, _, schema, _, _, _, itemsChild, propertiesChildren⟩ =>
    schema.isNone && noDialectOption itemsChild && noDialectList propertiesChildren
/-- The items child, when there is one, is `noDialect`. -/
def noDialectOption : Option (JsonSchema Ref) → Bool
  | none => true
  | some c => c.noDialect
/-- Every child of the list is `noDialect`. -/
def noDialectList : List (JsonSchema Ref) → Bool
  | [] => true
  | c :: cs => c.noDialect && noDialectList cs
end

/-- The recursive call, on a node other than the root (at address `root`) without a
dialect in it, in a state whose free addresses lie past the root, leaves a tree without
a dialect and does not lower the next free address. -/
def DialectCall (root : Nat) (call : Json → JsonSchema Ref → St Ref → Res Ref) : Prop :=
  ∀ doc cur st, root < st.next → cur.addr ≠ root → cur.schema = none →
    noDialectOption cur.itemsChild = true → noDialectList cur.propertiesChildren = true →
    (call doc cur st).node.noDialect = true ∧ st.next ≤ (call doc cur st).st.next

mutual
/-- The nesting depth of a decoded value: 0 for a value that is neither a mapping nor a
sequence, and one more than the deepest value it holds otherwise. -/
def Json.depth : Json → Nat
  | .array xs => depthList xs + 1
  | .object m => depthEntries m + 1
  | _ => 0
/-- The depth of the deepest element of a sequence. -/
def depthList : List Json → Nat
  | [] => 0
  | v :: vs => max v.depth (depthList vs)
/-- The depth of the deepest value of a mapping. -/
def depthEntries : List (String × Json) → Nat
  | [] => 0
  | (_, v) :: rest => max v.depth (depthEntries rest)
end

mutual
/-- The decoded value holds no `$ref` key, at any depth. -/
def Json.noRef : Json → Bool
  | .array xs => noRefList xs
  | .object m => !(m.lookup KEY_REF).isSome && noRefEntries m
  | _ => true
/-- No element of the sequence holds a `$ref` key. -/
def noRefList : List Json → Bool
  | [] => true
  | v :: vs => v.noRef && noRefList vs
/-- No value of the mapping holds a `$ref` key. -/
def noRefEntries : List (String × Json) → Bool
  | [] => true
  | (_, v) :: rest => v.noRef && noRefEntries rest
end

/-- Two recursive calls agree, and do not run out of fuel, on the values that satisfy
`Q`. -/
def AgreeOn (Q : Json → Prop) (call1 call2 : Json → JsonSchema Ref → St Ref → Res Ref) : Prop :=
  ∀ v, Q v → ∀ cur st,
    call1 v cur st = call2 v cur st ∧ (call1 v cur st).out ≠ Outcome.outOfFuel

/-- The mapping without its `$ref` entries. -/
def eraseRef (m : JsonMap) : JsonMap :=
  m.filter fun e => e.1 != KEY_REF

/-- The error of a keyword that must hold a string (`$ref`, `$id`, `title`,
`description`): the mapping holds a value of another kind under it. -/
def wrongKind (m : JsonMap) (key : String) : Option Error :=
  match m.lookup key with
  | some (.string _) => none
  | some _ => some (ERROR_MESSAGE_X_MUST_BE_OF_TYPE_Y key STRING_STRING)
  | none => none

/-- The error of the keyword `type` on a node labelled `property`: the key is absent,
holds a value that is not a string, or holds a string that is not one of
`SCHEMA_TYPES`. -/
def typeInvalid (m : JsonMap) (property : String) : Option Error :=
  match m.lookup KEY_TYPE with
  | some (.string k) =>
    if isStringInSlice SCHEMA_TYPES k then none
    else some (Error.message ("schema " ++ property ++ " - " ++ KEY_TYPE ++ " is invalid"))
  | some _ => some (ERROR_MESSAGE_X_MUST_BE_OF_TYPE_Y KEY_TYPE STRING_STRING)
  | none => some (Error.message ("schema " ++ property ++ " - " ++ KEY_TYPE ++ " is required"))

/-- The error of the keyword `properties`: the key holds a value that is not a
mapping. -/
def propertiesInvalid (m : JsonMap) : Option Error :=
  match m.lookup KEY_PROPERTIES with
  | some (.object _) => none
  | some _ => some (ERROR_MESSAGE_X_MUST_BE_AN_OBJECT STRING_PROPERTIES)
  | none => none

/-- The error of the keyword `items`: the key holds a value that is not a mapping. -/
def itemsInvalid (m : JsonMap) : Option Error :=
  match m.lookup KEY_ITEMS with
  | some (.object _) => none
  | some _ => some (ERROR_MESSAGE_X_MUST_BE_AN_OBJECT STRING_SCHEMA)
  | none => none

/-- Follows the words of the specification: the error of the earliest invalid keyword
of the mapping of a node labelled `property`, in the order `$id`, `title`,
`description`, `type`, `properties`. -/
def earliestInvalid (m : JsonMap) (property : String) : Option Error :=
  [wrongKind m KEY_ID, wrongKind m KEY_TITLE, wrongKind m KEY_DESCRIPTION,
    typeInvalid m property, propertiesInvalid m].findSome? id

/-- Two decoded values are the same up to the enumeration order of the entries of their
mappings, at every depth: they are one value that is not a mapping; or two sequences of
the same length whose elements are, place by place, the same up to that order; or two
mappings that hold the same keys, each once, under which the values are the same up to
that order. -/
inductive Reordered : Json → Json → Prop where
  | atom (v : Json) (h : kindOf v ≠ Kind.Map) : Reordered v v
  | array (xs ys : List Json) (hlen : xs.length = ys.length)
      (h : ∀ (i : Nat) v w, xs[i]? = some v → ys[i]? = some w → Reordered v w) :
      Reordered (Json.array xs) (Json.array ys)
  | object (m1 m2 : JsonMap) (h1 : (mapKeys m1).Nodup) (h2 : (mapKeys m2).Nodup)
      (hkeys : ∀ k, k ∈ mapKeys m1 ↔ k ∈ mapKeys m2)
      (hval : ∀ k v1 v2, m1.lookup k = some v1 → m2.lookup k = some v2 → Reordered v1 v2) :
      Reordered (Json.object m1) (Json.object m2)

/-- The navigation of a pointer does not depend on the enumeration order of the
mappings it goes through: on two documents that are the same up to that order it
returns the same error, and values that are the same up to that order. -/
def Collaborators.OrderBlind (x : Collaborators Ref) : Prop :=
  ∀ ref a b, Reordered a b →
    (x.PointerGet ref a).2 = (x.PointerGet ref b).2
    ∧ Reordered (x.PointerGet ref a).1 (x.PointerGet ref b).1

/-- Two pools hold the same documents up to the enumeration order of their mappings:
for every reference they return the same error, or two documents that are the same up
to that order. -/
def SchemaPool.SameUpToOrder (p1 p2 : SchemaPool Ref) : Prop :=
  ∀ ref,
    match p1.GetPoolDocument ref, p2.GetPoolDocument ref with
    | .ok a, .ok b => Reordered a b
    | .error e1, .error e2 => e1 = e2
    | _, _ => False

/-- The first outcome of the list that is not `ok`; `ok` when there is none. -/
def firstFailure : List Outcome → Outcome
  | [] => Outcome.ok
  | o :: os => if o = Outcome.ok then firstFailure os else o

/-- The outcome of parsing the entry `k` of the `properties` mapping `ps` of the node
`currentSchema` when it is the first entry enumerated. -/
def entryOutcome (call : Json → JsonSchema Ref → St Ref → Res Ref) (ps : JsonMap)
    (currentSchema : JsonSchema Ref) (st : St Ref) (k : String) : Outcome :=
  (call (mapIndex ps k) (newPropertySchema k currentSchema st)
    { st with next := st.next + 1 }).out

/-- In every `properties` mapping that `parseSchema` reaches on the document, at any
depth and through `$ref`, the entries that fail when parsed first all fail with the
same outcome: no two entries fail in different ways.  It holds in particular when at
most one entry of each `properties` mapping fails. -/
def Unambiguous (x : Collaborators Ref) (d : JsonSchemaDocument Ref) :
    Nat → Json → JsonSchema Ref → St Ref → Bool
  | fuel + 1, .object m, currentSchema, st =>
    match rootSection x d m currentSchema with
    | (some _, _) => true
    | (none, currentSchema) =>
      let r := refSection x d m currentSchema st
      if r.out = Outcome.ok then
        match keywordSection r.m r.node with
        | (some _, _) => true
        | (none, currentSchema) =>
          (match r.m.lookup KEY_PROPERTIES with
            | some (.object ps) =>
              (mapKeys ps).all fun k =>
                Unambiguous x d fuel (mapIndex ps k) (newPropertySchema k currentSchema r.st)
                  { r.st with next := r.st.next + 1 }
                && (mapKeys ps).all fun k2 =>
                  decide (entryOutcome (parseSchema x d fuel) ps currentSchema r.st k
                      = Outcome.ok
                    ∨ entryOutcome (parseSchema x d fuel) ps currentSchema r.st k2
                      = Outcome.ok
                    ∨ entryOutcome (parseSchema x d fuel) ps currentSchema r.st k
                      = entryOutcome (parseSchema x d fuel) ps currentSchema r.st k2)
            | _ => true)
          && (match r.m.lookup KEY_ITEMS with
            | some v =>
              let p := forRange (propertiesBody (parseSchema x d fuel) r.m) (mapKeys r.m)
                currentSchema r.st
              if p.out = Outcome.ok then
                Unambiguous x d fuel v (newItemsSchema p.node p.st)
                  { p.st with next := p.st.next + 1 }
              else true
            | none => true)
      else true
  | _, _, _, _ => true

/-- The parse of the document on the node `cur` comes, before anything fails, to a node
labelled `name` that has neither `type` nor `$ref`: the document is such a node, whose
`$schema` section (at the root) and whose `$id`, `title` and `description` pass their
checks; or its own checks pass and that node is reached in an entry of its `properties`
mapping, the entries enumerated before it parsing without error, or in its `items`
value, the loop over `properties` ending without error. -/
inductive FirstMissingType (x : Collaborators Ref) (d : JsonSchemaDocument Ref) :
    Nat → Json → JsonSchema Ref → St Ref → String → Prop where
  | here (fuel : Nat) (m : JsonMap) (cur : JsonSchema Ref) (st : St Ref)
      (hroot : (rootSection x d m cur).1 = none) (href : KEY_REF ∉ mapKeys m)
      (hid : stringOrAbsent m KEY_ID = true) (htitle : stringOrAbsent m KEY_TITLE = true)
      (hdesc : stringOrAbsent m KEY_DESCRIPTION = true) (htype : KEY_TYPE ∉ mapKeys m) :
      FirstMissingType x d (fuel + 1) (Json.object m) cur st cur.property
  | property (fuel : Nat) (m target pre post : JsonMap) (k : String) (v : Json)
      (cur c1 c2 c3 : JsonSchema Ref) (st s2 : St Ref) (name : String)
      (hroot : rootSection x d m cur = (none, c1))
      (href : refSection x d m c1 st = ⟨Outcome.ok, target, c2, s2⟩)
      (hkey : keywordSection target c2 = (none, c3)) (hn : (mapKeys target).Nodup)
      (hps : target.lookup KEY_PROPERTIES = some (Json.object (pre ++ (k, v) :: post)))
      (hk : k ∉ mapKeys pre)
      (hpre : (parseProperties x d fuel (Json.object pre) c3 s2).out = Outcome.ok)
      (hrec : FirstMissingType x d fuel v
        (newPropertySchema k (parseProperties x d fuel (Json.object pre) c3 s2).node
          (parseProperties x d fuel (Json.object pre) c3 s2).st)
        { (parseProperties x d fuel (Json.object pre) c3 s2).st with
          next := (parseProperties x d fuel (Json.object pre) c3 s2).st.next + 1 } name) :
      FirstMissingType x d (fuel + 1) (Json.object m) cur st name
  | items (fuel : Nat) (m target : JsonMap) (v : Json) (cur c1 c2 c3 : JsonSchema Ref)
      (st s2 : St Ref) (name : String)
      (hroot : rootSection x d m cur = (none, c1))
      (href : refSection x d m c1 st = ⟨Outcome.ok, target, c2, s2⟩)
      (hkey : keywordSection target c2 = (none, c3)) (hn : (mapKeys target).Nodup)
      (hprops : (forRange (propertiesBody (parseSchema x d fuel) target) (mapKeys target)
        c3 s2).out = Outcome.ok)
      (hv : target.lookup KEY_ITEMS = some v)
      (hrec : FirstMissingType x d fuel v
        (newItemsSchema
          (forRange (propertiesBody (parseSchema x d fuel) target) (mapKeys target) c3 s2).node
          (forRange (propertiesBody (parseSchema x d fuel) target) (mapKeys target) c3 s2).st)
        { (forRange (propertiesBody (parseSchema x d fuel) target) (mapKeys target) c3 s2).st
          with
          next := (forRange (propertiesBody (parseSchema x d fuel) target) (mapKeys target)
            c3 s2).st.next + 1 } name) :
      FirstMissingType x d (fuel + 1) (Json.object m) cur st name

/-! ## An example world

A small stand-in for the collaborators, used to run the parser on the scenarios of the
specification: references are looked up in a table, a relative reference inherits the
document of its base, and a pointer is followed key by key. -/

/-- A reference of the example world: the document it names (empty for a reference
that is only a fragment; for a relative path, the document it names under
`http://example.org/`), the tokens of its pointer, and whether it is a full URL. -/
structure ExampleRef where
  url : String
  pointer : List String
  full : Bool
deriving DecidableEq

/-- The reference strings the example world knows. -/
def exampleReferences : List (String × ExampleRef) :=
  [("http://json-schema.org/draft-04/schema#",
      ⟨"http://json-schema.org/draft-04/schema", [], true⟩),
   ("http://example.org/root.json", ⟨"http://example.org/root.json", [], true⟩),
   ("http://example.org/other.json#/definitions/point",
      ⟨"http://example.org/other.json", ["definitions", "point"], true⟩),
   ("other.json#/definitions/point", ⟨"http://example.org/other.json", ["definitions", "point"], false⟩),
   ("#", ⟨"", [], false⟩),
   ("#/properties/x", ⟨"", ["properties", "x"], false⟩),
   ("#/properties/other", ⟨"", ["properties", "other"], false⟩),
   ("#/definitions/a", ⟨"", ["definitions", "a"], false⟩),
   ("#/definitions/b", ⟨"", ["definitions", "b"], false⟩)]

/-- Following the tokens of a pointer through nested mappings. -/
def exampleGet : List String → Json → Json × Option Error
  | [], v => (v, none)
  | t :: ts, .object m =>
    match m.lookup t with
    | some v => exampleGet ts v
    | none => (Json.null, some (Error.message "Object has no key"))
  | _ :: _, _ => (Json.null, some (Error.message "Invalid token reference"))

/-- The collaborators of the example world. -/
def exampleCollaborators : Collaborators ExampleRef where
  NewJsonReference s :=
    match exampleReferences.lookup s with
    | some r => (r, none)
    | none => (⟨"", [], false⟩, some (Error.message "Invalid reference"))
  HasFullUrl r := r.full
  Inherits base child :=
    if base.full then
      (some ⟨if child.url = "" then base.url else child.url, child.pointer, true⟩, none)
    else
      (none, some (Error.message "Parent reference must be canonical"))
  PointerGet r document := exampleGet r.pointer document

/-- A pool of the example world, holding the given documents by name. -/
def examplePool (documents : List (String × Json)) : SchemaPool ExampleRef where
  GetPoolDocument r :=
    match documents.lookup r.url with
    | some document => Except.ok document
    | none => Except.error (Error.message "Document not found")

/-- The document struct of the example world, before `parse`: the reference of the
document and a pool holding the given documents. -/
def exampleDocument (documents : List (String × Json)) : JsonSchemaDocument ExampleRef :=
  { documentReference := ⟨"http://example.org/root.json", [], true⟩, rootSchema := none,
    pool := examplePool documents }

/-- A node of the example world that is not the root: the property `x` of the node at
address 0, as `parseProperties` creates it under a root whose `ref` is the reference of
the document. -/
def exampleNode : JsonSchema ExampleRef :=
  { addr := 1, property := "x", parent := some 0,
    ref := some ⟨"http://example.org/root.json", [], true⟩, itemsChild := none,
    propertiesChildren := [] }

/-- The state of the example world once the root (address 0) and `exampleNode`
(address 1) are allocated and nothing has been fetched. -/
def exampleState : St ExampleRef :=
  { next := 2, requests := [] }

/-- A document of the example world with a definition `a` of type string. -/
def exampleDefinitions : Json :=
  Json.object
    [("$schema", Json.string "http://json-schema.org/draft-04/schema#"),
     ("type", Json.string "object"),
     ("definitions", Json.object [("a", Json.object [("type", Json.string "string")])])]

/-- Scenario 1 of the specification. -/
def scenario1 : Json :=
  Json.object
    [("$schema", Json.string "http://json-schema.org/draft-04/schema#"),
     ("type", Json.string "object"),
     ("properties", Json.object [("x", Json.object [("type", Json.string "string")])])]

/-- Scenario 2 of the specification: Scenario 1 with the `type` of `x` omitted. -/
def scenario2 : Json :=
  Json.object
    [("$schema", Json.string "http://json-schema.org/draft-04/schema#"),
     ("type", Json.string "object"),
     ("properties", Json.object [("x", Json.object [])])]

/-- Scenario 3 of the specification, a value that is not the root. -/
def scenario3 : Json :=
  Json.object
    [("type", Json.string "array"), ("items", Json.object [("type", Json.string "integer")])]

/-- A node with a property, in one enumeration order of its mappings. -/
def orderExample1 : Json :=
  Json.object
    [("type", Json.string "object"),
     ("properties",
        Json.object
          [("x", Json.object [("title", Json.string "n"), ("type", Json.string "string")])])]

/-- The node of `orderExample1`, with the entries of both of its node mappings
enumerated in another order. -/
def orderExample2 : Json :=
  Json.object
    [("properties",
        Json.object
          [("x", Json.object [("type", Json.string "string"), ("title", Json.string "n")])]),
     ("type", Json.string "object")]

/-- A node of the example world with an `items` subschema that carries a relative
`$ref`. -/
def itemsWithRef : Json :=
  Json.object
    [("type", Json.string "array"),
     ("items", Json.object [("$ref", Json.string "#/definitions/a")])]

/-- The node of `itemsWithRef` with the same subschema as the value of a property. -/
def propertyWithRef : Json :=
  Json.object
    [("type", Json.string "object"),
     ("properties", Json.object [("y", Json.object [("$ref", Json.string "#/definitions/a")])])]

/-- A second document of the example world: the definition `point` has a property `p`
whose schema is a relative `$ref` to the definition `a` of the same document. -/
def exampleOther : Json :=
  Json.object
    [("definitions",
        Json.object
          [("point",
              Json.object
                [("type", Json.string "object"),
                 ("properties",
                    Json.object [("p", Json.object [("$ref", Json.string "#/definitions/a")])])]),
           ("a", Json.object [("type", Json.string "string")])])]

/-- The example world with the document `exampleOther` in the pool. -/
def exampleChain : JsonSchemaDocument ExampleRef :=
  exampleDocument [("http://example.org/other.json", exampleOther)]

/-- The mapping of a root document of type object whose property `x` is
`{"$ref": "#"}`: the schema of `x` refers to the whole document. -/
def selfReferentialMap : JsonMap :=
  [("$schema", Json.string "http://json-schema.org/draft-04/schema#"),
   ("type", Json.string "object"),
   ("properties", Json.object [("x", Json.object [("$ref", Json.string "#")])])]

/-- The document whose mapping is `selfReferentialMap`. -/
def selfReferential : Json :=
  Json.object selfReferentialMap

/-- A root document whose property `x` is `{"$ref": "#/properties/x"}`: the schema of
`x` refers to itself. -/
def selfPointing : Json :=
  Json.object
    [("$schema", Json.string "http://json-schema.org/draft-04/schema#"),
     ("type", Json.string "object"),
     ("properties", Json.object [("x", Json.object [("$ref", Json.string "#/properties/x")])])]

/-- A node mapping with a `$ref` to the definition `a` of `exampleDefinitions`, beside a
`title` and a `type` that are numbers. -/
def refBesideInvalid : JsonMap :=
  [("$ref", Json.string "#/definitions/a"), ("title", Json.number 5),
   ("type", Json.number 7)]

/-- A store of the example world: the root node at address 0, whose `ref` points to the
reference of the document at address 0, and the property node `x` at address 1, created
with the pointer of the root in its `ref`. -/
def exampleStore : Ptr.Store ExampleRef :=
  { schemas :=
      [{ property := ROOT_SCHEMA_PROPERTY, ref := some 0, propertiesChildren := [1] },
       { property := "x", parent := some 0, ref := some 0 }],
    references := [⟨"http://example.org/root.json", [], true⟩],
    requests := [] }

/-- The document struct of the example world in memory: its reference lies at address
0, its root node at address 0. -/
def examplePtrDocument (documents : List (String × Json)) : Ptr.JsonSchemaDocument ExampleRef :=
  { documentReference := 0, rootSchema := some 0, pool := examplePool documents }

/-- The document struct of the example world once `parse` has allocated the root node
at address 0. -/
def exampleRootDocument (documents : List (String × Json)) : JsonSchemaDocument ExampleRef :=
  { exampleDocument documents with rootSchema := some 0 }

/-- A root document whose property `other` refers to its property `x`, and whose
property `y` has no `type`. -/
def reorderExample1 : Json :=
  Json.object
    [("$schema", Json.string "http://json-schema.org/draft-04/schema#"),
     ("type", Json.string "object"),
     ("properties",
        Json.object
          [("x", Json.object [("title", Json.string "t"), ("type", Json.string "string")]),
           ("other", Json.object [("$ref", Json.string "#/properties/x")]),
           ("y", Json.object [])])]

/-- The document `reorderExample1` with the entries of each of its mappings, the
`properties` mapping among them, enumerated in another order. -/
def reorderExample2 : Json :=
  Json.object
    [("properties",
        Json.object
          [("y", Json.object []),
           ("other", Json.object [("$ref", Json.string "#/properties/x")]),
           ("x", Json.object [("type", Json.string "string"), ("title", Json.string "t")])]),
     ("type", Json.string "object"),
     ("$schema", Json.string "http://json-schema.org/draft-04/schema#")]

/-- A node of type object whose property `a`, parsed after the property `b`, is of
type object and has itself a property `x` without `type`. -/
def nestedMissingType : Json :=
  Json.object
    [("type", Json.string "object"),
     ("properties",
        Json.object
          [("b", Json.object [("type", Json.string "string")]),
           ("a",
              Json.object
                [("type", Json.string "object"),
                 ("properties", Json.object [("x", Json.object [])])])])]

/-! ## Lemmas on mappings -/

theorem existsMapKey_iff_mem (m : JsonMap) (k : String) :
    existsMapKey m k = true ↔ k ∈ mapKeys m := by
  induction m with
  | nil => simp [existsMapKey, mapKeys]
  | cons e rest ih =>
    obtain ⟨a, v⟩ := e
    by_cases hk : k = a
    · subst hk
      simp [existsMapKey, mapKeys, List.lookup]
    · have hne : (k == a) = false := by simpa using hk
      simp only [existsMapKey, mapKeys, List.lookup, hne, List.map_cons, List.mem_cons] at ih ⊢
      simp [hk, ih]

theorem existsMapKey_eq_false (m : JsonMap) (k : String) (h : k ∉ mapKeys m) :
    existsMapKey m k = false := by
  cases hb : existsMapKey m k with
  | false => rfl
  | true => exact absurd ((existsMapKey_iff_mem m k).1 hb) h

theorem lookup_eq_none_of_not_mem (m : JsonMap) (k : String) (h : k ∉ mapKeys m) :
    m.lookup k = none := by
  have := existsMapKey_eq_false m k h
  simpa [existsMapKey] using this

theorem mapIndex_of_not_mem (m : JsonMap) (k : String) (h : k ∉ mapKeys m) :
    mapIndex m k = Json.null := by
  simp [mapIndex, lookup_eq_none_of_not_mem m k h]

/-! ## The root section -/

/-- C2: a root document that is a mapping without the key `$schema` fails to parse
with the missing-required-keyword error built from `ERROR_MESSAGE_X_IS_REQUIRED` and
`"$schema"`, whatever its other keys are. -/
theorem parse_root_without_schema_key (x : Collaborators Ref) (d : JsonSchemaDocument Ref)
    (fuel : Nat) (m : JsonMap) (st : St Ref) (h : KEY_SCHEMA ∉ mapKeys m) :
    (parse x d (fuel + 1) (Json.object m) st).2.out
      = Outcome.error (ERROR_MESSAGE_X_IS_REQUIRED KEY_SCHEMA) := by
  have hk : existsMapKey m KEY_SCHEMA = false := existsMapKey_eq_false m KEY_SCHEMA h
  simp [parse, parseSchema, rootSection, hk]

theorem parse_root_without_schema_key_witness :
    KEY_SCHEMA ∉ mapKeys [("type", Json.string "object"), ("title", Json.number 3)]
    ∧ (parse exampleCollaborators (exampleDocument []) 1
        (Json.object [("type", Json.string "object"), ("title", Json.number 3)])
        St.initial).2.out
      = Outcome.error (ERROR_MESSAGE_X_IS_REQUIRED KEY_SCHEMA) :=
  ⟨by decide, parse_root_without_schema_key exampleCollaborators (exampleDocument []) 0
    [("type", Json.string "object"), ("title", Json.number 3)] St.initial (by decide)⟩

/-- The root section leaves an error whenever the mapping holds the key `$ref`. -/
theorem rootSection_ref_error (x : Collaborators Ref) (d : JsonSchemaDocument Ref)
    (m : JsonMap) (cur : JsonSchema Ref) (hroot : d.rootSchema = some cur.addr)
    (h : existsMapKey m KEY_REF = true) :
    ∃ e, (rootSection x d m cur).1 = some e := by
  unfold rootSection
  simp only [hroot, if_true, h]
  split
  · exact ⟨_, rfl⟩
  · split
    · split
      · exact ⟨_, rfl⟩
      · exact ⟨_, rfl⟩
    · exact ⟨_, rfl⟩

/-- C3: a root document that holds the key `$ref`, with any value and with or without
a valid `$schema`, fails to parse, and no document is requested from the pool. -/
theorem parse_root_with_ref_key (x : Collaborators Ref) (d : JsonSchemaDocument Ref)
    (fuel : Nat) (m : JsonMap) (st : St Ref) (h : KEY_REF ∈ mapKeys m) :
    (∃ e, (parse x d (fuel + 1) (Json.object m) st).2.out = Outcome.error e)
    ∧ (parse x d (fuel + 1) (Json.object m) st).2.st.requests = st.requests := by
  have hk : existsMapKey m KEY_REF = true := (existsMapKey_iff_mem m KEY_REF).2 h
  obtain ⟨e, he⟩ := rootSection_ref_error x
    { d with rootSchema := some (newRootSchema st).addr } m (newRootSchema st) rfl hk
  simp only [parse, parseSchema]
  split
  · rename_i err cur heq
    exact ⟨⟨err, rfl⟩, rfl⟩
  · rename_i cur heq
    rw [heq] at he
    simp at he

theorem parse_root_with_ref_key_witness :
    KEY_REF ∈ mapKeys
      [("$schema", Json.string "http://json-schema.org/draft-04/schema#"),
       ("$ref", Json.string "other.json#/definitions/point")]
    ∧ ((∃ e, (parse exampleCollaborators
          (exampleDocument [("http://example.org/other.json",
            Json.object [("definitions",
              Json.object [("point", Json.object [("type", Json.string "object")])])])])
          1
          (Json.object
            [("$schema", Json.string "http://json-schema.org/draft-04/schema#"),
             ("$ref", Json.string "other.json#/definitions/point")])
          St.initial).2.out = Outcome.error e)
      ∧ (parse exampleCollaborators
          (exampleDocument [("http://example.org/other.json",
            Json.object [("definitions",
              Json.object [("point", Json.object [("type", Json.string "object")])])])])
          1
          (Json.object
            [("$schema", Json.string "http://json-schema.org/draft-04/schema#"),
             ("$ref", Json.string "other.json#/definitions/point")])
          St.initial).2.st.requests = St.initial.requests) :=
  ⟨by decide, parse_root_with_ref_key exampleCollaborators _ 0 _ St.initial (by decide)⟩

/-! ## What each section changes of the node -/

theorem rootSection_node (x : Collaborators Ref) (d : JsonSchemaDocument Ref) (m : JsonMap)
    (cur : JsonSchema Ref) :
    ∃ schema ref, (rootSection x d m cur).2 = { cur with schema := schema, ref := ref } := by
  cases cur
  unfold rootSection
  split
  · split
    · exact ⟨_, _, rfl⟩
    · split
      · split
        · exact ⟨_, _, rfl⟩
        · split
          · exact ⟨_, _, rfl⟩
          · exact ⟨_, _, rfl⟩
      · exact ⟨_, _, rfl⟩
  · exact ⟨_, _, rfl⟩

theorem setRef_node (x : Collaborators Ref) (jsonReference : Ref) (cur : JsonSchema Ref) :
    ∃ ref, (setRef x jsonReference cur).2 = { cur with ref := ref } := by
  cases cur
  unfold setRef
  split
  · exact ⟨_, rfl⟩
  · split
    · exact ⟨_, rfl⟩
    · split
      · exact ⟨_, rfl⟩
      · exact ⟨_, rfl⟩

theorem resolve_node (x : Collaborators Ref) (d : JsonSchemaDocument Ref) (m : JsonMap)
    (cur : JsonSchema Ref) (st : St Ref) : (resolve x d m cur st).node = cur := by
  unfold resolve
  split
  · rfl
  · split
    · rfl
    · split <;> rfl

theorem refSection_node (x : Collaborators Ref) (d : JsonSchemaDocument Ref) (m : JsonMap)
    (cur : JsonSchema Ref) (st : St Ref) :
    ∃ ref, (refSection x d m cur st).node = { cur with ref := ref } := by
  unfold refSection
  have hcur : cur = { cur with ref := cur.ref } := by cases cur; rfl
  split
  · exact ⟨cur.ref, hcur⟩
  · split
    · split
      · exact ⟨cur.ref, hcur⟩
      · rename_i jsonReference _
        obtain ⟨ref, href⟩ := setRef_node x jsonReference cur
        split
        · rename_i cur2 heq
          rw [heq] at href
          simp only at href
          rw [resolve_node, href]
          exact ⟨_, rfl⟩
        · rename_i out cur2 _ heq
          rw [heq] at href
          exact ⟨ref, href⟩
    · exact ⟨cur.ref, hcur⟩

theorem sameLinks_refl (a : JsonSchema Ref) : a.SameLinks a :=
  ⟨rfl, rfl, rfl, rfl, rfl⟩

theorem sameLinks_trans {a b c : JsonSchema Ref} (h1 : a.SameLinks b) (h2 : b.SameLinks c) :
    a.SameLinks c :=
  ⟨h1.1.trans h2.1, h1.2.1.trans h2.2.1, h1.2.2.1.trans h2.2.2.1,
    h1.2.2.2.1.trans h2.2.2.2.1, h1.2.2.2.2.trans h2.2.2.2.2⟩

theorem rootSection_links (x : Collaborators Ref) (d : JsonSchemaDocument Ref) (m : JsonMap)
    (cur : JsonSchema Ref) : (rootSection x d m cur).2.SameLinks cur := by
  obtain ⟨s, r, h⟩ := rootSection_node x d m cur
  rw [h]
  exact ⟨rfl, rfl, rfl, rfl, rfl⟩

theorem refSection_links (x : Collaborators Ref) (d : JsonSchemaDocument Ref) (m : JsonMap)
    (cur : JsonSchema Ref) (st : St Ref) : (refSection x d m cur st).node.SameLinks cur := by
  obtain ⟨r, h⟩ := refSection_node x d m cur st
  rw [h]
  exact ⟨rfl, rfl, rfl, rfl, rfl⟩

theorem idKeyword_links (m : JsonMap) (cur : JsonSchema Ref) :
    (idKeyword m cur).2.SameLinks cur := by
  unfold idKeyword
  split
  · exact sameLinks_refl cur
  · split
    · exact ⟨rfl, rfl, rfl, rfl, rfl⟩
    · exact sameLinks_refl cur

theorem titleKeyword_links (m : JsonMap) (cur : JsonSchema Ref) :
    (titleKeyword m cur).2.SameLinks cur := by
  unfold titleKeyword
  split
  · exact sameLinks_refl cur
  · split
    · exact ⟨rfl, rfl, rfl, rfl, rfl⟩
    · exact sameLinks_refl cur

theorem descriptionKeyword_links (m : JsonMap) (cur : JsonSchema Ref) :
    (descriptionKeyword m cur).2.SameLinks cur := by
  unfold descriptionKeyword
  split
  · exact sameLinks_refl cur
  · split
    · exact ⟨rfl, rfl, rfl, rfl, rfl⟩
    · exact sameLinks_refl cur

theorem typeKeyword_links (m : JsonMap) (cur : JsonSchema Ref) :
    (typeKeyword m cur).2.SameLinks cur := by
  unfold typeKeyword
  split
  · exact sameLinks_refl cur
  · split
    · split
      · exact sameLinks_refl cur
      · exact ⟨rfl, rfl, rfl, rfl, rfl⟩
    · exact sameLinks_refl cur

theorem typeKeyword_etype (m : JsonMap) (cur : JsonSchema Ref)
    (h : (typeKeyword m cur).1 = none) :
    ∃ t, mapIndex m KEY_TYPE = Json.string t ∧ isStringInSlice SCHEMA_TYPES t = true
      ∧ (typeKeyword m cur).2.etype = some t := by
  unfold typeKeyword at h ⊢
  split at h
  · simp at h
  · rename_i hkind
    simp only [hkind]
    split at h
    · rename_i k hk
      split at h
      · simp at h
      · rename_i hin
        refine ⟨k, hk, by simpa using hin, ?_⟩
        simp [hk, hin]
    · simp at h

theorem andThen_of_none (r : Option Error × JsonSchema Ref)
    (next : JsonSchema Ref → Option Error × JsonSchema Ref) (h : r.1 = none) :
    andThen r next = next r.2 := by
  obtain ⟨e, c⟩ := r
  simp only at h
  subst h
  rfl

theorem andThen_of_some (r : Option Error × JsonSchema Ref)
    (next : JsonSchema Ref → Option Error × JsonSchema Ref) (e : Error) (h : r.1 = some e) :
    andThen r next = r := by
  obtain ⟨e2, c⟩ := r
  simp only at h
  subst h
  rfl

theorem andThen_fst_none (r : Option Error × JsonSchema Ref)
    (next : JsonSchema Ref → Option Error × JsonSchema Ref) (h : (andThen r next).1 = none) :
    r.1 = none := by
  cases hr : r.1 with
  | none => rfl
  | some e =>
    rw [andThen_of_some r next e hr, hr] at h
    exact absurd h (by simp)

theorem andThen_links (r : Option Error × JsonSchema Ref)
    (next : JsonSchema Ref → Option Error × JsonSchema Ref) (cur : JsonSchema Ref)
    (hr : r.2.SameLinks cur) (hnext : ∀ c, (next c).2.SameLinks c) :
    (andThen r next).2.SameLinks cur := by
  cases h : r.1 with
  | none =>
    rw [andThen_of_none r next h]
    exact sameLinks_trans (hnext r.2) hr
  | some e =>
    rw [andThen_of_some r next e h]
    exact hr

/-- The four keyword checks leave the identity, label, parent and children of the node
as they are. -/
theorem keywordSection_links (m : JsonMap) (cur : JsonSchema Ref) :
    (keywordSection m cur).2.SameLinks cur := by
  unfold keywordSection
  refine andThen_links _ _ cur (idKeyword_links m cur) fun c1 => ?_
  refine andThen_links _ _ c1 (titleKeyword_links m c1) fun c2 => ?_
  exact andThen_links _ _ c2 (descriptionKeyword_links m c2) fun c3 => typeKeyword_links m c3

/-- When the four keyword checks pass, `etype` is the `type` of the mapping, one of
`SCHEMA_TYPES`. -/
theorem keywordSection_etype (m : JsonMap) (cur : JsonSchema Ref)
    (h : (keywordSection m cur).1 = none) :
    ∃ t, mapIndex m KEY_TYPE = Json.string t ∧ isStringInSlice SCHEMA_TYPES t = true
      ∧ (keywordSection m cur).2.etype = some t := by
  unfold keywordSection at h ⊢
  have h1 := andThen_fst_none _ _ h
  rw [andThen_of_none _ _ h1] at h ⊢
  have h2 := andThen_fst_none _ _ h
  rw [andThen_of_none _ _ h2] at h ⊢
  have h3 := andThen_fst_none _ _ h
  rw [andThen_of_none _ _ h3] at h ⊢
  exact typeKeyword_etype m _ h

/-! ## Loops -/

/-- A property that every successful body preserves holds after a successful loop. -/
theorem forRange_invariant (P : JsonSchema Ref → Prop)
    (body : String → JsonSchema Ref → St Ref → Res Ref)
    (hbody : ∀ k cur st, P cur → (body k cur st).out = Outcome.ok → P (body k cur st).node) :
    ∀ (keys : List String) (cur : JsonSchema Ref) (st : St Ref), P cur →
      (forRange body keys cur st).out = Outcome.ok → P (forRange body keys cur st).node := by
  intro keys
  induction keys with
  | nil => intro cur st hP _; exact hP
  | cons k ks ih =>
    intro cur st hP hok
    simp only [forRange] at hok ⊢
    by_cases hb : (body k cur st).out = Outcome.ok
    · simp only [hb, if_true] at hok ⊢
      exact ih _ _ (hbody k cur st hP hb) hok
    · simp only [hb, if_false] at hok

/-! ## Typed trees -/

theorem allTyped_eq (s : JsonSchema Ref) :
    s.allTyped =
      ((match s.etype with
        | some t => isStringInSlice SCHEMA_TYPES t
        | none => false)
      && allTypedOption s.itemsChild && allTypedList s.propertiesChildren) := by
  cases s
  simp [JsonSchema.allTyped]

theorem allTypedList_append (cs : List (JsonSchema Ref)) (c : JsonSchema Ref) :
    allTypedList (cs ++ [c]) = (allTypedList cs && c.allTyped) := by
  induction cs with
  | nil => simp [allTypedList]
  | cons a rest ih => simp [allTypedList, ih, Bool.and_assoc]

theorem allTyped_AddPropertiesChild (s c : JsonSchema Ref) (hs : s.allTyped = true)
    (hc : c.allTyped = true) : (s.AddPropertiesChild c).allTyped = true := by
  rw [allTyped_eq] at hs ⊢
  simp only [JsonSchema.AddPropertiesChild, allTypedList_append, hc, Bool.and_true]
  exact hs

theorem allTyped_of_links (a b : JsonSchema Ref) (t : String) (hl : a.SameLinks b)
    (he : a.etype = some t) (ht : isStringInSlice SCHEMA_TYPES t = true)
    (hi : allTypedOption b.itemsChild = true) (hp : allTypedList b.propertiesChildren = true) :
    a.allTyped = true := by
  rw [allTyped_eq, he, hl.2.2.2.1, hl.2.2.2.2, hi, hp]
  simp [ht]

theorem propertyBody_allTyped (call : Json → JsonSchema Ref → St Ref → Res Ref)
    (hcall : TypedCall call) (m : JsonMap) (k : String) (cur : JsonSchema Ref) (st : St Ref)
    (hcur : cur.allTyped = true) (hok : (propertyBody call m k cur st).out = Outcome.ok) :
    (propertyBody call m k cur st).node.allTyped = true := by
  simp only [propertyBody] at hok ⊢
  exact allTyped_AddPropertiesChild _ _ hcur (hcall _ _ _ rfl rfl hok)

theorem parsePropertiesWith_allTyped (call : Json → JsonSchema Ref → St Ref → Res Ref)
    (hcall : TypedCall call) (doc : Json) (cur : JsonSchema Ref) (st : St Ref)
    (hcur : cur.allTyped = true) (hok : (parsePropertiesWith call doc cur st).out = Outcome.ok) :
    (parsePropertiesWith call doc cur st).node.allTyped = true := by
  unfold parsePropertiesWith at hok ⊢
  split
  · rename_i m
    exact forRange_invariant (fun c => c.allTyped = true) _
      (fun k c s hc hk => propertyBody_allTyped call hcall m k c s hc hk) _ _ _ hcur hok
  · exact hcur

theorem propertiesBody_allTyped (call : Json → JsonSchema Ref → St Ref → Res Ref)
    (hcall : TypedCall call) (m : JsonMap) (k : String) (cur : JsonSchema Ref) (st : St Ref)
    (hcur : cur.allTyped = true) (hok : (propertiesBody call m k cur st).out = Outcome.ok) :
    (propertiesBody call m k cur st).node.allTyped = true := by
  unfold propertiesBody at hok ⊢
  split
  · rename_i hk
    subst hk
    simp only [if_true] at hok
    exact parsePropertiesWith_allTyped call hcall _ _ _ hcur hok
  · exact hcur

theorem itemsBody_allTyped (call : Json → JsonSchema Ref → St Ref → Res Ref)
    (hcall : TypedCall call) (m : JsonMap) (k : String) (cur : JsonSchema Ref) (st : St Ref)
    (hcur : cur.allTyped = true) (hok : (itemsBody call m k cur st).out = Outcome.ok) :
    (itemsBody call m k cur st).node.allTyped = true := by
  unfold itemsBody at hok ⊢
  split
  · rename_i hk
    subst hk
    simp only [if_true] at hok
    exact allTyped_AddPropertiesChild _ _ hcur (hcall _ _ _ rfl rfl hok)
  · exact hcur

theorem childrenSection_allTyped (call : Json → JsonSchema Ref → St Ref → Res Ref)
    (hcall : TypedCall call) (m : JsonMap) (cur : JsonSchema Ref) (st : St Ref)
    (hcur : cur.allTyped = true) (hok : (childrenSection call m cur st).out = Outcome.ok) :
    (childrenSection call m cur st).node.allTyped = true := by
  simp only [childrenSection] at hok ⊢
  by_cases hp : (forRange (propertiesBody call m) (mapKeys m) cur st).out = Outcome.ok
  · simp only [hp, if_true] at hok ⊢
    have h1 := forRange_invariant (fun c => c.allTyped = true) _
      (fun k c s hc hk => propertiesBody_allTyped call hcall m k c s hc hk) _ _ _ hcur hp
    exact forRange_invariant (fun c => c.allTyped = true) _
      (fun k c s hc hk => itemsBody_allTyped call hcall m k c s hc hk) _ _ _ h1 hok
  · simp only [hp, if_false] at hok

theorem parseKeywords_allTyped (call : Json → JsonSchema Ref → St Ref → Res Ref)
    (hcall : TypedCall call) (m : JsonMap) (cur : JsonSchema Ref) (st : St Ref)
    (hi : allTypedOption cur.itemsChild = true)
    (hp : allTypedList cur.propertiesChildren = true)
    (hok : (parseKeywords call m cur st).out = Outcome.ok) :
    (parseKeywords call m cur st).node.allTyped = true := by
  unfold parseKeywords at hok ⊢
  rcases heq : keywordSection m cur with ⟨_ | err, cur2⟩
  · rw [heq] at hok
    simp only at hok ⊢
    have hnone : (keywordSection m cur).1 = none := by rw [heq]
    obtain ⟨t, _, ht, he⟩ := keywordSection_etype m cur hnone
    have hl := keywordSection_links m cur
    rw [heq] at he hl
    exact childrenSection_allTyped call hcall m cur2 st
      (allTyped_of_links cur2 cur t hl he ht hi hp) hok
  · rw [heq] at hok
    simp at hok

theorem parseSchema_allTyped (x : Collaborators Ref) (d : JsonSchemaDocument Ref) :
    ∀ fuel : Nat, TypedCall (parseSchema x d fuel) := by
  intro fuel
  induction fuel with
  | zero =>
    intro doc cur st _ _ hok
    simp [parseSchema] at hok
  | succ fuel ih =>
    intro doc cur st hi hp hok
    cases doc with
    | object m =>
      simp only [parseSchema] at hok ⊢
      rcases heq : rootSection x d m cur with ⟨_ | err, cur1⟩
      · rw [heq] at hok
        simp only at hok ⊢
        have hl1 := rootSection_links x d m cur
        rw [heq] at hl1
        have hl2 := refSection_links x d m cur1 st
        by_cases hr : (refSection x d m cur1 st).out = Outcome.ok
        · simp only [hr, if_true] at hok ⊢
          refine parseKeywords_allTyped _ ih _ _ _ ?_ ?_ hok
          · rw [hl2.2.2.2.1, hl1.2.2.2.1]; exact hi
          · rw [hl2.2.2.2.2, hl1.2.2.2.2]; exact hp
        · simp only [hr, if_false] at hok
      · rw [heq] at hok
        simp at hok
    | null => simp [parseSchema] at hok
    | bool b => simp [parseSchema] at hok
    | number n => simp [parseSchema] at hok
    | string s => simp [parseSchema] at hok
    | array xs => simp [parseSchema] at hok

/-- C1: when `parseSchema` on the root returns no error, every node of the resulting
tree, the root and every node reached through properties and items children, has its
type set to one of `SCHEMA_TYPES`. -/
theorem parse_ok_allTyped (x : Collaborators Ref) (d : JsonSchemaDocument Ref) (fuel : Nat)
    (document : Json) (st : St Ref)
    (h : (parse x d fuel document st).2.out = Outcome.ok) :
    (parse x d fuel document st).2.node.allTyped = true := by
  simp only [parse] at h ⊢
  exact parseSchema_allTyped x _ fuel _ _ _ rfl rfl h

theorem parse_ok_allTyped_witness :
    (parse exampleCollaborators (exampleDocument []) 2 scenario1 St.initial).2.out = Outcome.ok
    ∧ (parse exampleCollaborators (exampleDocument []) 2 scenario1
        St.initial).2.node.allTyped = true :=
  ⟨by decide, parse_ok_allTyped exampleCollaborators (exampleDocument []) 2 scenario1
    St.initial (by decide)⟩

/-! ## Single nodes -/

theorem rootSection_not_root (x : Collaborators Ref) (d : JsonSchemaDocument Ref) (m : JsonMap)
    (cur : JsonSchema Ref) (hroot : d.rootSchema ≠ some cur.addr) :
    rootSection x d m cur = (none, cur) := by
  have h : ¬ (some cur.addr = d.rootSchema) := fun h => hroot h.symm
  simp [rootSection, h]

theorem refSection_no_ref (x : Collaborators Ref) (d : JsonSchemaDocument Ref) (m : JsonMap)
    (cur : JsonSchema Ref) (st : St Ref) (h : KEY_REF ∉ mapKeys m) :
    refSection x d m cur st = ⟨Outcome.ok, m, cur, st⟩ := by
  simp [refSection, existsMapKey_eq_false m KEY_REF h, mapIndex_of_not_mem m KEY_REF h]

/-- The message of the invalid-type error, as the source formats it. -/
theorem invalid_message (p : String) :
    "schema " ++ p ++ " - " ++ KEY_TYPE ++ " is invalid" = "schema " ++ p ++ " - type is invalid" := by
  simp only [String.append_assoc]
  rfl

/-- The message of the type-required error, as the source formats it. -/
theorem required_message (p : String) :
    "schema " ++ p ++ " - " ++ KEY_TYPE ++ " is required"
      = "schema " ++ p ++ " - type is required" := by
  simp only [String.append_assoc]
  rfl

/-- C5: on a node that is not the root, a mapping whose only key is `type`, with a
string value `t`, parses successfully and stores `t` as the type of the node when `t`
is one of `SCHEMA_TYPES`, and fails with the invalid-type error
"schema <property> - type is invalid" when it is not. -/
theorem parseSchema_only_type (x : Collaborators Ref) (d : JsonSchemaDocument Ref)
    (fuel : Nat) (t : String) (cur : JsonSchema Ref) (st : St Ref)
    (hroot : d.rootSchema ≠ some cur.addr) :
    (t ∈ SCHEMA_TYPES →
      parseSchema x d (fuel + 1) (Json.object [(KEY_TYPE, Json.string t)]) cur st
        = ⟨Outcome.ok, { cur with etype := some t }, st⟩)
    ∧ (t ∉ SCHEMA_TYPES →
      (parseSchema x d (fuel + 1) (Json.object [(KEY_TYPE, Json.string t)]) cur st).out
        = Outcome.error (Error.message ("schema " ++ cur.property ++ " - type is invalid"))) := by
  have hk : KEY_REF ∉ mapKeys [(KEY_TYPE, Json.string t)] := by
    simp [mapKeys, KEY_REF, KEY_TYPE]
  constructor
  · intro ht
    have hin : isStringInSlice SCHEMA_TYPES t = true := by
      simpa [isStringInSlice] using ht
    simp [parseSchema, rootSection_not_root x d _ cur hroot, refSection_no_ref x d _ cur st hk,
      parseKeywords, keywordSection, andThen, idKeyword, titleKeyword, descriptionKeyword,
      typeKeyword, existsMapKey, mapIndex, List.lookup, isKind, kindOf, hin, childrenSection,
      forRange, mapKeys, propertiesBody, itemsBody, KEY_ID, KEY_TITLE, KEY_DESCRIPTION,
      KEY_TYPE, KEY_PROPERTIES, KEY_ITEMS]
  · intro ht
    have hin : isStringInSlice SCHEMA_TYPES t = false := by
      simpa [isStringInSlice] using ht
    rw [← invalid_message]
    simp [parseSchema, rootSection_not_root x d _ cur hroot, refSection_no_ref x d _ cur st hk,
      parseKeywords, keywordSection, andThen, idKeyword, titleKeyword, descriptionKeyword,
      typeKeyword, existsMapKey, mapIndex, List.lookup, isKind, kindOf, hin, KEY_ID, KEY_TITLE,
      KEY_DESCRIPTION, KEY_TYPE]

theorem parseSchema_only_type_witness :
    (exampleDocument []).rootSchema ≠ some exampleNode.addr
    ∧ "integer" ∈ SCHEMA_TYPES ∧ "float" ∉ SCHEMA_TYPES
    ∧ parseSchema exampleCollaborators (exampleDocument []) 1
          (Json.object [(KEY_TYPE, Json.string "integer")]) exampleNode exampleState
        = ⟨Outcome.ok, { exampleNode with etype := some "integer" }, exampleState⟩
    ∧ (parseSchema exampleCollaborators (exampleDocument []) 1
          (Json.object [(KEY_TYPE, Json.string "float")]) exampleNode exampleState).out
        = Outcome.error (Error.message "schema x - type is invalid") :=
  ⟨by decide, by decide, by decide,
    (parseSchema_only_type exampleCollaborators (exampleDocument []) 0 "integer"
      exampleNode exampleState (by decide)).1 (by decide),
    (parseSchema_only_type exampleCollaborators (exampleDocument []) 0 "float"
      exampleNode exampleState (by decide)).2 (by decide)⟩

theorem parseSchema_no_ref (x : Collaborators Ref) (d : JsonSchemaDocument Ref) (fuel : Nat)
    (m : JsonMap) (cur : JsonSchema Ref) (st : St Ref) (href : KEY_REF ∉ mapKeys m)
    (hroot : (rootSection x d m cur).1 = none) :
    parseSchema x d (fuel + 1) (Json.object m) cur st
      = parseKeywords (parseSchema x d fuel) m (rootSection x d m cur).2 st := by
  rcases heq : rootSection x d m cur with ⟨_ | err, cur1⟩
  · simp [parseSchema, heq, refSection_no_ref x d m cur1 st href]
  · rw [heq] at hroot
    simp at hroot

theorem idKeyword_valid (m : JsonMap) (cur : JsonSchema Ref)
    (h : stringOrAbsent m KEY_ID = true) : (idKeyword m cur).1 = none := by
  unfold stringOrAbsent at h
  unfold idKeyword
  split
  · rename_i hbad
    simp at h hbad
    rcases h with h | h
    · simp [h] at hbad
    · simp [h] at hbad
  · split <;> rfl

theorem titleKeyword_valid (m : JsonMap) (cur : JsonSchema Ref)
    (h : stringOrAbsent m KEY_TITLE = true) : (titleKeyword m cur).1 = none := by
  unfold stringOrAbsent at h
  unfold titleKeyword
  split
  · rename_i hbad
    simp at h hbad
    rcases h with h | h
    · simp [h] at hbad
    · simp [h] at hbad
  · split <;> rfl

theorem descriptionKeyword_valid (m : JsonMap) (cur : JsonSchema Ref)
    (h : stringOrAbsent m KEY_DESCRIPTION = true) : (descriptionKeyword m cur).1 = none := by
  unfold stringOrAbsent at h
  unfold descriptionKeyword
  split
  · rename_i hbad
    simp at h hbad
    rcases h with h | h
    · simp [h] at hbad
    · simp [h] at hbad
  · split <;> rfl

/-- When `$id`, `title` and `description` pass their checks, the keyword section ends
with the check of `type`, on a node with the same label. -/
theorem keywordSection_valid_strings (m : JsonMap) (cur : JsonSchema Ref)
    (hid : stringOrAbsent m KEY_ID = true) (htitle : stringOrAbsent m KEY_TITLE = true)
    (hdesc : stringOrAbsent m KEY_DESCRIPTION = true) :
    ∃ c : JsonSchema Ref, c.SameLinks cur ∧ keywordSection m cur = typeKeyword m c := by
  unfold keywordSection
  rw [andThen_of_none _ _ (idKeyword_valid m cur hid),
    andThen_of_none _ _ (titleKeyword_valid m _ htitle),
    andThen_of_none _ _ (descriptionKeyword_valid m _ hdesc)]
  refine ⟨_, ?_, rfl⟩
  exact sameLinks_trans (descriptionKeyword_links m _)
    (sameLinks_trans (titleKeyword_links m _) (idKeyword_links m cur))

theorem typeKeyword_wrong_kind (m : JsonMap) (cur : JsonSchema Ref)
    (htype : KEY_TYPE ∈ mapKeys m) (hkind : isKind (mapIndex m KEY_TYPE) Kind.String = false) :
    typeKeyword m cur
      = (some (ERROR_MESSAGE_X_MUST_BE_OF_TYPE_Y KEY_TYPE STRING_STRING), cur) := by
  simp [typeKeyword, (existsMapKey_iff_mem m KEY_TYPE).2 htype, hkind]

theorem typeKeyword_absent (m : JsonMap) (cur : JsonSchema Ref) (htype : KEY_TYPE ∉ mapKeys m) :
    typeKeyword m cur
      = (some (Error.message ("schema " ++ cur.property ++ " - type is required")), cur) := by
  rw [← required_message]
  simp [typeKeyword, existsMapKey_eq_false m KEY_TYPE htype, mapIndex_of_not_mem m KEY_TYPE htype]

/-- C6 (as amended): on a node without `$ref` whose `$schema` section (at the root) and
whose `$id`, `title` and `description` pass their checks, a `type` key that holds a
value that is not a string makes parsing fail with the wrong-type error built from
`ERROR_MESSAGE_X_MUST_BE_OF_TYPE_Y`, `"type"` and `"string"`, which is not the
type-required error reported when `type` is absent. -/
theorem parseSchema_type_wrong_kind (x : Collaborators Ref) (d : JsonSchemaDocument Ref)
    (fuel : Nat) (m : JsonMap) (cur : JsonSchema Ref) (st : St Ref)
    (hroot : (rootSection x d m cur).1 = none) (href : KEY_REF ∉ mapKeys m)
    (hid : stringOrAbsent m KEY_ID = true) (htitle : stringOrAbsent m KEY_TITLE = true)
    (hdesc : stringOrAbsent m KEY_DESCRIPTION = true) (htype : KEY_TYPE ∈ mapKeys m)
    (hkind : isKind (mapIndex m KEY_TYPE) Kind.String = false) :
    (parseSchema x d (fuel + 1) (Json.object m) cur st).out
        = Outcome.error (ERROR_MESSAGE_X_MUST_BE_OF_TYPE_Y KEY_TYPE STRING_STRING)
    ∧ (parseSchema x d (fuel + 1) (Json.object m) cur st).out
        ≠ Outcome.error (Error.message ("schema " ++ cur.property ++ " - type is required")) := by
  obtain ⟨c, _, hc⟩ := keywordSection_valid_strings m (rootSection x d m cur).2 hid htitle hdesc
  have hout : (parseSchema x d (fuel + 1) (Json.object m) cur st).out
      = Outcome.error (ERROR_MESSAGE_X_MUST_BE_OF_TYPE_Y KEY_TYPE STRING_STRING) := by
    rw [parseSchema_no_ref x d fuel m cur st href hroot]
    simp [parseKeywords, hc, typeKeyword_wrong_kind m c htype hkind]
  refine ⟨hout, ?_⟩
  rw [hout]
  simp

theorem parseSchema_type_wrong_kind_witness :
    (rootSection exampleCollaborators (exampleDocument [])
        [("title", Json.string "a count"), ("type", Json.number 5)] exampleNode).1 = none
    ∧ (parseSchema exampleCollaborators (exampleDocument []) 1
          (Json.object [("title", Json.string "a count"), ("type", Json.number 5)])
          exampleNode exampleState).out
        = Outcome.error (ERROR_MESSAGE_X_MUST_BE_OF_TYPE_Y KEY_TYPE STRING_STRING)
    ∧ (parseSchema exampleCollaborators (exampleDocument []) 1
          (Json.object [("title", Json.string "a count"), ("type", Json.number 5)])
          exampleNode exampleState).out
        ≠ Outcome.error
            (Error.message ("schema " ++ exampleNode.property ++ " - type is required")) :=
  ⟨by decide,
    parseSchema_type_wrong_kind exampleCollaborators (exampleDocument []) 0
      [("title", Json.string "a count"), ("type", Json.number 5)] exampleNode exampleState
      (by decide) (by decide) (by decide) (by decide) (by decide) (by decide) (by decide)⟩

/-- C6 fails as stated: on the property node `x`, a `type` holding the number 5 is
reported with the wrong-type error, while an absent `type` is reported with
"schema x - type is required". -/
theorem type_wrong_kind_differs_from_absent :
    (parseSchema exampleCollaborators (exampleDocument []) 1
        (Json.object [("type", Json.number 5)]) exampleNode exampleState).out
      = Outcome.error (Error.WrongTypeError "type" "string")
    ∧ (parseSchema exampleCollaborators (exampleDocument []) 1
        (Json.object []) exampleNode exampleState).out
      = Outcome.error (Error.message "schema x - type is required")
    ∧ (parseSchema exampleCollaborators (exampleDocument []) 1
        (Json.object [("type", Json.number 5)]) exampleNode exampleState).out
      ≠ (parseSchema exampleCollaborators (exampleDocument []) 1
        (Json.object []) exampleNode exampleState).out := by
  decide

/-! ## Nodes without a type -/

theorem mem_mapKeys_of_lookup (m : JsonMap) (k : String) (v : Json)
    (h : m.lookup k = some v) : k ∈ mapKeys m :=
  (existsMapKey_iff_mem m k).1 (by simp [existsMapKey, h])

theorem mapIndex_of_lookup (m : JsonMap) (k : String) (v : Json)
    (h : m.lookup k = some v) : mapIndex m k = v := by
  simp [mapIndex, h]

/-- A loop that reaches a body which never ends with `ok` does not end with `ok`. -/
theorem forRange_not_ok (body : String → JsonSchema Ref → St Ref → Res Ref) (k0 : String)
    (hbody : ∀ cur st, (body k0 cur st).out ≠ Outcome.ok) :
    ∀ (keys : List String) (cur : JsonSchema Ref) (st : St Ref), k0 ∈ keys →
      (forRange body keys cur st).out ≠ Outcome.ok := by
  intro keys
  induction keys with
  | nil => intro cur st hmem; simp at hmem
  | cons k ks ih =>
    intro cur st hmem
    simp only [forRange]
    by_cases hb : (body k cur st).out = Outcome.ok
    · simp only [hb, if_true]
      rcases List.mem_cons.1 hmem with h | h
      · subst h
        exact absurd hb (hbody cur st)
      · exact ih _ _ h
    · simp only [hb, if_false]
      exact hb

theorem keywordSection_absent_type (m : JsonMap) (cur : JsonSchema Ref)
    (htype : KEY_TYPE ∉ mapKeys m) : (keywordSection m cur).1 ≠ none := by
  intro h
  obtain ⟨t, ht, _⟩ := keywordSection_etype m cur h
  rw [mapIndex_of_not_mem m KEY_TYPE htype] at ht
  simp at ht

theorem parseKeywords_absent_type (call : Json → JsonSchema Ref → St Ref → Res Ref)
    (m : JsonMap) (cur : JsonSchema Ref) (st : St Ref) (htype : KEY_TYPE ∉ mapKeys m) :
    (parseKeywords call m cur st).out ≠ Outcome.ok := by
  have h := keywordSection_absent_type m cur htype
  unfold parseKeywords
  rcases heq : keywordSection m cur with ⟨_ | err, cur2⟩
  · rw [heq] at h
    simp at h
  · simp

theorem childrenSection_properties_not_ok (call : Json → JsonSchema Ref → St Ref → Res Ref)
    (m ps : JsonMap) (k : String) (v : Json)
    (hps : m.lookup KEY_PROPERTIES = some (Json.object ps)) (hv : ps.lookup k = some v)
    (hcall : ∀ cur st, (call v cur st).out ≠ Outcome.ok) (cur : JsonSchema Ref) (st : St Ref) :
    (childrenSection call m cur st).out ≠ Outcome.ok := by
  have hloop : (forRange (propertiesBody call m) (mapKeys m) cur st).out ≠ Outcome.ok := by
    refine forRange_not_ok _ KEY_PROPERTIES (fun c s => ?_) _ _ _
      (mem_mapKeys_of_lookup m _ _ hps)
    simp only [propertiesBody, if_true, mapIndex_of_lookup m _ _ hps, parsePropertiesWith]
    refine forRange_not_ok _ k (fun c2 s2 => ?_) _ _ _ (mem_mapKeys_of_lookup ps _ _ hv)
    simp only [propertyBody, mapIndex_of_lookup ps _ _ hv]
    exact hcall _ _
  simp only [childrenSection]
  simp [hloop]

theorem childrenSection_items_not_ok (call : Json → JsonSchema Ref → St Ref → Res Ref)
    (m : JsonMap) (v : Json) (hv : m.lookup KEY_ITEMS = some v)
    (hcall : ∀ cur st, (call v cur st).out ≠ Outcome.ok) (cur : JsonSchema Ref) (st : St Ref) :
    (childrenSection call m cur st).out ≠ Outcome.ok := by
  simp only [childrenSection]
  by_cases hp : (forRange (propertiesBody call m) (mapKeys m) cur st).out = Outcome.ok
  · simp only [hp, if_true]
    refine forRange_not_ok _ KEY_ITEMS (fun c s => ?_) _ _ _ (mem_mapKeys_of_lookup m _ _ hv)
    simp only [itemsBody, if_true, mapIndex_of_lookup m _ _ hv]
    exact hcall _ _
  · simp only [hp, if_false]
    exact hp

theorem parseKeywords_children_not_ok (call : Json → JsonSchema Ref → St Ref → Res Ref)
    (m : JsonMap) (hchildren : ∀ cur st, (childrenSection call m cur st).out ≠ Outcome.ok)
    (cur : JsonSchema Ref) (st : St Ref) : (parseKeywords call m cur st).out ≠ Outcome.ok := by
  unfold parseKeywords
  rcases keywordSection m cur with ⟨_ | err, cur2⟩
  · exact hchildren _ _
  · simp

theorem parseSchema_not_ok_of_keywords (x : Collaborators Ref) (d : JsonSchemaDocument Ref)
    (fuel : Nat) (m : JsonMap) (href : KEY_REF ∉ mapKeys m)
    (hkey : ∀ cur st, (parseKeywords (parseSchema x d fuel) m cur st).out ≠ Outcome.ok)
    (cur : JsonSchema Ref) (st : St Ref) :
    (parseSchema x d (fuel + 1) (Json.object m) cur st).out ≠ Outcome.ok := by
  rcases heq : rootSection x d m cur with ⟨_ | err, cur1⟩
  · have h1 : (rootSection x d m cur).1 = none := by rw [heq]
    rw [parseSchema_no_ref x d fuel m cur st href h1]
    exact hkey _ _
  · simp [parseSchema, heq]

/-- A document with a node without `type`, reached without following a `$ref`, never
parses successfully. -/
theorem missingType_not_ok (x : Collaborators Ref) (d : JsonSchemaDocument Ref) (doc : Json)
    (h : MissingType doc) :
    ∀ (fuel : Nat) (cur : JsonSchema Ref) (st : St Ref),
      (parseSchema x d fuel doc cur st).out ≠ Outcome.ok := by
  induction h with
  | here m htype href =>
    intro fuel cur st
    cases fuel with
    | zero => simp [parseSchema]
    | succ fuel =>
      exact parseSchema_not_ok_of_keywords x d fuel m href
        (fun c s => parseKeywords_absent_type _ m c s htype) cur st
  | property m ps k v href hps hv _ ih =>
    intro fuel cur st
    cases fuel with
    | zero => simp [parseSchema]
    | succ fuel =>
      exact parseSchema_not_ok_of_keywords x d fuel m href
        (parseKeywords_children_not_ok _ m
          (childrenSection_properties_not_ok _ m ps k v hps hv (ih fuel))) cur st
  | items m v href hv _ ih =>
    intro fuel cur st
    cases fuel with
    | zero => simp [parseSchema]
    | succ fuel =>
      exact parseSchema_not_ok_of_keywords x d fuel m href
        (parseKeywords_children_not_ok _ m
          (childrenSection_items_not_ok _ m v hv (ih fuel))) cur st

theorem parseSchema_absent_type (x : Collaborators Ref) (d : JsonSchemaDocument Ref)
    (fuel : Nat) (m : JsonMap) (cur : JsonSchema Ref) (st : St Ref)
    (hroot : (rootSection x d m cur).1 = none) (href : KEY_REF ∉ mapKeys m)
    (hid : stringOrAbsent m KEY_ID = true) (htitle : stringOrAbsent m KEY_TITLE = true)
    (hdesc : stringOrAbsent m KEY_DESCRIPTION = true) (htype : KEY_TYPE ∉ mapKeys m) :
    parseSchema x d (fuel + 1) (Json.object m) cur st
      = ⟨Outcome.error (Error.message ("schema " ++ cur.property ++ " - type is required")),
          (keywordSection m (rootSection x d m cur).2).2, st⟩ := by
  obtain ⟨c, hl, hc⟩ := keywordSection_valid_strings m (rootSection x d m cur).2 hid htitle hdesc
  have hp : c.property = cur.property := hl.2.1.trans (rootSection_links x d m cur).2.1
  rw [parseSchema_no_ref x d fuel m cur st href hroot]
  simp [parseKeywords, hc, typeKeyword_absent m c htype, hp]

theorem forRange_append (body : String → JsonSchema Ref → St Ref → Res Ref) :
    ∀ (ks1 ks2 : List String) (cur : JsonSchema Ref) (st : St Ref),
      forRange body (ks1 ++ ks2) cur st
        = if (forRange body ks1 cur st).out = Outcome.ok then
            forRange body ks2 (forRange body ks1 cur st).node (forRange body ks1 cur st).st
          else forRange body ks1 cur st := by
  intro ks1
  induction ks1 with
  | nil => intro ks2 cur st; simp [forRange]
  | cons k ks ih =>
    intro ks2 cur st
    simp only [List.cons_append, forRange]
    by_cases hb : (body k cur st).out = Outcome.ok
    · simp only [hb, if_true]
      exact ih ks2 _ _
    · simp only [hb, if_false]

theorem forRange_congr (body1 body2 : String → JsonSchema Ref → St Ref → Res Ref) :
    ∀ (keys : List String), (∀ k ∈ keys, ∀ c s, body1 k c s = body2 k c s) →
      ∀ (cur : JsonSchema Ref) (st : St Ref),
        forRange body1 keys cur st = forRange body2 keys cur st := by
  intro keys
  induction keys with
  | nil => intro _ cur st; rfl
  | cons k ks ih =>
    intro h cur st
    simp only [forRange, h k (List.mem_cons_self k ks)]
    split
    · exact ih (fun k2 hk2 => h k2 (List.mem_cons_of_mem k hk2)) _ _
    · rfl

theorem mapIndex_append_left (pre rest : JsonMap) (k : String) (hk : k ∈ mapKeys pre) :
    mapIndex (pre ++ rest) k = mapIndex pre k := by
  have hsome : (pre.lookup k).isSome = true := (existsMapKey_iff_mem pre k).2 hk
  rcases hl : pre.lookup k with _ | v
  · rw [hl] at hsome
    simp at hsome
  · simp [mapIndex, List.lookup_append, hl]

theorem mapIndex_append_right (pre rest : JsonMap) (k : String) (hk : k ∉ mapKeys pre) :
    mapIndex (pre ++ rest) k = mapIndex rest k := by
  simp [mapIndex, List.lookup_append, lookup_eq_none_of_not_mem pre k hk]

/-- The loop of `parseProperties` returns at the first entry that fails: when the
entries enumerated before the entry `name` parse without error and the value of `name`
does not, the outcome is the one of parsing that value, whatever entries follow. -/
theorem propertyLoop_first_failure (call : Json → JsonSchema Ref → St Ref → Res Ref)
    (pre post : JsonMap) (name : String) (doc : Json) (cur : JsonSchema Ref) (st : St Ref)
    (hname : name ∉ mapKeys pre)
    (hpre : (parsePropertiesWith call (Json.object pre) cur st).out = Outcome.ok)
    (hfail : (call doc
        (newPropertySchema name (parsePropertiesWith call (Json.object pre) cur st).node
          (parsePropertiesWith call (Json.object pre) cur st).st)
        { (parsePropertiesWith call (Json.object pre) cur st).st with
          next := (parsePropertiesWith call (Json.object pre) cur st).st.next + 1 }).out
      ≠ Outcome.ok) :
    (parsePropertiesWith call (Json.object (pre ++ (name, doc) :: post)) cur st).out
      = (call doc
        (newPropertySchema name (parsePropertiesWith call (Json.object pre) cur st).node
          (parsePropertiesWith call (Json.object pre) cur st).st)
        { (parsePropertiesWith call (Json.object pre) cur st).st with
          next := (parsePropertiesWith call (Json.object pre) cur st).st.next + 1 }).out := by
  have hcongr : ∀ c s, forRange (propertyBody call (pre ++ (name, doc) :: post)) (mapKeys pre) c s
      = forRange (propertyBody call pre) (mapKeys pre) c s := by
    intro c s
    refine forRange_congr _ _ (mapKeys pre) (fun k hk c2 s2 => ?_) c s
    simp only [propertyBody, mapIndex_append_left pre _ k hk]
  have hidx : mapIndex (pre ++ (name, doc) :: post) name = doc := by
    rw [mapIndex_append_right pre _ name hname]
    simp [mapIndex, List.lookup]
  simp only [parsePropertiesWith] at hpre hfail ⊢
  have hkeys : mapKeys (pre ++ (name, doc) :: post) = mapKeys pre ++ name :: mapKeys post := by
    simp [mapKeys]
  rw [hkeys, forRange_append, hcongr, if_pos hpre]
  have hb : (propertyBody call (pre ++ (name, doc) :: post) name
      (forRange (propertyBody call pre) (mapKeys pre) cur st).node
      (forRange (propertyBody call pre) (mapKeys pre) cur st).st).out ≠ Outcome.ok := by
    simpa only [propertyBody, hidx] using hfail
  simp only [forRange, hb, if_false]
  simp only [propertyBody, hidx]

/-- C4 fails as stated: a node without a `type` key can fail with another error (a
`title` that is not a string is reported first), and it can parse successfully (its
`$ref` resolves to a mapping that has a `type`). -/
theorem missing_type_other_outcomes :
    (KEY_TYPE ∉ mapKeys [("title", Json.number 5)]
      ∧ (parseSchema exampleCollaborators (exampleDocument []) 1
          (Json.object [("title", Json.number 5)]) exampleNode exampleState).out
        = Outcome.error (Error.WrongTypeError "title" "string"))
    ∧ (KEY_TYPE ∉ mapKeys [("$ref", Json.string "#/definitions/a")]
      ∧ (parseSchema exampleCollaborators
          (exampleDocument [("http://example.org/root.json", exampleDefinitions)]) 1
          (Json.object [("$ref", Json.string "#/definitions/a")]) exampleNode exampleState).out
        = Outcome.ok) := by
  decide

/-! ## Substitution of `$ref` -/

theorem refSection_of_ref (x : Collaborators Ref) (d : JsonSchemaDocument Ref) (m : JsonMap)
    (k : String) (cur : JsonSchema Ref) (st : St Ref)
    (h : m.lookup KEY_REF = some (Json.string k)) :
    refSection x d m cur st =
      match x.NewJsonReference k with
      | (_, some err) => ⟨Outcome.error err, m, cur, st⟩
      | (jsonReference, none) =>
        match setRef x jsonReference cur with
        | (Outcome.ok, cur2) => resolve x d m cur2 st
        | (out, cur2) => ⟨out, m, cur2, st⟩ := by
  simp [refSection, existsMapKey, mapIndex, h, isKind, kindOf]

/-- The `$ref` section, when it errs, does not depend on the mapping; when it passes on
a `$ref`, the mapping it leaves is the resolved one. -/
theorem resolve_congr (x : Collaborators Ref) (d : JsonSchemaDocument Ref) (m1 m2 : JsonMap)
    (cur : JsonSchema Ref) (st : St Ref) :
    (resolve x d m1 cur st).out = (resolve x d m2 cur st).out
    ∧ (resolve x d m1 cur st).node = (resolve x d m2 cur st).node
    ∧ (resolve x d m1 cur st).st = (resolve x d m2 cur st).st
    ∧ ((resolve x d m1 cur st).out = Outcome.ok →
        (resolve x d m1 cur st).m = (resolve x d m2 cur st).m) := by
  unfold resolve
  rcases cur.ref with _ | ref
  · simp
  · simp only
    rcases d.pool.GetPoolDocument ref with err | document
    · simp
    · simp only
      rcases x.PointerGet ref document with ⟨v, _ | err⟩
      · cases v <;> simp
      · simp

theorem refSection_congr (x : Collaborators Ref) (d : JsonSchemaDocument Ref) (m1 m2 : JsonMap)
    (k : String) (cur : JsonSchema Ref) (st : St Ref)
    (h1 : m1.lookup KEY_REF = some (Json.string k))
    (h2 : m2.lookup KEY_REF = some (Json.string k)) :
    (refSection x d m1 cur st).out = (refSection x d m2 cur st).out
    ∧ (refSection x d m1 cur st).node = (refSection x d m2 cur st).node
    ∧ (refSection x d m1 cur st).st = (refSection x d m2 cur st).st
    ∧ ((refSection x d m1 cur st).out = Outcome.ok →
        (refSection x d m1 cur st).m = (refSection x d m2 cur st).m) := by
  rw [refSection_of_ref x d m1 k cur st h1, refSection_of_ref x d m2 k cur st h2]
  rcases x.NewJsonReference k with ⟨jsonReference, _ | err⟩
  · simp only
    rcases setRef x jsonReference cur with ⟨out, cur2⟩
    cases out with
    | ok => exact resolve_congr x d m1 m2 cur2 st
    | error e => simp
    | nilDereference => simp
    | outOfFuel => simp
  · simp

/-- Two mappings with the same string `$ref` parse to the same result on a node on which
their root sections agree. -/
theorem parseSchema_ref_congr (x : Collaborators Ref) (d : JsonSchemaDocument Ref)
    (fuel : Nat) (m1 m2 : JsonMap) (k : String) (cur : JsonSchema Ref) (st : St Ref)
    (hroot : rootSection x d m1 cur = rootSection x d m2 cur)
    (h1 : m1.lookup KEY_REF = some (Json.string k))
    (h2 : m2.lookup KEY_REF = some (Json.string k)) :
    parseSchema x d (fuel + 1) (Json.object m1) cur st
      = parseSchema x d (fuel + 1) (Json.object m2) cur st := by
  simp only [parseSchema, hroot]
  rcases rootSection x d m2 cur with ⟨_ | err, cur1⟩
  · simp only
    obtain ⟨ho, hn, hs, hm⟩ := refSection_congr x d m1 m2 k cur1 st h1 h2
    by_cases hok : (refSection x d m1 cur1 st).out = Outcome.ok
    · have hok2 : (refSection x d m2 cur1 st).out = Outcome.ok := ho ▸ hok
      simp only [hok, hok2, if_true]
      rw [hm hok, hn, hs]
    · have hok2 : ¬ (refSection x d m2 cur1 st).out = Outcome.ok := ho ▸ hok
      simp only [hok, hok2, if_false]
      rw [ho, hn, hs]
  · rfl

/-- C7: on a node that is not the root, two mappings with the same string `$ref` give
the same result of `parseSchema`, whatever their other keys are; and when the reference
resolves, that result is the result of parsing the keywords of the resolved target
mapping on this node, with the `ref` the `$ref` gave it. -/
theorem parseSchema_ref_substitution (x : Collaborators Ref) (d : JsonSchemaDocument Ref)
    (fuel : Nat) (m1 m2 : JsonMap) (k : String) (cur : JsonSchema Ref) (st : St Ref)
    (hroot : d.rootSchema ≠ some cur.addr)
    (h1 : m1.lookup KEY_REF = some (Json.string k))
    (h2 : m2.lookup KEY_REF = some (Json.string k)) :
    parseSchema x d (fuel + 1) (Json.object m1) cur st
      = parseSchema x d (fuel + 1) (Json.object m2) cur st
    ∧ ∀ (jsonReference ref : Ref) (cur2 : JsonSchema Ref) (document : Json) (target : JsonMap),
        x.NewJsonReference k = (jsonReference, none) →
        setRef x jsonReference cur = (Outcome.ok, cur2) → cur2.ref = some ref →
        d.pool.GetPoolDocument ref = Except.ok document →
        x.PointerGet ref document = (Json.object target, none) →
        parseSchema x d (fuel + 1) (Json.object m1) cur st
          = parseKeywords (parseSchema x d fuel) target cur2
              { st with requests := st.requests ++ [ref] } := by
  constructor
  · refine parseSchema_ref_congr x d fuel m1 m2 k cur st ?_ h1 h2
    rw [rootSection_not_root x d m1 cur hroot, rootSection_not_root x d m2 cur hroot]
  · intro jsonReference ref cur2 document target hnew hset href hpool hget
    simp [parseSchema, rootSection_not_root x d m1 cur hroot,
      refSection_of_ref x d m1 k cur st h1, hnew, hset, resolve, href, hpool, hget]

theorem parseSchema_ref_substitution_witness :
    (parseSchema exampleCollaborators
        (exampleDocument [("http://example.org/root.json", exampleDefinitions)]) 1
        (Json.object [("$ref", Json.string "#/definitions/a")]) exampleNode exampleState
      = parseSchema exampleCollaborators
        (exampleDocument [("http://example.org/root.json", exampleDefinitions)]) 1
        (Json.object
          [("title", Json.number 5), ("$ref", Json.string "#/definitions/a"),
           ("type", Json.string "integer"), ("properties", Json.null)])
        exampleNode exampleState)
    ∧ parseSchema exampleCollaborators
        (exampleDocument [("http://example.org/root.json", exampleDefinitions)]) 1
        (Json.object [("$ref", Json.string "#/definitions/a")]) exampleNode exampleState
      = parseKeywords
          (parseSchema exampleCollaborators
            (exampleDocument [("http://example.org/root.json", exampleDefinitions)]) 0)
          [("type", Json.string "string")]
          { exampleNode with
            ref := some ⟨"http://example.org/root.json", ["definitions", "a"], true⟩ }
          ({ next := 2,
             requests := [⟨"http://example.org/root.json", ["definitions", "a"], true⟩] } :
            St ExampleRef)
    ∧ (parseSchema exampleCollaborators
        (exampleDocument [("http://example.org/root.json", exampleDefinitions)]) 1
        (Json.object
          [("title", Json.number 5), ("$ref", Json.string "#/definitions/a"),
           ("type", Json.string "integer"), ("properties", Json.null)])
        exampleNode exampleState).out = Outcome.ok
    ∧ (parseSchema exampleCollaborators
        (exampleDocument [("http://example.org/root.json", exampleDefinitions)]) 1
        (Json.object
          [("title", Json.number 5), ("$ref", Json.string "#/definitions/a"),
           ("type", Json.string "integer"), ("properties", Json.null)])
        exampleNode exampleState).node.etype = some "string" :=
  ⟨(parseSchema_ref_substitution exampleCollaborators
      (exampleDocument [("http://example.org/root.json", exampleDefinitions)]) 0
      [("$ref", Json.string "#/definitions/a")]
      [("title", Json.number 5), ("$ref", Json.string "#/definitions/a"),
        ("type", Json.string "integer"), ("properties", Json.null)]
      "#/definitions/a" exampleNode exampleState (by decide) rfl rfl).1,
    (parseSchema_ref_substitution exampleCollaborators
      (exampleDocument [("http://example.org/root.json", exampleDefinitions)]) 0
      [("$ref", Json.string "#/definitions/a")]
      [("title", Json.number 5), ("$ref", Json.string "#/definitions/a"),
        ("type", Json.string "integer"), ("properties", Json.null)]
      "#/definitions/a" exampleNode exampleState (by decide) rfl rfl).2
      ⟨"", ["definitions", "a"], false⟩
      ⟨"http://example.org/root.json", ["definitions", "a"], true⟩
      { exampleNode with
        ref := some ⟨"http://example.org/root.json", ["definitions", "a"], true⟩ }
      exampleDefinitions [("type", Json.string "string")] rfl rfl rfl rfl rfl,
    by decide, by decide⟩

/-! ## Enumeration order -/

theorem lookup_perm (m1 m2 : JsonMap) (hp : m1.Perm m2) (hn : (mapKeys m1).Nodup)
    (k : String) : m1.lookup k = m2.lookup k := by
  induction hp with
  | nil => rfl
  | cons e _ ih =>
    obtain ⟨a, v⟩ := e
    simp only [mapKeys, List.map_cons, List.nodup_cons] at hn
    simp only [List.lookup]
    rw [ih hn.2]
  | swap e1 e2 l =>
    obtain ⟨a, v⟩ := e1
    obtain ⟨b, w⟩ := e2
    simp only [mapKeys, List.map_cons, List.nodup_cons, List.mem_cons, not_or] at hn
    have hne : b ≠ a := hn.1.1
    simp only [List.lookup]
    by_cases hka : k = a
    · subst hka
      have : (k == b) = false := by simpa using fun h => hne h.symm
      simp [this]
    · have : (k == a) = false := by simpa using hka
      simp [this]
  | trans h12 _ ih1 ih2 =>
    have hn2 := (h12.map Prod.fst).nodup_iff.1 hn
    rw [ih1 hn, ih2 hn2]

theorem forRange_noop (body : String → JsonSchema Ref → St Ref → Res Ref)
    (keys : List String) (cur : JsonSchema Ref) (st : St Ref)
    (h : ∀ k ∈ keys, ∀ c s, body k c s = ⟨Outcome.ok, c, s⟩) :
    forRange body keys cur st = ⟨Outcome.ok, cur, st⟩ := by
  induction keys with
  | nil => rfl
  | cons k ks ih =>
    simp only [forRange, h k (List.mem_cons_self k ks), if_true]
    exact ih fun k2 hk2 => h k2 (List.mem_cons_of_mem k hk2)

/-- A loop over keys without repetition whose body acts on one key only runs that body
once if the key is there, and does nothing otherwise. -/
theorem forRange_single (body : String → JsonSchema Ref → St Ref → Res Ref) (key : String)
    (hbody : ∀ k, k ≠ key → ∀ c s, body k c s = ⟨Outcome.ok, c, s⟩) :
    ∀ (keys : List String), keys.Nodup → ∀ (cur : JsonSchema Ref) (st : St Ref),
      forRange body keys cur st
        = if key ∈ keys then body key cur st else ⟨Outcome.ok, cur, st⟩ := by
  intro keys
  induction keys with
  | nil => intro _ cur st; simp [forRange]
  | cons k ks ih =>
    intro hn cur st
    simp only [List.nodup_cons] at hn
    by_cases hk : k = key
    · subst hk
      have hrest : ∀ c s, forRange body ks c s = ⟨Outcome.ok, c, s⟩ := fun c s =>
        forRange_noop body ks c s fun k2 hk2 =>
          hbody k2 (fun h => hn.1 (h ▸ hk2))
      simp only [forRange, hrest, List.mem_cons, true_or, if_true]
      by_cases hok : (body k cur st).out = Outcome.ok
      · simp only [hok, if_true]
        rw [← hok]
      · simp only [hok, if_false]
    · have hmem : key ∈ k :: ks ↔ key ∈ ks := by
        constructor
        · intro h
          rcases List.mem_cons.1 h with h | h
          · exact absurd h.symm hk
          · exact h
        · exact List.mem_cons_of_mem k
      simp only [forRange, hbody k hk, if_true, hmem]
      exact ih hn.2 cur st

theorem rootSection_congr (x : Collaborators Ref) (d : JsonSchemaDocument Ref)
    (m1 m2 : JsonMap) (cur : JsonSchema Ref)
    (hs : m1.lookup KEY_SCHEMA = m2.lookup KEY_SCHEMA)
    (hr : m1.lookup KEY_REF = m2.lookup KEY_REF) :
    rootSection x d m1 cur = rootSection x d m2 cur := by
  simp only [rootSection, existsMapKey, mapIndex, hs, hr]

theorem keywordSection_congr (m1 m2 : JsonMap) (cur : JsonSchema Ref)
    (hi : m1.lookup KEY_ID = m2.lookup KEY_ID) (ht : m1.lookup KEY_TITLE = m2.lookup KEY_TITLE)
    (hd : m1.lookup KEY_DESCRIPTION = m2.lookup KEY_DESCRIPTION)
    (hy : m1.lookup KEY_TYPE = m2.lookup KEY_TYPE) :
    keywordSection m1 cur = keywordSection m2 cur := by
  simp only [keywordSection, idKeyword, titleKeyword, descriptionKeyword, typeKeyword,
    existsMapKey, mapIndex, hi, ht, hd, hy]

/-- Without a string `$ref`, the `$ref` section leaves the mapping as it is, and its
outcome depends on the mapping through the value of `$ref` only. -/
theorem refSection_not_string (x : Collaborators Ref) (d : JsonSchemaDocument Ref)
    (m : JsonMap) (cur : JsonSchema Ref) (st : St Ref)
    (h : ∀ k, m.lookup KEY_REF ≠ some (Json.string k)) :
    refSection x d m cur st
      = ⟨if (m.lookup KEY_REF).isSome then
            Outcome.error (ERROR_MESSAGE_X_MUST_BE_OF_TYPE_Y KEY_REF STRING_STRING)
          else Outcome.ok, m, cur, st⟩ := by
  unfold refSection
  rcases hl : m.lookup KEY_REF with _ | v
  · simp [existsMapKey, mapIndex, hl]
  · cases v with
    | string k => exact absurd hl (h k)
    | null => simp [existsMapKey, mapIndex, hl, isKind, kindOf]
    | bool b => simp [existsMapKey, mapIndex, hl, isKind, kindOf]
    | number n => simp [existsMapKey, mapIndex, hl, isKind, kindOf]
    | array xs => simp [existsMapKey, mapIndex, hl, isKind, kindOf]
    | object o => simp [existsMapKey, mapIndex, hl, isKind, kindOf]

/-- Over keys without repetition, the first loop of `parseSchema` parses the value of
`properties` once, if the key is there. -/
theorem propertiesLoop_eq (call : Json → JsonSchema Ref → St Ref → Res Ref) (m : JsonMap)
    (hn : (mapKeys m).Nodup) (cur : JsonSchema Ref) (st : St Ref) :
    forRange (propertiesBody call m) (mapKeys m) cur st
      = match m.lookup KEY_PROPERTIES with
        | some v => parsePropertiesWith call v cur st
        | none => ⟨Outcome.ok, cur, st⟩ := by
  rw [forRange_single (propertiesBody call m) KEY_PROPERTIES
    (fun k hk c s => by simp [propertiesBody, hk]) (mapKeys m) hn cur st]
  rcases hl : m.lookup KEY_PROPERTIES with _ | v
  · have : KEY_PROPERTIES ∉ mapKeys m := fun hmem => by
      have := (existsMapKey_iff_mem m KEY_PROPERTIES).2 hmem
      simp [existsMapKey, hl] at this
    simp [this]
  · simp [mem_mapKeys_of_lookup m _ v hl, propertiesBody, mapIndex_of_lookup m _ v hl]

/-- Over keys without repetition, the second loop of `parseSchema` parses the value of
`items` once, if the key is there. -/
theorem itemsLoop_eq (call : Json → JsonSchema Ref → St Ref → Res Ref) (m : JsonMap)
    (hn : (mapKeys m).Nodup) (cur : JsonSchema Ref) (st : St Ref) :
    forRange (itemsBody call m) (mapKeys m) cur st
      = match m.lookup KEY_ITEMS with
        | some v =>
          ⟨(call v (newItemsSchema cur st) { st with next := st.next + 1 }).out,
            cur.AddPropertiesChild
              (call v (newItemsSchema cur st) { st with next := st.next + 1 }).node,
            (call v (newItemsSchema cur st) { st with next := st.next + 1 }).st⟩
        | none => ⟨Outcome.ok, cur, st⟩ := by
  rw [forRange_single (itemsBody call m) KEY_ITEMS
    (fun k hk c s => by simp [itemsBody, hk]) (mapKeys m) hn cur st]
  rcases hl : m.lookup KEY_ITEMS with _ | v
  · have : KEY_ITEMS ∉ mapKeys m := fun hmem => by
      have := (existsMapKey_iff_mem m KEY_ITEMS).2 hmem
      simp [existsMapKey, hl] at this
    simp [this]
  · simp [mem_mapKeys_of_lookup m _ v hl, itemsBody, mapIndex_of_lookup m _ v hl]

theorem sameProperties_keys (ps1 : JsonMap) :
    ∀ ps2 : JsonMap, SameProperties ps1 ps2 → mapKeys ps1 = mapKeys ps2 := by
  induction ps1 with
  | nil =>
    intro ps2 h
    cases h
    rfl
  | cons e r1 ih =>
    intro ps2 h
    cases h with
    | cons k v1 v2 _ r2 hv hrest =>
      simp only [mapKeys, List.map_cons]
      exact congrArg _ (ih r2 hrest)

theorem sameProperties_index (ps1 : JsonMap) :
    ∀ ps2 : JsonMap, SameProperties ps1 ps2 →
      ∀ k, SameNode (mapIndex ps1 k) (mapIndex ps2 k) := by
  induction ps1 with
  | nil =>
    intro ps2 h k
    cases h
    exact SameNode.refl _
  | cons e r1 ih =>
    intro ps2 h k
    cases h with
    | cons k0 v1 v2 _ r2 hv hrest =>
      by_cases hk : k = k0
      · subst hk
        simpa [mapIndex, List.lookup] using hv
      · have hne : (k == k0) = false := by simpa using hk
        have := ih r2 hrest k
        simpa [mapIndex, List.lookup, hne] using this

theorem sameProperties_loop (call : Json → JsonSchema Ref → St Ref → Res Ref)
    (hcall : OrderBlindCall call) (ps1 ps2 : JsonMap) (h : SameProperties ps1 ps2)
    (cur : JsonSchema Ref) (st : St Ref) :
    forRange (propertyBody call ps1) (mapKeys ps1) cur st
      = forRange (propertyBody call ps2) (mapKeys ps2) cur st := by
  have hbody : propertyBody call ps1 = propertyBody call ps2 := by
    funext k c s
    simp only [propertyBody, hcall _ _ (sameProperties_index ps1 ps2 h k)]
  rw [sameProperties_keys ps1 ps2 h, hbody]

theorem childrenSection_same (call : Json → JsonSchema Ref → St Ref → Res Ref)
    (hcall : OrderBlindCall call) (m1 m2 : JsonMap) (h1 : (mapKeys m1).Nodup)
    (h2 : (mapKeys m2).Nodup)
    (hitems : SameItems (m1.lookup KEY_ITEMS) (m2.lookup KEY_ITEMS))
    (hprops : SamePropertiesValue (m1.lookup KEY_PROPERTIES) (m2.lookup KEY_PROPERTIES))
    (cur : JsonSchema Ref) (st : St Ref) :
    childrenSection call m1 cur st = childrenSection call m2 cur st := by
  have hp : ∀ c s, forRange (propertiesBody call m1) (mapKeys m1) c s
      = forRange (propertiesBody call m2) (mapKeys m2) c s := by
    intro c s
    rw [propertiesLoop_eq call m1 h1, propertiesLoop_eq call m2 h2]
    generalize m1.lookup KEY_PROPERTIES = o1 at hprops
    generalize m2.lookup KEY_PROPERTIES = o2 at hprops
    cases hprops with
    | same o => rfl
    | mappings ps1 ps2 hps =>
      simp only [parsePropertiesWith]
      exact sameProperties_loop call hcall ps1 ps2 hps c s
  have hi : ∀ c s, forRange (itemsBody call m1) (mapKeys m1) c s
      = forRange (itemsBody call m2) (mapKeys m2) c s := by
    intro c s
    rw [itemsLoop_eq call m1 h1, itemsLoop_eq call m2 h2]
    generalize m1.lookup KEY_ITEMS = o1 at hitems
    generalize m2.lookup KEY_ITEMS = o2 at hitems
    cases hitems with
    | absent => rfl
    | present v1 v2 hv => simp only [hcall v1 v2 hv]
  simp only [childrenSection, hp, hi]

theorem parseKeywords_same (call : Json → JsonSchema Ref → St Ref → Res Ref)
    (hcall : OrderBlindCall call) (m1 m2 : JsonMap) (h1 : (mapKeys m1).Nodup)
    (h2 : (mapKeys m2).Nodup)
    (hother : ∀ k, k ≠ KEY_PROPERTIES → k ≠ KEY_ITEMS → m1.lookup k = m2.lookup k)
    (hitems : SameItems (m1.lookup KEY_ITEMS) (m2.lookup KEY_ITEMS))
    (hprops : SamePropertiesValue (m1.lookup KEY_PROPERTIES) (m2.lookup KEY_PROPERTIES))
    (cur : JsonSchema Ref) (st : St Ref) :
    parseKeywords call m1 cur st = parseKeywords call m2 cur st := by
  have hk := keywordSection_congr m1 m2 cur (hother KEY_ID (by decide) (by decide))
    (hother KEY_TITLE (by decide) (by decide)) (hother KEY_DESCRIPTION (by decide) (by decide))
    (hother KEY_TYPE (by decide) (by decide))
  simp only [parseKeywords, hk, childrenSection_same call hcall m1 m2 h1 h2 hitems hprops]

theorem sameItems_refl (o : Option Json) : SameItems o o := by
  cases o with
  | none => exact SameItems.absent
  | some v => exact SameItems.present v v (SameNode.refl v)

/-- Two enumerations of the entries of one mapping, which holds each key once, are the
same up to the order of the entries. -/
theorem sameNode_of_perm (m1 m2 : JsonMap) (hp : m1.Perm m2) (hn : (mapKeys m1).Nodup) :
    SameNode (Json.object m1) (Json.object m2) := by
  have hl := lookup_perm m1 m2 hp hn
  refine SameNode.node m1 m2 hn ((hp.map Prod.fst).nodup_iff.1 hn) (fun k _ _ => hl k) ?_ ?_
  · rw [hl]
    exact sameItems_refl _
  · rw [hl]
    exact SamePropertiesValue.same _

/-- The whole result of `parseSchema` (outcome, node and state) is the same for two
documents that differ only in the enumeration order of the entries of their node
mappings, at any depth below nodes without `$ref` (`SameNode`): the keywords of a node
are looked up by key, in the fixed order of the source. -/
theorem parseSchema_keyword_order (x : Collaborators Ref) (d : JsonSchemaDocument Ref)
    (fuel : Nat) (v1 v2 : Json) (cur : JsonSchema Ref) (st : St Ref) (h : SameNode v1 v2) :
    parseSchema x d fuel v1 cur st = parseSchema x d fuel v2 cur st := by
  induction fuel generalizing v1 v2 cur st with
  | zero => simp [parseSchema]
  | succ fuel ih =>
    have hcall : OrderBlindCall (parseSchema x d fuel) := fun w1 w2 hw c s => ih w1 w2 c s hw
    cases h with
    | refl => rfl
    | node m1 m2 h1 h2 hother hitems hprops =>
      have href := hother KEY_REF (by decide) (by decide)
      have hroot := rootSection_congr x d m1 m2 cur (hother KEY_SCHEMA (by decide) (by decide))
        href
      by_cases hstr : ∃ k, m1.lookup KEY_REF = some (Json.string k)
      · obtain ⟨k, hk⟩ := hstr
        exact parseSchema_ref_congr x d fuel m1 m2 k cur st hroot hk (href ▸ hk)
      · have hn1 : ∀ k, m1.lookup KEY_REF ≠ some (Json.string k) := fun k hk => hstr ⟨k, hk⟩
        have hn2 : ∀ k, m2.lookup KEY_REF ≠ some (Json.string k) := fun k hk =>
          hstr ⟨k, href ▸ hk⟩
        simp only [parseSchema, hroot]
        rcases rootSection x d m2 cur with ⟨_ | err, cur1⟩
        · simp only [refSection_not_string x d m1 cur1 st hn1,
            refSection_not_string x d m2 cur1 st hn2, href,
            parseKeywords_same _ hcall m1 m2 h1 h2 hother hitems hprops]
        · rfl

theorem orderExample_same : SameNode orderExample1 orderExample2 := by
  refine SameNode.node _ _ (by decide) (by decide) ?_ SameItems.absent
    (SamePropertiesValue.mappings _ _ (SameProperties.cons _ _ _ _ _
      (sameNode_of_perm _ _ (List.Perm.swap _ _ _) (by decide)) SameProperties.nil))
  intro k h1 h2
  simp only [List.lookup]
  by_cases hk : k = "type"
  · subst hk
    rfl
  · have e1 : (k == "type") = false := by simpa using hk
    have e2 : (k == "properties") = false := by simpa using h1
    simp [e1, e2]

/-- C8 fails as stated: two enumeration orders of one `properties` mapping, whose
entries `a` and `b` both lack a `type`, give two different errors. -/
theorem properties_order_changes_error :
    List.Perm [("a", Json.object []), ("b", Json.object [])]
      [("b", Json.object []), ("a", Json.object [])]
    ∧ (parseSchema exampleCollaborators (exampleDocument []) 2
        (Json.object
          [("type", Json.string "object"),
           ("properties", Json.object [("a", Json.object []), ("b", Json.object [])])])
        exampleNode exampleState).out
      = Outcome.error (Error.message "schema a - type is required")
    ∧ (parseSchema exampleCollaborators (exampleDocument []) 2
        (Json.object
          [("type", Json.string "object"),
           ("properties", Json.object [("b", Json.object []), ("a", Json.object [])])])
        exampleNode exampleState).out
      = Outcome.error (Error.message "schema b - type is required")
    ∧ (parseSchema exampleCollaborators (exampleDocument []) 2
        (Json.object
          [("type", Json.string "object"),
           ("properties", Json.object [("a", Json.object []), ("b", Json.object [])])])
        exampleNode exampleState).out
      ≠ (parseSchema exampleCollaborators (exampleDocument []) 2
        (Json.object
          [("type", Json.string "object"),
           ("properties", Json.object [("b", Json.object []), ("a", Json.object [])])])
        exampleNode exampleState).out :=
  ⟨List.Perm.swap _ _ _, by decide, by decide, by decide⟩

/-! ## Children -/

theorem sameLabel_of_links {a b : JsonSchema Ref} (h : a.SameLinks b) : a.SameLabel b :=
  ⟨h.1, h.2.1, h.2.2.1⟩

theorem sameLabel_trans {a b c : JsonSchema Ref} (h1 : a.SameLabel b) (h2 : b.SameLabel c) :
    a.SameLabel c :=
  ⟨h1.1.trans h2.1, h1.2.1.trans h2.2.1, h1.2.2.trans h2.2.2⟩

theorem sameLabel_addChild (s c : JsonSchema Ref) : (s.AddPropertiesChild c).SameLabel s :=
  ⟨rfl, rfl, rfl⟩

/-- A property that every body preserves holds after the loop, however it ends. -/
theorem forRange_always (P : JsonSchema Ref → Prop)
    (body : String → JsonSchema Ref → St Ref → Res Ref)
    (hbody : ∀ k cur st, P cur → P (body k cur st).node) :
    ∀ (keys : List String) (cur : JsonSchema Ref) (st : St Ref), P cur →
      P (forRange body keys cur st).node := by
  intro keys
  induction keys with
  | nil => intro cur st hP; exact hP
  | cons k ks ih =>
    intro cur st hP
    simp only [forRange]
    by_cases hb : (body k cur st).out = Outcome.ok
    · simp only [hb, if_true]
      exact ih _ _ (hbody k cur st hP)
    · simp only [hb, if_false]
      exact hbody k cur st hP

theorem parsePropertiesWith_label (call : Json → JsonSchema Ref → St Ref → Res Ref)
    (doc : Json) (cur : JsonSchema Ref) (st : St Ref) :
    (parsePropertiesWith call doc cur st).node.SameLabel cur := by
  unfold parsePropertiesWith
  split
  · exact forRange_always (fun c => c.SameLabel cur) _
      (fun k c s hc => sameLabel_trans (sameLabel_addChild c _) hc) _ _ _ ⟨rfl, rfl, rfl⟩
  · exact ⟨rfl, rfl, rfl⟩

theorem childrenSection_label (call : Json → JsonSchema Ref → St Ref → Res Ref)
    (m : JsonMap) (cur : JsonSchema Ref) (st : St Ref) :
    (childrenSection call m cur st).node.SameLabel cur := by
  have hp : (forRange (propertiesBody call m) (mapKeys m) cur st).node.SameLabel cur := by
    refine forRange_always (fun c => c.SameLabel cur) _ (fun k c s hc => ?_) _ _ _
      ⟨rfl, rfl, rfl⟩
    unfold propertiesBody
    split
    · exact sameLabel_trans (parsePropertiesWith_label call _ c s) hc
    · exact hc
  simp only [childrenSection]
  split
  · refine forRange_always (fun c => c.SameLabel cur) _ (fun k c s hc => ?_) _ _ _ hp
    unfold itemsBody
    split
    · exact sameLabel_trans (sameLabel_addChild c _) hc
    · exact hc
  · exact hp

theorem parseKeywords_label (call : Json → JsonSchema Ref → St Ref → Res Ref)
    (m : JsonMap) (cur : JsonSchema Ref) (st : St Ref) :
    (parseKeywords call m cur st).node.SameLabel cur := by
  have hk := sameLabel_of_links (keywordSection_links m cur)
  unfold parseKeywords
  rcases heq : keywordSection m cur with ⟨_ | err, cur2⟩
  · rw [heq] at hk
    exact sameLabel_trans (childrenSection_label call m cur2 st) hk
  · rw [heq] at hk
    exact hk

/-- `parseSchema` leaves the identity, the label and the parent of the node as they
are. -/
theorem parseSchema_label (x : Collaborators Ref) (d : JsonSchemaDocument Ref) (fuel : Nat)
    (doc : Json) (cur : JsonSchema Ref) (st : St Ref) :
    (parseSchema x d fuel doc cur st).node.SameLabel cur := by
  cases fuel with
  | zero => exact ⟨rfl, rfl, rfl⟩
  | succ fuel =>
    cases doc with
    | object m =>
      have hr := sameLabel_of_links (rootSection_links x d m cur)
      simp only [parseSchema]
      rcases heq : rootSection x d m cur with ⟨_ | err, cur1⟩
      · rw [heq] at hr
        have hf := sameLabel_of_links (refSection_links x d m cur1 st)
        simp only
        split
        · exact sameLabel_trans (parseKeywords_label _ _ _ _) (sameLabel_trans hf hr)
        · exact sameLabel_trans hf hr
      · rw [heq] at hr
        exact hr
    | null => exact ⟨rfl, rfl, rfl⟩
    | bool b => exact ⟨rfl, rfl, rfl⟩
    | number n => exact ⟨rfl, rfl, rfl⟩
    | string s => exact ⟨rfl, rfl, rfl⟩
    | array xs => exact ⟨rfl, rfl, rfl⟩

theorem lookup_of_mem_nodup (m : JsonMap) (hn : (mapKeys m).Nodup) (k : String) (v : Json)
    (hmem : (k, v) ∈ m) : m.lookup k = some v := by
  induction m with
  | nil => simp at hmem
  | cons e rest ih =>
    obtain ⟨a, w⟩ := e
    simp only [mapKeys, List.map_cons, List.nodup_cons] at hn
    rcases List.mem_cons.1 hmem with h | h
    · cases h
      simp [List.lookup]
    · have hne : k ≠ a := fun hka =>
        hn.1 (hka ▸ List.mem_map_of_mem Prod.fst h)
      have hb : (k == a) = false := by simpa using hne
      simp only [List.lookup, hb]
      exact ih hn.2 h

theorem newPropertySchema_congr (k : String) (a b : JsonSchema Ref) (st : St Ref)
    (haddr : a.addr = b.addr) (href : a.ref = b.ref) :
    newPropertySchema k a st = newPropertySchema k b st := by
  simp only [newPropertySchema, haddr, href]

/-- The children that the loop of `parseProperties` registers: one for each entry, in
order, each the result of the recursive call on the node created for the entry. -/
theorem propertyLoop_children (call : Json → JsonSchema Ref → St Ref → Res Ref)
    (m : JsonMap) (cur : JsonSchema Ref) :
    ∀ (entries : List (String × Json)), (∀ e ∈ entries, mapIndex m e.1 = e.2) →
      ∀ (cur0 : JsonSchema Ref) (st0 : St Ref), cur0.addr = cur.addr → cur0.ref = cur.ref →
        (forRange (propertyBody call m) (entries.map Prod.fst) cur0 st0).out = Outcome.ok →
        ∃ children : List (JsonSchema Ref),
          (forRange (propertyBody call m) (entries.map Prod.fst) cur0 st0).node.propertiesChildren
            = cur0.propertiesChildren ++ children
          ∧ List.Forall₂ (fun (entry : String × Json) (child : JsonSchema Ref) =>
              ∃ st1 : St Ref,
                (call entry.2 (newPropertySchema entry.1 cur st1)
                  { st1 with next := st1.next + 1 }).out = Outcome.ok
                ∧ child = (call entry.2 (newPropertySchema entry.1 cur st1)
                  { st1 with next := st1.next + 1 }).node) entries children := by
  intro entries
  induction entries with
  | nil =>
    intro _ cur0 st0 _ _ _
    exact ⟨[], by simp [forRange], List.Forall₂.nil⟩
  | cons e es ih =>
    intro hidx cur0 st0 haddr href hok
    have he : mapIndex m e.1 = e.2 := hidx e (List.mem_cons_self e es)
    have hnew := newPropertySchema_congr e.1 cur0 cur st0 haddr href
    simp only [List.map_cons, forRange, propertyBody, he, hnew] at hok ⊢
    by_cases hc : (call e.2 (newPropertySchema e.1 cur st0)
        { st0 with next := st0.next + 1 }).out = Outcome.ok
    · simp only [hc, if_true] at hok ⊢
      obtain ⟨children, hch, hall⟩ := ih (fun e2 h2 => hidx e2 (List.mem_cons_of_mem e h2))
        (cur0.AddPropertiesChild _) _ haddr href hok
      refine ⟨_ :: children, ?_, List.Forall₂.cons ⟨st0, hc, rfl⟩ hall⟩
      rw [hch]
      simp [JsonSchema.AddPropertiesChild]
    · simp only [hc, if_false] at hok

/-- C10: a successful call of `parseProperties` on a mapping adds to the properties
children of the current node exactly one child per entry `(name, value)` of the
mapping, in order; each child has `property = name` and `parent` the current node, and
is the result of a successful `parseSchema` of `value` on a node created with that
name, that parent and the `ref` of the current node. -/
theorem parseProperties_children (x : Collaborators Ref) (d : JsonSchemaDocument Ref)
    (fuel : Nat) (m : JsonMap) (cur : JsonSchema Ref) (st : St Ref)
    (hn : (mapKeys m).Nodup)
    (hok : (parseProperties x d fuel (Json.object m) cur st).out = Outcome.ok) :
    ∃ children : List (JsonSchema Ref),
      (parseProperties x d fuel (Json.object m) cur st).node.propertiesChildren
        = cur.propertiesChildren ++ children
      ∧ List.Forall₂ (fun (entry : String × Json) (child : JsonSchema Ref) =>
          child.property = entry.1 ∧ child.parent = some cur.addr
          ∧ ∃ st1 : St Ref,
              (newPropertySchema entry.1 cur st1).ref = cur.ref
              ∧ (parseSchema x d fuel entry.2 (newPropertySchema entry.1 cur st1)
                  { st1 with next := st1.next + 1 }).out = Outcome.ok
              ∧ child = (parseSchema x d fuel entry.2 (newPropertySchema entry.1 cur st1)
                  { st1 with next := st1.next + 1 }).node) m children := by
  have hidx : ∀ e ∈ m, mapIndex m e.1 = e.2 := fun e he =>
    mapIndex_of_lookup m e.1 e.2 (lookup_of_mem_nodup m hn e.1 e.2 he)
  simp only [parseProperties, parsePropertiesWith, mapKeys] at hok ⊢
  obtain ⟨children, hch, hall⟩ :=
    propertyLoop_children (parseSchema x d fuel) m cur m hidx cur st rfl rfl hok
  refine ⟨children, hch, hall.imp ?_⟩
  rintro entry child ⟨st1, hout, hchild⟩
  have hl := parseSchema_label x d fuel entry.2 (newPropertySchema entry.1 cur st1)
    { st1 with next := st1.next + 1 }
  rw [← hchild] at hl
  exact ⟨hl.2.1, hl.2.2, st1, rfl, hout, hchild⟩

theorem parseProperties_children_witness :
    (mapKeys [("x", Json.object [("type", Json.string "string")])]).Nodup
    ∧ (parseProperties exampleCollaborators (exampleDocument []) 1
        (Json.object [("x", Json.object [("type", Json.string "string")])])
        exampleNode exampleState).out = Outcome.ok
    ∧ (∃ children : List (JsonSchema ExampleRef),
        (parseProperties exampleCollaborators (exampleDocument []) 1
          (Json.object [("x", Json.object [("type", Json.string "string")])])
          exampleNode exampleState).node.propertiesChildren
          = exampleNode.propertiesChildren ++ children
        ∧ List.Forall₂ (fun (entry : String × Json) (child : JsonSchema ExampleRef) =>
            child.property = entry.1 ∧ child.parent = some exampleNode.addr
            ∧ ∃ st1 : St ExampleRef,
                (newPropertySchema entry.1 exampleNode st1).ref = exampleNode.ref
                ∧ (parseSchema exampleCollaborators (exampleDocument []) 1 entry.2
                    (newPropertySchema entry.1 exampleNode st1)
                    { st1 with next := st1.next + 1 }).out = Outcome.ok
                ∧ child = (parseSchema exampleCollaborators (exampleDocument []) 1 entry.2
                    (newPropertySchema entry.1 exampleNode st1)
                    { st1 with next := st1.next + 1 }).node)
          [("x", Json.object [("type", Json.string "string")])] children)
    ∧ (parse exampleCollaborators (exampleDocument []) 2 scenario1 St.initial).2.out
        = Outcome.ok
    ∧ (parse exampleCollaborators (exampleDocument []) 2 scenario1
        St.initial).2.node.propertiesChildren.map (fun c => (c.property, c.etype, c.parent))
        = [("x", some "string", some 0)] :=
  ⟨by decide, by decide,
    parseProperties_children exampleCollaborators (exampleDocument []) 1
      [("x", Json.object [("type", Json.string "string")])] exampleNode
      exampleState (by decide) (by decide),
    by decide, by decide⟩

/-- C9, on the code: parsing Scenario 3 on the property node `x` (address 1) succeeds
and creates one anonymous child of type integer whose parent is that node, but the
child is registered with `AddPropertiesChild`: it is the only properties child of the
node, whose mapping has no `properties` key, and the items child of the node stays
unset. -/
theorem items_child_among_properties :
    KEY_PROPERTIES ∉ mapKeys
      [("type", Json.string "array"), ("items", Json.object [("type", Json.string "integer")])]
    ∧ (parseSchema exampleCollaborators (exampleDocument []) 2 scenario3 exampleNode
        exampleState).out = Outcome.ok
    ∧ (parseSchema exampleCollaborators (exampleDocument []) 2 scenario3 exampleNode
        exampleState).node.itemsChild.isNone = true
    ∧ (parseSchema exampleCollaborators (exampleDocument []) 2 scenario3 exampleNode
        exampleState).node.propertiesChildren.map
          (fun c => (c.addr, c.property, c.parent, c.etype))
      = [(2, "", some 1, some "integer")] := by
  decide

/-! ## The base of a relative `$ref` -/

/-- On a node whose `ref` is unset and that is not the root, a string `$ref` that parses
to a reference without a full URL ends in the dereference of the nil `ref`. -/
theorem parseSchema_unset_base (x : Collaborators Ref) (d : JsonSchemaDocument Ref)
    (fuel : Nat) (m : JsonMap) (k : String) (jsonReference : Ref) (cur : JsonSchema Ref)
    (st : St Ref) (hroot : d.rootSchema ≠ some cur.addr) (hbase : cur.ref = none)
    (hk : m.lookup KEY_REF = some (Json.string k))
    (hnew : x.NewJsonReference k = (jsonReference, none))
    (hfull : x.HasFullUrl jsonReference = false) :
    (parseSchema x d (fuel + 1) (Json.object m) cur st).out = Outcome.nilDereference := by
  simp [parseSchema, rootSection_not_root x d m cur hroot, refSection_of_ref x d m k cur st hk,
    hnew, setRef, hfull, hbase]

/-- C11, on the code: in the example world, where `#/definitions/a` resolves to a
mapping of type string, the `items` subschema with that relative `$ref` is parsed on a
node created without a `ref`, and the parse ends in the dereference of the nil `ref`
(a run-time panic), not in an error; the same subschema as the value of a property,
whose node inherits the `ref` of its parent, parses without error. -/
theorem items_relative_ref_dereferences_nil :
    (newItemsSchema exampleNode exampleState).ref = none
    ∧ (parseSchema exampleCollaborators
        (exampleDocument [("http://example.org/root.json", exampleDefinitions)]) 1
        (Json.object [("$ref", Json.string "#/definitions/a")])
        (newItemsSchema exampleNode exampleState) exampleState).out = Outcome.nilDereference
    ∧ (parseSchema exampleCollaborators
        (exampleDocument [("http://example.org/root.json", exampleDefinitions)]) 2
        itemsWithRef exampleNode exampleState).out = Outcome.nilDereference
    ∧ (parseSchema exampleCollaborators
        (exampleDocument [("http://example.org/root.json", exampleDefinitions)]) 2
        propertyWithRef exampleNode exampleState).out = Outcome.ok := by
  decide

/-! ## The entry point -/

/-- C12 (as amended): `NewJsonSchemaDocument` returns a nil document exactly when the
pool fails to deliver the root document, and then it returns the error of the pool.
When the pool delivers the document, the document struct is returned together with
the outcome of `parse`, error or not, and with the root node as `parse` left it. -/
theorem NewJsonSchemaDocument_document (x : Collaborators Ref) (pool : SchemaPool Ref)
    (fuel : Nat) (s : String) (st : St Ref) :
    ((NewJsonSchemaDocument x pool fuel s st).document = none
      ↔ ∃ err, pool.GetPoolDocument (x.NewJsonReference s).1 = Except.error err)
    ∧ (∀ err, pool.GetPoolDocument (x.NewJsonReference s).1 = Except.error err →
      (NewJsonSchemaDocument x pool fuel s st).out = Outcome.error err)
    ∧ (∀ document, pool.GetPoolDocument (x.NewJsonReference s).1 = Except.ok document →
      (NewJsonSchemaDocument x pool fuel s st).document
        = some ((parse x ⟨(x.NewJsonReference s).1, none, pool⟩ fuel document
              { st with requests := st.requests ++ [(x.NewJsonReference s).1] }).1,
            (parse x ⟨(x.NewJsonReference s).1, none, pool⟩ fuel document
              { st with requests := st.requests ++ [(x.NewJsonReference s).1] }).2.node)
      ∧ (NewJsonSchemaDocument x pool fuel s st).out
        = (parse x ⟨(x.NewJsonReference s).1, none, pool⟩ fuel document
              { st with requests := st.requests ++ [(x.NewJsonReference s).1] }).2.out) := by
  refine ⟨?_, ?_, ?_⟩
  · rcases h : pool.GetPoolDocument (x.NewJsonReference s).1 with err | document
    · simp [NewJsonSchemaDocument, h]
    · simp [NewJsonSchemaDocument, h]
  · intro err h
    simp [NewJsonSchemaDocument, h]
  · intro document h
    simp [NewJsonSchemaDocument, h]

theorem NewJsonSchemaDocument_document_witness :
    (NewJsonSchemaDocument exampleCollaborators (examplePool []) 1
        "http://example.org/root.json" St.initial).document = none
    ∧ (NewJsonSchemaDocument exampleCollaborators (examplePool []) 1
        "http://example.org/root.json" St.initial).out
      = Outcome.error (Error.message "Document not found")
    ∧ (NewJsonSchemaDocument exampleCollaborators
        (examplePool [("http://example.org/root.json", scenario1)]) 2
        "http://example.org/root.json" St.initial).document.isSome = true :=
  ⟨(NewJsonSchemaDocument_document exampleCollaborators (examplePool []) 1
      "http://example.org/root.json" St.initial).1.2 ⟨Error.message "Document not found", rfl⟩,
    (NewJsonSchemaDocument_document exampleCollaborators (examplePool []) 1
      "http://example.org/root.json" St.initial).2.1 (Error.message "Document not found") rfl,
    by
      rw [((NewJsonSchemaDocument_document exampleCollaborators
        (examplePool [("http://example.org/root.json", scenario1)]) 2
        "http://example.org/root.json" St.initial).2.2 scenario1 rfl).1]
      rfl⟩

/-- C12 fails as stated: in the example world the root document `{}` is fetched and its
parse fails, `$schema` being required, and `NewJsonSchemaDocument` returns this error
together with a document that is not nil, whose root node is the one `parse`
allocated. -/
theorem parse_error_returns_document :
    (NewJsonSchemaDocument exampleCollaborators
        (examplePool [("http://example.org/root.json", Json.object [])]) 1
        "http://example.org/root.json" St.initial).out
      = Outcome.error (ERROR_MESSAGE_X_IS_REQUIRED KEY_SCHEMA)
    ∧ (NewJsonSchemaDocument exampleCollaborators
        (examplePool [("http://example.org/root.json", Json.object [])]) 1
        "http://example.org/root.json" St.initial).document.isSome = true
    ∧ (NewJsonSchemaDocument exampleCollaborators
        (examplePool [("http://example.org/root.json", Json.object [])]) 1
        "http://example.org/root.json" St.initial).document.map
          (fun r => (r.1.rootSchema, r.2.addr, r.2.property))
      = some (some 0, 0, ROOT_SCHEMA_PROPERTY) := by
  decide

/-- C13, on the code: in the example world `NewJsonReference` rejects the string
"not a reference", and `NewJsonSchemaDocument` on that string does not fail with that
error: it asks the pool for the reference value returned along with the error, and
ends with whatever follows, success when the pool holds Scenario 1 under that value,
the error of the pool when it holds nothing. -/
theorem rejected_reference_error_is_dropped :
    (exampleCollaborators.NewJsonReference "not a reference").2
      = some (Error.message "Invalid reference")
    ∧ (NewJsonSchemaDocument exampleCollaborators (examplePool [("", scenario1)]) 2
        "not a reference" St.initial).out = Outcome.ok
    ∧ (NewJsonSchemaDocument exampleCollaborators (examplePool [("", scenario1)]) 2
        "not a reference" St.initial).document.isSome = true
    ∧ (NewJsonSchemaDocument exampleCollaborators (examplePool []) 2
        "not a reference" St.initial).out
      = Outcome.error (Error.message "Document not found")
    ∧ (NewJsonSchemaDocument exampleCollaborators (examplePool []) 2
        "not a reference" St.initial).st.requests
      = [(exampleCollaborators.NewJsonReference "not a reference").1] := by
  decide

/-! ## The frame of a child -/

theorem grown_refl (a : JsonSchema Ref) : a.Grown a :=
  ⟨rfl, rfl, rfl, List.prefix_refl _⟩

theorem grown_trans {a b c : JsonSchema Ref} (h1 : a.Grown b) (h2 : b.Grown c) :
    a.Grown c :=
  ⟨h1.1.trans h2.1, h1.2.1.trans h2.2.1, h1.2.2.1.trans h2.2.2.1,
    List.IsPrefix.trans h2.2.2.2 h1.2.2.2⟩

theorem grown_addChild (s c : JsonSchema Ref) : (s.AddPropertiesChild c).Grown s :=
  ⟨rfl, rfl, rfl, List.prefix_append _ _⟩

theorem idKeyword_grown (m : JsonMap) (cur : JsonSchema Ref) :
    (idKeyword m cur).2.Grown cur := by
  unfold idKeyword
  split
  · exact grown_refl cur
  · split
    · exact ⟨rfl, rfl, rfl, List.prefix_refl _⟩
    · exact grown_refl cur

theorem titleKeyword_grown (m : JsonMap) (cur : JsonSchema Ref) :
    (titleKeyword m cur).2.Grown cur := by
  unfold titleKeyword
  split
  · exact grown_refl cur
  · split
    · exact ⟨rfl, rfl, rfl, List.prefix_refl _⟩
    · exact grown_refl cur

theorem descriptionKeyword_grown (m : JsonMap) (cur : JsonSchema Ref) :
    (descriptionKeyword m cur).2.Grown cur := by
  unfold descriptionKeyword
  split
  · exact grown_refl cur
  · split
    · exact ⟨rfl, rfl, rfl, List.prefix_refl _⟩
    · exact grown_refl cur

theorem typeKeyword_grown (m : JsonMap) (cur : JsonSchema Ref) :
    (typeKeyword m cur).2.Grown cur := by
  unfold typeKeyword
  split
  · exact grown_refl cur
  · split
    · split
      · exact grown_refl cur
      · exact ⟨rfl, rfl, rfl, List.prefix_refl _⟩
    · exact grown_refl cur

theorem andThen_grown (r : Option Error × JsonSchema Ref)
    (next : JsonSchema Ref → Option Error × JsonSchema Ref) (cur : JsonSchema Ref)
    (hr : r.2.Grown cur) (hnext : ∀ c, (next c).2.Grown c) :
    (andThen r next).2.Grown cur := by
  cases h : r.1 with
  | none =>
    rw [andThen_of_none r next h]
    exact grown_trans (hnext r.2) hr
  | some e =>
    rw [andThen_of_some r next e h]
    exact hr

theorem keywordSection_grown (m : JsonMap) (cur : JsonSchema Ref) :
    (keywordSection m cur).2.Grown cur := by
  unfold keywordSection
  refine andThen_grown _ _ cur (idKeyword_grown m cur) fun c1 => ?_
  refine andThen_grown _ _ c1 (titleKeyword_grown m c1) fun c2 => ?_
  exact andThen_grown _ _ c2 (descriptionKeyword_grown m c2) fun c3 => typeKeyword_grown m c3

theorem parsePropertiesWith_grown (call : Json → JsonSchema Ref → St Ref → Res Ref)
    (doc : Json) (cur : JsonSchema Ref) (st : St Ref) :
    (parsePropertiesWith call doc cur st).node.Grown cur := by
  unfold parsePropertiesWith
  split
  · exact forRange_always (fun c => c.Grown cur) _
      (fun k c s hc => grown_trans (grown_addChild c _) hc) _ _ _ (grown_refl cur)
  · exact grown_refl cur

theorem childrenSection_grown (call : Json → JsonSchema Ref → St Ref → Res Ref)
    (m : JsonMap) (cur : JsonSchema Ref) (st : St Ref) :
    (childrenSection call m cur st).node.Grown cur := by
  have hp : (forRange (propertiesBody call m) (mapKeys m) cur st).node.Grown cur := by
    refine forRange_always (fun c => c.Grown cur) _ (fun k c s hc => ?_) _ _ _
      (grown_refl cur)
    unfold propertiesBody
    split
    · exact grown_trans (parsePropertiesWith_grown call _ c s) hc
    · exact hc
  simp only [childrenSection]
  split
  · refine forRange_always (fun c => c.Grown cur) _ (fun k c s hc => ?_) _ _ _ hp
    unfold itemsBody
    split
    · exact grown_trans (grown_addChild c _) hc
    · exact hc
  · exact hp

/-- Everything after the `$ref` section leaves the `ref` of the node and the children it
already has as they are. -/
theorem parseKeywords_grown (call : Json → JsonSchema Ref → St Ref → Res Ref)
    (m : JsonMap) (cur : JsonSchema Ref) (st : St Ref) :
    (parseKeywords call m cur st).node.Grown cur := by
  have hk := keywordSection_grown m cur
  unfold parseKeywords
  rcases heq : keywordSection m cur with ⟨_ | err, cur2⟩
  · rw [heq] at hk
    exact grown_trans (childrenSection_grown call m cur2 st) hk
  · rw [heq] at hk
    exact hk

/-! ## The `ref` of a node -/

theorem refSection_node_of_ref (x : Collaborators Ref) (d : JsonSchemaDocument Ref)
    (m : JsonMap) (k : String) (jsonReference : Ref) (cur : JsonSchema Ref) (st : St Ref)
    (hk : m.lookup KEY_REF = some (Json.string k))
    (hnew : x.NewJsonReference k = (jsonReference, none)) :
    (refSection x d m cur st).node = (setRef x jsonReference cur).2 := by
  rw [refSection_of_ref x d m k cur st hk, hnew]
  simp only
  rcases setRef x jsonReference cur with ⟨out, cur2⟩
  cases out with
  | ok => exact resolve_node x d m cur2 st
  | error e => rfl
  | nilDereference => rfl
  | outOfFuel => rfl

/-- On a node that is not the root, the `ref` of the node at the end of `parseSchema` is
the `ref` the `$ref` section gave it. -/
theorem parseSchema_ref_eq (x : Collaborators Ref) (d : JsonSchemaDocument Ref) (fuel : Nat)
    (m : JsonMap) (cur : JsonSchema Ref) (st : St Ref) (hroot : d.rootSchema ≠ some cur.addr) :
    (parseSchema x d (fuel + 1) (Json.object m) cur st).node.ref
      = (refSection x d m cur st).node.ref := by
  simp only [parseSchema, rootSection_not_root x d m cur hroot]
  split
  · exact (parseKeywords_grown _ _ _ _).1
  · rfl

theorem setRef_full (x : Collaborators Ref) (jsonReference : Ref) (cur : JsonSchema Ref)
    (h : x.HasFullUrl jsonReference = true) :
    setRef x jsonReference cur = (Outcome.ok, { cur with ref := some jsonReference }) := by
  simp [setRef, h]

theorem setRef_relative (x : Collaborators Ref) (jsonReference base : Ref)
    (inherited : Option Ref) (cur : JsonSchema Ref) (h : x.HasFullUrl jsonReference = false)
    (hbase : cur.ref = some base) (hinh : x.Inherits base jsonReference = (inherited, none)) :
    setRef x jsonReference cur = (Outcome.ok, { cur with ref := inherited }) := by
  simp [setRef, h, hbase, hinh]

/-- The first child that the loop of `parseProperties` registers stays the first new
child of the node, unchanged, through the rest of the section. -/
theorem childrenSection_first_property (call : Json → JsonSchema Ref → St Ref → Res Ref)
    (m rest : JsonMap) (name : String) (v : Json) (cur : JsonSchema Ref) (st : St Ref)
    (hn : (mapKeys m).Nodup)
    (hps : m.lookup KEY_PROPERTIES = some (Json.object ((name, v) :: rest))) :
    ∃ more : List (JsonSchema Ref),
      (childrenSection call m cur st).node.propertiesChildren
        = cur.propertiesChildren
          ++ (call v (newPropertySchema name cur st) { st with next := st.next + 1 }).node
            :: more := by
  have hfirst : ∀ c : JsonSchema Ref,
      c.Grown (cur.AddPropertiesChild
        (call v (newPropertySchema name cur st) { st with next := st.next + 1 }).node) →
      ∃ more : List (JsonSchema Ref), c.propertiesChildren
        = cur.propertiesChildren
          ++ (call v (newPropertySchema name cur st) { st with next := st.next + 1 }).node
            :: more := by
    intro c hc
    obtain ⟨more, hmore⟩ := hc.2.2.2
    refine ⟨more, ?_⟩
    rw [← hmore]
    simp [JsonSchema.AddPropertiesChild]
  have hidx : mapIndex ((name, v) :: rest) name = v := by
    simp [mapIndex, List.lookup]
  have hloop : (forRange (propertiesBody call m) (mapKeys m) cur st).node.Grown
      (cur.AddPropertiesChild
        (call v (newPropertySchema name cur st) { st with next := st.next + 1 }).node) := by
    rw [propertiesLoop_eq call m hn cur st, hps]
    simp only [parsePropertiesWith, mapKeys, List.map_cons, forRange, propertyBody, hidx]
    split
    · exact forRange_always (fun c => c.Grown _) _
        (fun k c s hc => grown_trans (grown_addChild c _) hc) _ _ _ (grown_refl _)
    · exact grown_refl _
  apply hfirst
  simp only [childrenSection]
  split
  · refine forRange_always (fun c => c.Grown _) _ (fun k c s hc => ?_) _ _ _ hloop
    unfold itemsBody
    split
    · exact grown_trans (grown_addChild c _) hc
    · exact hc
  · exact hloop

/-- C14: on a node that is not the root, with a string `$ref` that parses to the
reference `jr`, the `ref` of the node becomes `jr` itself when `jr` is a full URL, and
`Inherits(ref of the node, jr)` otherwise.  Consequently, when the `ref` of the node
was `A`, its relative `$ref` parses to `B` and resolves to a target mapping whose
`properties` start with a property `name` carrying a relative `$ref` that parses to
`C`, the child `name` of the node has the `ref` `Inherits(Inherits(A, B), C)`. -/
theorem parseSchema_sets_ref (x : Collaborators Ref) (d : JsonSchemaDocument Ref)
    (fuel : Nat) (m : JsonMap) (k : String) (jr : Ref) (cur : JsonSchema Ref) (st : St Ref)
    (hroot : d.rootSchema ≠ some cur.addr)
    (hk : m.lookup KEY_REF = some (Json.string k))
    (hnew : x.NewJsonReference k = (jr, none)) :
    (x.HasFullUrl jr = true →
      (parseSchema x d (fuel + 1) (Json.object m) cur st).node.ref = some jr)
    ∧ (∀ (A : Ref), x.HasFullUrl jr = false → cur.ref = some A →
        (x.Inherits A jr).2 = none →
        (parseSchema x d (fuel + 1) (Json.object m) cur st).node.ref = (x.Inherits A jr).1)
    ∧ (∀ (A AB C : Ref) (document : Json) (target rest mC : JsonMap) (name kC : String),
        x.HasFullUrl jr = false → cur.ref = some A → x.Inherits A jr = (some AB, none) →
        d.pool.GetPoolDocument AB = Except.ok document →
        x.PointerGet AB document = (Json.object target, none) →
        (keywordSection target { cur with ref := some AB }).1 = none →
        (mapKeys target).Nodup →
        target.lookup KEY_PROPERTIES = some (Json.object ((name, Json.object mC) :: rest)) →
        mC.lookup KEY_REF = some (Json.string kC) →
        x.NewJsonReference kC = (C, none) → x.HasFullUrl C = false →
        (x.Inherits AB C).2 = none → d.rootSchema ≠ some st.next →
        ∃ (child : JsonSchema Ref) (more : List (JsonSchema Ref)),
          (parseSchema x d (fuel + 2) (Json.object m) cur st).node.propertiesChildren
            = cur.propertiesChildren ++ child :: more
          ∧ child.property = name ∧ child.ref = (x.Inherits AB C).1) := by
  have href := parseSchema_ref_eq x d fuel m cur st hroot
  rw [refSection_node_of_ref x d m k jr cur st hk hnew] at href
  refine ⟨fun hfull => ?_, fun A hfull hA hinh => ?_, ?_⟩
  · rw [href, setRef_full x jr cur hfull]
  · rw [href, setRef_relative x jr A (x.Inherits A jr).1 cur hfull hA (Prod.ext rfl hinh)]
  · intro A AB C document target rest mC name kC hfull hA hinh hpool hget hkey hn hps hkC
      hnewC hfullC hinhC hfresh
    -- the `$ref` section of the node
    have hsec : refSection x d m cur st
        = ⟨Outcome.ok, target, { cur with ref := some AB },
            { st with requests := st.requests ++ [AB] }⟩ := by
      simp [refSection_of_ref x d m k cur st hk, hnew,
        setRef_relative x jr A (some AB) cur hfull hA hinh, resolve, hpool, hget]
    -- the keyword section on the target
    rcases hks : keywordSection target { cur with ref := some AB } with ⟨_ | err, cur3⟩
    · have hl := keywordSection_links target { cur with ref := some AB }
      have hg := keywordSection_grown target { cur with ref := some AB }
      rw [hks] at hl hg
      obtain ⟨more, hmore⟩ := childrenSection_first_property (parseSchema x d (fuel + 1))
        target rest name (Json.object mC) cur3 { st with requests := st.requests ++ [AB] }
        hn hps
      have hchildroot : d.rootSchema ≠ some (newPropertySchema name cur3
          { st with requests := st.requests ++ [AB] }).addr := hfresh
      have hchildref : (newPropertySchema name cur3
          { st with requests := st.requests ++ [AB] }).ref = some AB := hg.1
      have hcref := parseSchema_ref_eq x d fuel mC (newPropertySchema name cur3
          { st with requests := st.requests ++ [AB] })
          { next := st.next + 1, requests := st.requests ++ [AB] } hchildroot
      rw [refSection_node_of_ref x d mC kC C _ _ hkC hnewC,
        setRef_relative x C AB (x.Inherits AB C).1 _ hfullC hchildref (Prod.ext rfl hinhC)]
        at hcref
      have hlabel := parseSchema_label x d (fuel + 1) (Json.object mC)
        (newPropertySchema name cur3 { st with requests := st.requests ++ [AB] })
        { next := st.next + 1, requests := st.requests ++ [AB] }
      refine ⟨_, more, ?_, hlabel.2.1, hcref⟩
      have hparse : parseSchema x d (fuel + 2) (Json.object m) cur st
          = childrenSection (parseSchema x d (fuel + 1)) target cur3
              { st with requests := st.requests ++ [AB] } := by
        simp [parseSchema, rootSection_not_root x d m cur hroot, hsec, parseKeywords, hks]
      rw [hparse, hmore, hl.2.2.2.2]
    · rw [hks] at hkey
      simp at hkey

theorem parseSchema_sets_ref_witness :
    (parseSchema exampleCollaborators exampleChain 1
        (Json.object [("$ref", Json.string "other.json#/definitions/point")]) exampleNode
        exampleState).node.ref
      = (exampleCollaborators.Inherits ⟨"http://example.org/root.json", [], true⟩
          ⟨"http://example.org/other.json", ["definitions", "point"], false⟩).1
    ∧ (∃ (child : JsonSchema ExampleRef) (more : List (JsonSchema ExampleRef)),
        (parseSchema exampleCollaborators exampleChain 2
          (Json.object [("$ref", Json.string "other.json#/definitions/point")]) exampleNode
          exampleState).node.propertiesChildren = exampleNode.propertiesChildren ++ child :: more
        ∧ child.property = "p"
        ∧ child.ref
          = (exampleCollaborators.Inherits
              ⟨"http://example.org/other.json", ["definitions", "point"], true⟩
              ⟨"", ["definitions", "a"], false⟩).1)
    ∧ (parseSchema exampleCollaborators exampleChain 2
        (Json.object [("$ref", Json.string "other.json#/definitions/point")]) exampleNode
        exampleState).node.propertiesChildren.map (fun c => (c.property, c.ref, c.etype))
      = [("p", some ⟨"http://example.org/other.json", ["definitions", "a"], true⟩,
          some "string")]
    ∧ (exampleCollaborators.Inherits ⟨"http://example.org/root.json", [], true⟩
        ⟨"", ["definitions", "a"], false⟩).1
      = some ⟨"http://example.org/root.json", ["definitions", "a"], true⟩ :=
  ⟨(parseSchema_sets_ref exampleCollaborators exampleChain 0
      [("$ref", Json.string "other.json#/definitions/point")] "other.json#/definitions/point"
      ⟨"http://example.org/other.json", ["definitions", "point"], false⟩ exampleNode
      exampleState (by decide) rfl rfl).2.1
      ⟨"http://example.org/root.json", [], true⟩ rfl rfl rfl,
    (parseSchema_sets_ref exampleCollaborators exampleChain 0
      [("$ref", Json.string "other.json#/definitions/point")] "other.json#/definitions/point"
      ⟨"http://example.org/other.json", ["definitions", "point"], false⟩ exampleNode
      exampleState (by decide) rfl rfl).2.2
      ⟨"http://example.org/root.json", [], true⟩
      ⟨"http://example.org/other.json", ["definitions", "point"], true⟩
      ⟨"", ["definitions", "a"], false⟩ exampleOther
      [("type", Json.string "object"),
        ("properties",
          Json.object [("p", Json.object [("$ref", Json.string "#/definitions/a")])])]
      [] [("$ref", Json.string "#/definitions/a")] "p" "#/definitions/a"
      rfl rfl rfl rfl rfl rfl (by decide) rfl rfl rfl rfl rfl (by decide),
    by decide, by decide⟩

/-! ## The root node -/

/-- A property of node and state that every body preserves holds after the loop. -/
theorem forRange_always_state (P : JsonSchema Ref → St Ref → Prop)
    (body : String → JsonSchema Ref → St Ref → Res Ref)
    (hbody : ∀ k cur st, P cur st → P (body k cur st).node (body k cur st).st) :
    ∀ (keys : List String) (cur : JsonSchema Ref) (st : St Ref), P cur st →
      P (forRange body keys cur st).node (forRange body keys cur st).st := by
  intro keys
  induction keys with
  | nil => intro cur st hP; exact hP
  | cons k ks ih =>
    intro cur st hP
    simp only [forRange]
    by_cases hb : (body k cur st).out = Outcome.ok
    · simp only [hb, if_true]
      exact ih _ _ (hbody k cur st hP)
    · simp only [hb, if_false]
      exact hbody k cur st hP

theorem noDialect_eq (s : JsonSchema Ref) :
    s.noDialect
      = (s.schema.isNone && noDialectOption s.itemsChild && noDialectList s.propertiesChildren) := by
  cases s
  simp [JsonSchema.noDialect]

theorem noDialectList_append (cs : List (JsonSchema Ref)) (c : JsonSchema Ref) :
    noDialectList (cs ++ [c]) = (noDialectList cs && c.noDialect) := by
  induction cs with
  | nil => simp [noDialectList]
  | cons a rest ih => simp [noDialectList, ih, Bool.and_assoc]

theorem resolve_st_next (x : Collaborators Ref) (d : JsonSchemaDocument Ref) (m : JsonMap)
    (cur : JsonSchema Ref) (st : St Ref) : (resolve x d m cur st).st.next = st.next := by
  unfold resolve
  split
  · rfl
  · split
    · rfl
    · split <;> rfl

theorem refSection_st_next (x : Collaborators Ref) (d : JsonSchemaDocument Ref) (m : JsonMap)
    (cur : JsonSchema Ref) (st : St Ref) : (refSection x d m cur st).st.next = st.next := by
  unfold refSection
  split
  · rfl
  · split
    · split
      · rfl
      · split
        · exact resolve_st_next x d m _ st
        · rfl
    · rfl

theorem refSection_schema (x : Collaborators Ref) (d : JsonSchemaDocument Ref) (m : JsonMap)
    (cur : JsonSchema Ref) (st : St Ref) : (refSection x d m cur st).node.schema = cur.schema := by
  obtain ⟨r, h⟩ := refSection_node x d m cur st
  rw [h]

/-- The children section, given a recursive call that sets no dialect below the root,
leaves the dialect of the node as it is and children without a dialect. -/
theorem childrenSection_dialect (root : Nat) (call : Json → JsonSchema Ref → St Ref → Res Ref)
    (hcall : DialectCall root call) (m : JsonMap) (cur : JsonSchema Ref) (st : St Ref)
    (hnext : root < st.next) (hi : noDialectOption cur.itemsChild = true)
    (hp : noDialectList cur.propertiesChildren = true) :
    (childrenSection call m cur st).node.schema = cur.schema
    ∧ noDialectOption (childrenSection call m cur st).node.itemsChild = true
    ∧ noDialectList (childrenSection call m cur st).node.propertiesChildren = true
    ∧ st.next ≤ (childrenSection call m cur st).st.next := by
  -- the invariant of both loops
  have hadd : ∀ (k : String) (c : JsonSchema Ref) (s : St Ref) (v : Json)
      (n : JsonSchema Ref), n.addr = s.next → n.schema = none →
      n.itemsChild = none → n.propertiesChildren = [] →
      (c.schema = cur.schema ∧ noDialectOption c.itemsChild = true
        ∧ noDialectList c.propertiesChildren = true ∧ st.next ≤ s.next) →
      ((c.AddPropertiesChild (call v n { s with next := s.next + 1 }).node).schema = cur.schema
        ∧ noDialectOption
            (c.AddPropertiesChild (call v n { s with next := s.next + 1 }).node).itemsChild
          = true
        ∧ noDialectList
            (c.AddPropertiesChild
              (call v n { s with next := s.next + 1 }).node).propertiesChildren = true
        ∧ st.next ≤ (call v n { s with next := s.next + 1 }).st.next) := by
    intro k c s v n hn hs hni hnp hc
    have hlt : root < s.next := Nat.lt_of_lt_of_le hnext hc.2.2.2
    have hne : n.addr ≠ root := by rw [hn]; exact Nat.ne_of_gt hlt
    have hres := hcall v n { s with next := s.next + 1 } (Nat.lt_succ_of_lt hlt) hne hs
      (by rw [hni]; rfl) (by rw [hnp]; rfl)
    refine ⟨hc.1, hc.2.1, ?_, ?_⟩
    · simp only [JsonSchema.AddPropertiesChild, noDialectList_append, hc.2.2.1, hres.1,
        Bool.and_self]
    · exact Nat.le_trans hc.2.2.2 (Nat.le_trans (Nat.le_succ _) hres.2)
  have hprop : ∀ (ps : JsonMap) (k : String) (c : JsonSchema Ref) (s : St Ref),
      (c.schema = cur.schema ∧ noDialectOption c.itemsChild = true
        ∧ noDialectList c.propertiesChildren = true ∧ st.next ≤ s.next) →
      ((propertyBody call ps k c s).node.schema = cur.schema
        ∧ noDialectOption (propertyBody call ps k c s).node.itemsChild = true
        ∧ noDialectList (propertyBody call ps k c s).node.propertiesChildren = true
        ∧ st.next ≤ (propertyBody call ps k c s).st.next) := by
    intro ps k c s hc
    exact hadd k c s (mapIndex ps k) (newPropertySchema k c s) rfl rfl rfl rfl hc
  have h1 := forRange_always_state
    (fun c s => c.schema = cur.schema ∧ noDialectOption c.itemsChild = true
      ∧ noDialectList c.propertiesChildren = true ∧ st.next ≤ s.next)
    (propertiesBody call m)
    (fun k c s hc => by
      unfold propertiesBody
      split
      · unfold parsePropertiesWith
        split
        · exact forRange_always_state _ _ (fun k2 c2 s2 hc2 => hprop _ k2 c2 s2 hc2) _ _ _ hc
        · exact hc
      · exact hc)
    (mapKeys m) cur st ⟨rfl, hi, hp, Nat.le_refl _⟩
  simp only [childrenSection]
  split
  · exact forRange_always_state
      (fun c s => c.schema = cur.schema ∧ noDialectOption c.itemsChild = true
        ∧ noDialectList c.propertiesChildren = true ∧ st.next ≤ s.next)
      (itemsBody call m)
      (fun k c s hc => by
        unfold itemsBody
        split
        · exact hadd k c s (mapIndex m k) (newItemsSchema c s) rfl rfl rfl rfl hc
        · exact hc)
      (mapKeys m) _ _ h1
  · exact h1

theorem parseKeywords_dialect (root : Nat) (call : Json → JsonSchema Ref → St Ref → Res Ref)
    (hcall : DialectCall root call) (m : JsonMap) (cur : JsonSchema Ref) (st : St Ref)
    (hnext : root < st.next) (hi : noDialectOption cur.itemsChild = true)
    (hp : noDialectList cur.propertiesChildren = true) :
    (parseKeywords call m cur st).node.schema = cur.schema
    ∧ noDialectOption (parseKeywords call m cur st).node.itemsChild = true
    ∧ noDialectList (parseKeywords call m cur st).node.propertiesChildren = true
    ∧ st.next ≤ (parseKeywords call m cur st).st.next := by
  have hl := keywordSection_links m cur
  have hg := keywordSection_grown m cur
  unfold parseKeywords
  rcases heq : keywordSection m cur with ⟨_ | err, cur2⟩
  · rw [heq] at hl hg
    have h := childrenSection_dialect root call hcall m cur2 st hnext
      (by rw [hl.2.2.2.1]; exact hi) (by rw [hl.2.2.2.2]; exact hp)
    exact ⟨h.1.trans hg.2.1, h.2.1, h.2.2.1, h.2.2.2⟩
  · rw [heq] at hl hg
    exact ⟨hg.2.1, by rw [hl.2.2.2.1]; exact hi, by rw [hl.2.2.2.2]; exact hp, Nat.le_refl _⟩

/-- Below the root, `parseSchema` sets no dialect. -/
theorem parseSchema_dialect (x : Collaborators Ref) (d : JsonSchemaDocument Ref) (root : Nat)
    (hd : d.rootSchema = some root) : ∀ fuel : Nat, DialectCall root (parseSchema x d fuel) := by
  intro fuel
  induction fuel with
  | zero =>
    intro doc cur st _ _ hs hi hp
    simp [parseSchema, noDialect_eq, hs, hi, hp]
  | succ fuel ih =>
    intro doc cur st hnext hne hs hi hp
    have hcur : cur.noDialect = true := by simp [noDialect_eq, hs, hi, hp]
    cases doc with
    | object m =>
      have hroot : d.rootSchema ≠ some cur.addr := by
        rw [hd]
        intro h
        exact hne (Option.some.inj h).symm
      simp only [parseSchema, rootSection_not_root x d m cur hroot]
      have hl := refSection_links x d m cur st
      have hsch := refSection_schema x d m cur st
      have hst := refSection_st_next x d m cur st
      split
      · have h := parseKeywords_dialect root _ ih (refSection x d m cur st).m
          (refSection x d m cur st).node (refSection x d m cur st).st
          (by rw [hst]; exact hnext) (by rw [hl.2.2.2.1]; exact hi)
          (by rw [hl.2.2.2.2]; exact hp)
        refine ⟨?_, by rw [← hst]; exact h.2.2.2⟩
        rw [noDialect_eq, h.1, hsch, hs, h.2.1, h.2.2.1]
        rfl
      · refine ⟨?_, by rw [hst]⟩
        simp only
        rw [noDialect_eq, hsch, hs, hl.2.2.2.1, hl.2.2.2.2, hi, hp]
        rfl
    | null => exact ⟨hcur, Nat.le_refl _⟩
    | bool b => exact ⟨hcur, Nat.le_refl _⟩
    | number n => exact ⟨hcur, Nat.le_refl _⟩
    | string s => exact ⟨hcur, Nat.le_refl _⟩
    | array xs => exact ⟨hcur, Nat.le_refl _⟩

theorem rootSection_root_ok (x : Collaborators Ref) (d : JsonSchemaDocument Ref) (m : JsonMap)
    (cur : JsonSchema Ref) (hroot : d.rootSchema = some cur.addr)
    (hok : (rootSection x d m cur).1 = none) :
    (rootSection x d m cur).2.schema.isSome = true
    ∧ (rootSection x d m cur).2.ref = some d.documentReference
    ∧ KEY_REF ∉ mapKeys m := by
  have hr : existsMapKey m KEY_REF = false := by
    cases hr : existsMapKey m KEY_REF with
    | false => rfl
    | true =>
      obtain ⟨e, he⟩ := rootSection_ref_error x d m cur hroot hr
      rw [hok] at he
      simp at he
  have hnot : KEY_REF ∉ mapKeys m := fun hmem => by
    rw [(existsMapKey_iff_mem m KEY_REF).2 hmem] at hr
    simp at hr
  refine ⟨?_, ?_, hnot⟩
  · unfold rootSection at hok ⊢
    simp only [hroot, if_true, hr] at hok ⊢
    cases hs : existsMapKey m KEY_SCHEMA with
    | false => simp [hs] at hok
    | true =>
      simp only [hs] at hok ⊢
      cases hv : mapIndex m KEY_SCHEMA with
      | string schemaRef =>
        simp only [hv] at hok ⊢
        rcases hn : x.NewJsonReference schemaRef with ⟨r, _ | e⟩
        · simp
        · simp [hn] at hok
      | null => simp [hv] at hok
      | bool b => simp [hv] at hok
      | number n => simp [hv] at hok
      | array xs => simp [hv] at hok
      | object o => simp [hv] at hok
  · unfold rootSection at hok ⊢
    simp only [hroot, if_true, hr] at hok ⊢
    cases hs : existsMapKey m KEY_SCHEMA with
    | false => simp [hs] at hok
    | true =>
      simp only [hs] at hok ⊢
      cases hv : mapIndex m KEY_SCHEMA with
      | string schemaRef =>
        simp only [hv] at hok ⊢
        rcases hn : x.NewJsonReference schemaRef with ⟨r, _ | e⟩
        · simp
        · simp [hn] at hok
      | null => simp [hv] at hok
      | bool b => simp [hv] at hok
      | number n => simp [hv] at hok
      | array xs => simp [hv] at hok
      | object o => simp [hv] at hok

/-- After a successful `parse`, the `ref` of the root is the reference of the document,
its dialect is set, and no node below it has a dialect. -/
theorem parse_root_dialect (x : Collaborators Ref) (d : JsonSchemaDocument Ref) (fuel : Nat)
    (document : Json) (st : St Ref) (hok : (parse x d fuel document st).2.out = Outcome.ok) :
    (parse x d fuel document st).1.documentReference = d.documentReference
    ∧ (parse x d fuel document st).2.node.ref = some d.documentReference
    ∧ (parse x d fuel document st).2.node.schema.isSome = true
    ∧ noDialectOption (parse x d fuel document st).2.node.itemsChild = true
    ∧ noDialectList (parse x d fuel document st).2.node.propertiesChildren = true := by
  refine ⟨rfl, ?_⟩
  simp only [parse] at hok ⊢
  cases fuel with
  | zero => simp [parseSchema] at hok
  | succ fuel =>
    cases document with
    | object m =>
      simp only [parseSchema] at hok ⊢
      have hl := rootSection_links x { d with rootSchema := some (newRootSchema st).addr } m
        (newRootSchema st)
      rcases heq : rootSection x { d with rootSchema := some (newRootSchema st).addr } m
        (newRootSchema st) with ⟨_ | err, cur1⟩
      · rw [heq] at hok hl
        simp only at hok ⊢
        have hroot := rootSection_root_ok x { d with rootSchema := some (newRootSchema st).addr }
          m (newRootSchema st) rfl (by rw [heq])
        rw [heq] at hroot
        simp only at hroot
        rw [refSection_no_ref x _ m cur1 _ hroot.2.2] at hok ⊢
        simp only [if_true] at hok ⊢
        have hg := parseKeywords_grown
          (parseSchema x { d with rootSchema := some (newRootSchema st).addr } fuel) m cur1
          { st with next := st.next + 1 }
        have hdl := parseKeywords_dialect st.next _
          (parseSchema_dialect x { d with rootSchema := some (newRootSchema st).addr } st.next
            rfl fuel) m cur1 { st with next := st.next + 1 } (Nat.lt_succ_self _)
          (by rw [hl.2.2.2.1]; rfl) (by rw [hl.2.2.2.2]; rfl)
        exact ⟨hg.1.trans hroot.2.1, by rw [hg.2.1]; exact hroot.1, hdl.2.1, hdl.2.2.1⟩
      · rw [heq] at hok
        simp at hok
    | null => simp [parseSchema] at hok
    | bool b => simp [parseSchema] at hok
    | number n => simp [parseSchema] at hok
    | string s => simp [parseSchema] at hok
    | array xs => simp [parseSchema] at hok

/-- C15: when `NewJsonSchemaDocument` succeeds, it returns a document whose reference
is the one its argument parsed to and whose root node has that reference as its `ref`;
the `$schema` dialect reference is set on the root node and on no node of the tree
below it. -/
theorem NewJsonSchemaDocument_root (x : Collaborators Ref) (pool : SchemaPool Ref)
    (fuel : Nat) (s : String) (st : St Ref)
    (hok : (NewJsonSchemaDocument x pool fuel s st).out = Outcome.ok) :
    ∃ (d : JsonSchemaDocument Ref) (root : JsonSchema Ref),
      (NewJsonSchemaDocument x pool fuel s st).document = some (d, root)
      ∧ d.documentReference = (x.NewJsonReference s).1
      ∧ root.ref = some d.documentReference
      ∧ root.schema.isSome = true
      ∧ noDialectOption root.itemsChild = true
      ∧ noDialectList root.propertiesChildren = true := by
  simp only [NewJsonSchemaDocument] at hok ⊢
  rcases hp : pool.GetPoolDocument (x.NewJsonReference s).1 with err | document
  · rw [hp] at hok
    simp at hok
  · rw [hp] at hok
    simp only at hok ⊢
    have h := parse_root_dialect x ⟨(x.NewJsonReference s).1, none, pool⟩ fuel document _ hok
    exact ⟨_, _, rfl, h.1, by rw [h.1]; exact h.2.1, h.2.2.1, h.2.2.2.1, h.2.2.2.2⟩

theorem NewJsonSchemaDocument_root_witness :
    (NewJsonSchemaDocument exampleCollaborators
        (examplePool [("http://example.org/root.json", scenario1)]) 2
        "http://example.org/root.json" St.initial).out = Outcome.ok
    ∧ (∃ (d : JsonSchemaDocument ExampleRef) (root : JsonSchema ExampleRef),
        (NewJsonSchemaDocument exampleCollaborators
          (examplePool [("http://example.org/root.json", scenario1)]) 2
          "http://example.org/root.json" St.initial).document = some (d, root)
        ∧ d.documentReference
          = (exampleCollaborators.NewJsonReference "http://example.org/root.json").1
        ∧ root.ref = some d.documentReference
        ∧ root.schema.isSome = true
        ∧ noDialectOption root.itemsChild = true
        ∧ noDialectList root.propertiesChildren = true)
    ∧ (NewJsonSchemaDocument exampleCollaborators
        (examplePool [("http://example.org/root.json", scenario1)]) 2
        "http://example.org/root.json" St.initial).document.map
          (fun r => (r.2.ref, r.2.schema, r.2.propertiesChildren.map (fun c => c.schema)))
      = some (some ⟨"http://example.org/root.json", [], true⟩,
          some ⟨"http://json-schema.org/draft-04/schema", [], true⟩, [none]) :=
  ⟨by decide,
    NewJsonSchemaDocument_root exampleCollaborators
      (examplePool [("http://example.org/root.json", scenario1)]) 2
      "http://example.org/root.json" St.initial (by decide),
    by decide⟩

/-! ## Termination without `$ref` -/

theorem depth_mapIndex (m : JsonMap) (k : String) : (mapIndex m k).depth ≤ depthEntries m := by
  induction m with
  | nil => simp [mapIndex, Json.depth]
  | cons e rest ih =>
    obtain ⟨a, v⟩ := e
    by_cases hk : k = a
    · subst hk
      simp [mapIndex, List.lookup, depthEntries]
    · have hne : (k == a) = false := by simpa using hk
      have : mapIndex ((a, v) :: rest) k = mapIndex rest k := by
        simp [mapIndex, List.lookup, hne]
      rw [this]
      simp only [depthEntries]
      exact Nat.le_trans ih (Nat.le_max_right _ _)

theorem noRef_mapIndex (m : JsonMap) (k : String) (h : noRefEntries m = true) :
    (mapIndex m k).noRef = true := by
  induction m with
  | nil => simp [mapIndex, Json.noRef]
  | cons e rest ih =>
    obtain ⟨a, v⟩ := e
    simp only [noRefEntries, Bool.and_eq_true] at h
    by_cases hk : k = a
    · subst hk
      simpa [mapIndex, List.lookup] using h.1
    · have hne : (k == a) = false := by simpa using hk
      have : mapIndex ((a, v) :: rest) k = mapIndex rest k := by
        simp [mapIndex, List.lookup, hne]
      rw [this]
      exact ih h.2

theorem noRef_object (m : JsonMap) (h : (Json.object m).noRef = true) :
    KEY_REF ∉ mapKeys m ∧ noRefEntries m = true := by
  simp only [Json.noRef, Bool.and_eq_true, Bool.not_eq_true'] at h
  refine ⟨fun hmem => ?_, h.2⟩
  have := (existsMapKey_iff_mem m KEY_REF).2 hmem
  simp [existsMapKey, h.1] at this

/-- Two loops whose bodies agree and never run out of fuel agree and do not run out of
fuel. -/
theorem forRange_congr_total (body1 body2 : String → JsonSchema Ref → St Ref → Res Ref)
    (h : ∀ k c s, body1 k c s = body2 k c s ∧ (body1 k c s).out ≠ Outcome.outOfFuel) :
    ∀ (keys : List String) (cur : JsonSchema Ref) (st : St Ref),
      forRange body1 keys cur st = forRange body2 keys cur st
      ∧ (forRange body1 keys cur st).out ≠ Outcome.outOfFuel := by
  intro keys
  induction keys with
  | nil => intro cur st; simp [forRange]
  | cons k ks ih =>
    intro cur st
    simp only [forRange, ← (h k cur st).1]
    split
    · exact ih _ _
    · exact ⟨rfl, (h k cur st).2⟩

theorem childrenSection_agree (Q : Json → Prop)
    (call1 call2 : Json → JsonSchema Ref → St Ref → Res Ref) (hcall : AgreeOn Q call1 call2)
    (m : JsonMap) (hitems : Q (mapIndex m KEY_ITEMS))
    (hprops : ∀ ps, mapIndex m KEY_PROPERTIES = Json.object ps → ∀ k, Q (mapIndex ps k))
    (cur : JsonSchema Ref) (st : St Ref) :
    childrenSection call1 m cur st = childrenSection call2 m cur st
    ∧ (childrenSection call1 m cur st).out ≠ Outcome.outOfFuel := by
  have hp := forRange_congr_total (propertiesBody call1 m) (propertiesBody call2 m)
    (fun k c s => by
      unfold propertiesBody
      split
      · rename_i hk
        subst hk
        unfold parsePropertiesWith
        split
        · rename_i ps hps
          exact forRange_congr_total _ _ (fun k2 c2 s2 => by
            have h := hcall _ (hprops ps hps k2) (newPropertySchema k2 c2 s2)
              { s2 with next := s2.next + 1 }
            constructor
            · simp only [propertyBody, h.1]
            · simp only [propertyBody]
              exact h.2) _ _ _
        · exact ⟨rfl, by simp⟩
      · exact ⟨rfl, by simp⟩)
    (mapKeys m) cur st
  have hi := forRange_congr_total (itemsBody call1 m) (itemsBody call2 m)
    (fun k c s => by
      unfold itemsBody
      split
      · rename_i hk
        subst hk
        have h := hcall _ hitems (newItemsSchema c s) { s with next := s.next + 1 }
        constructor
        · simp only [if_true, h.1]
        · simp only [if_true]
          exact h.2
      · exact ⟨rfl, by simp⟩)
    (mapKeys m)
  simp only [childrenSection, ← hp.1]
  split
  · exact hi _ _
  · exact ⟨rfl, hp.2⟩

theorem parseKeywords_agree (Q : Json → Prop)
    (call1 call2 : Json → JsonSchema Ref → St Ref → Res Ref) (hcall : AgreeOn Q call1 call2)
    (m : JsonMap) (hitems : Q (mapIndex m KEY_ITEMS))
    (hprops : ∀ ps, mapIndex m KEY_PROPERTIES = Json.object ps → ∀ k, Q (mapIndex ps k))
    (cur : JsonSchema Ref) (st : St Ref) :
    parseKeywords call1 m cur st = parseKeywords call2 m cur st
    ∧ (parseKeywords call1 m cur st).out ≠ Outcome.outOfFuel := by
  unfold parseKeywords
  rcases keywordSection m cur with ⟨_ | err, cur2⟩
  · exact childrenSection_agree Q call1 call2 hcall m hitems hprops cur2 st
  · exact ⟨rfl, by simp⟩

theorem rootSection_document (x : Collaborators Ref) (d1 d2 : JsonSchemaDocument Ref)
    (hdoc : d1.documentReference = d2.documentReference) (hroot : d1.rootSchema = d2.rootSchema)
    (m : JsonMap) (cur : JsonSchema Ref) : rootSection x d1 m cur = rootSection x d2 m cur := by
  simp only [rootSection, hdoc, hroot]

/-- On a document without `$ref`, `parseSchema` returns with any bound above the nesting
depth of the document, with the same result for every such bound and every pool. -/
theorem parseSchema_noRef_agree (x : Collaborators Ref) (d1 d2 : JsonSchemaDocument Ref)
    (hdoc : d1.documentReference = d2.documentReference)
    (hroot : d1.rootSchema = d2.rootSchema) :
    ∀ (f1 f2 : Nat) (doc : Json), doc.noRef = true → doc.depth < f1 → doc.depth < f2 →
      ∀ (cur : JsonSchema Ref) (st : St Ref),
        parseSchema x d1 f1 doc cur st = parseSchema x d2 f2 doc cur st
        ∧ (parseSchema x d1 f1 doc cur st).out ≠ Outcome.outOfFuel := by
  intro f1
  induction f1 with
  | zero => intro f2 doc _ h1; exact absurd h1 (Nat.not_lt_zero _)
  | succ f1 ih =>
    intro f2 doc hno h1 h2 cur st
    cases f2 with
    | zero => exact absurd h2 (Nat.not_lt_zero _)
    | succ f2 =>
      cases doc with
      | object m =>
        obtain ⟨href, hentries⟩ := noRef_object m hno
        simp only [Json.depth] at h1 h2
        have hd1 : depthEntries m < f1 := Nat.lt_of_succ_lt_succ h1
        have hd2 : depthEntries m < f2 := Nat.lt_of_succ_lt_succ h2
        have hcall : AgreeOn (fun v => v.noRef = true ∧ v.depth < f1 ∧ v.depth < f2)
            (parseSchema x d1 f1) (parseSchema x d2 f2) :=
          fun v hv c s => ih f2 v hv.1 hv.2.1 hv.2.2 c s
        have hQ : ∀ k, (mapIndex m k).noRef = true ∧ (mapIndex m k).depth < f1
            ∧ (mapIndex m k).depth < f2 := fun k =>
          ⟨noRef_mapIndex m k hentries, Nat.lt_of_le_of_lt (depth_mapIndex m k) hd1,
            Nat.lt_of_le_of_lt (depth_mapIndex m k) hd2⟩
        have hprops : ∀ ps, mapIndex m KEY_PROPERTIES = Json.object ps → ∀ k,
            (mapIndex ps k).noRef = true ∧ (mapIndex ps k).depth < f1
              ∧ (mapIndex ps k).depth < f2 := by
          intro ps hps k
          have hq := hQ KEY_PROPERTIES
          rw [hps] at hq
          simp only [Json.depth] at hq
          exact ⟨noRef_mapIndex ps k (noRef_object ps hq.1).2,
            Nat.lt_of_le_of_lt (depth_mapIndex ps k) (Nat.lt_of_succ_lt hq.2.1),
            Nat.lt_of_le_of_lt (depth_mapIndex ps k) (Nat.lt_of_succ_lt hq.2.2)⟩
        simp only [parseSchema, rootSection_document x d1 d2 hdoc hroot m cur]
        rcases rootSection x d2 m cur with ⟨_ | err, cur1⟩
        · simp only [refSection_no_ref x d1 m cur1 st href,
            refSection_no_ref x d2 m cur1 st href, if_true]
          exact parseKeywords_agree _ _ _ hcall m (hQ KEY_ITEMS) hprops cur1 st
        · exact ⟨rfl, by simp⟩
      | null => exact ⟨rfl, by simp [parseSchema]⟩
      | bool b => exact ⟨rfl, by simp [parseSchema]⟩
      | number n => exact ⟨rfl, by simp [parseSchema]⟩
      | string s => exact ⟨rfl, by simp [parseSchema]⟩
      | array xs => exact ⟨rfl, by simp [parseSchema]⟩

/-- C16: on a decoded document that holds no `$ref` key at any depth, `parseSchema`
returns as soon as the bound on its recursion depth exceeds the nesting depth of the
document; the result is the same for every such bound and it does not depend on the
pool. -/
theorem parseSchema_terminates_without_ref (x : Collaborators Ref)
    (d : JsonSchemaDocument Ref) (fuel : Nat) (doc : Json) (cur : JsonSchema Ref) (st : St Ref)
    (hnoref : doc.noRef = true) (hfuel : doc.depth < fuel) :
    (parseSchema x d fuel doc cur st).out ≠ Outcome.outOfFuel
    ∧ parseSchema x d fuel doc cur st = parseSchema x d (doc.depth + 1) doc cur st
    ∧ ∀ pool : SchemaPool Ref,
        parseSchema x { d with pool := pool } fuel doc cur st = parseSchema x d fuel doc cur st := by
  have h1 := parseSchema_noRef_agree x d d rfl rfl fuel (doc.depth + 1) doc hnoref hfuel
    (Nat.lt_succ_self _) cur st
  refine ⟨h1.2, h1.1, fun pool => ?_⟩
  exact (parseSchema_noRef_agree x { d with pool := pool } d rfl rfl fuel fuel doc hnoref hfuel
    hfuel cur st).1

theorem parseSchema_terminates_without_ref_witness :
    scenario1.noRef = true ∧ scenario1.depth < 4
    ∧ (parseSchema exampleCollaborators (exampleDocument []) 4 scenario1 exampleNode
        exampleState).out ≠ Outcome.outOfFuel
    ∧ parseSchema exampleCollaborators (exampleDocument []) 4 scenario1 exampleNode exampleState
      = parseSchema exampleCollaborators (exampleDocument []) (scenario1.depth + 1) scenario1
          exampleNode exampleState
    ∧ scenario1.depth = 3 :=
  ⟨by decide, by decide,
    (parseSchema_terminates_without_ref exampleCollaborators (exampleDocument []) 4 scenario1
      exampleNode exampleState (by decide) (by decide)).1,
    (parseSchema_terminates_without_ref exampleCollaborators (exampleDocument []) 4 scenario1
      exampleNode exampleState (by decide) (by decide)).2.1,
    by decide⟩

/-! ## A self-referential document -/

/-- When the first property of the `properties` mapping runs out of fuel, so does the
children section. -/
theorem childrenSection_outOfFuel (call : Json → JsonSchema Ref → St Ref → Res Ref)
    (m rest : JsonMap) (name : String) (v : Json) (cur : JsonSchema Ref) (st : St Ref)
    (hn : (mapKeys m).Nodup)
    (hps : m.lookup KEY_PROPERTIES = some (Json.object ((name, v) :: rest)))
    (hcall : (call v (newPropertySchema name cur st) { st with next := st.next + 1 }).out
      = Outcome.outOfFuel) :
    (childrenSection call m cur st).out = Outcome.outOfFuel := by
  have hidx : mapIndex ((name, v) :: rest) name = v := by
    simp [mapIndex, List.lookup]
  have hloop : (forRange (propertiesBody call m) (mapKeys m) cur st).out
      = Outcome.outOfFuel := by
    rw [propertiesLoop_eq call m hn cur st, hps]
    simp [parsePropertiesWith, mapKeys, forRange, propertyBody, hidx, hcall]
  simp [childrenSection, hloop]

/-- The schema `{"$ref": "#"}` of the property `x` of `selfReferential`, parsed on a node
below the root whose `ref` names the document, runs out of fuel for every bound. -/
theorem self_reference_loop (x : Collaborators Ref) (d : JsonSchemaDocument Ref) (h r : Ref)
    (root : Nat) (hd : d.rootSchema = some root)
    (hnew : x.NewJsonReference "#" = (h, none)) (hfull : x.HasFullUrl h = false)
    (hinh0 : x.Inherits d.documentReference h = (some r, none))
    (hinh : x.Inherits r h = (some r, none))
    (hpool : d.pool.GetPoolDocument r = Except.ok selfReferential)
    (hget : x.PointerGet r selfReferential = (selfReferential, none)) :
    ∀ (fuel : Nat) (cur : JsonSchema Ref) (st : St Ref), root < st.next → cur.addr ≠ root →
      (cur.ref = some d.documentReference ∨ cur.ref = some r) →
      (parseSchema x d fuel (Json.object [("$ref", Json.string "#")]) cur st).out
        = Outcome.outOfFuel := by
  intro fuel
  induction fuel with
  | zero => intro cur st _ _ _; rfl
  | succ fuel ih =>
    intro cur st hnext hne hbase
    have hroot : d.rootSchema ≠ some cur.addr := by
      rw [hd]
      intro hc
      exact hne (Option.some.inj hc).symm
    have hset : setRef x h cur = (Outcome.ok, { cur with ref := some r }) := by
      rcases hbase with hb | hb
      · exact setRef_relative x h d.documentReference (some r) cur hfull hb hinh0
      · exact setRef_relative x h r (some r) cur hfull hb hinh
    have hsec : refSection x d [("$ref", Json.string "#")] cur st
        = ⟨Outcome.ok, selfReferentialMap, { cur with ref := some r },
            { st with requests := st.requests ++ [r] }⟩ := by
      simp only [refSection_of_ref x d [("$ref", Json.string "#")] "#" cur st rfl, hnew, hset,
        resolve, hpool, hget]
      rfl
    have hnone : (keywordSection selfReferentialMap { cur with ref := some r }).1 = none := by
      obtain ⟨c, _, hc⟩ := keywordSection_valid_strings selfReferentialMap
        { cur with ref := some r } (by decide) (by decide) (by decide)
      rw [hc]
      simp [typeKeyword, existsMapKey, mapIndex, List.lookup, isKind, kindOf, isStringInSlice,
        selfReferentialMap, KEY_TYPE]
    rcases hks : keywordSection selfReferentialMap { cur with ref := some r }
      with ⟨_ | err, cur3⟩
    · have hg := keywordSection_grown selfReferentialMap { cur with ref := some r }
      rw [hks] at hg
      have hchild := ih (newPropertySchema "x" cur3 { st with requests := st.requests ++ [r] })
        { next := st.next + 1, requests := st.requests ++ [r] } (Nat.lt_succ_of_lt hnext)
        (Nat.ne_of_gt hnext) (Or.inr hg.1)
      have hch := childrenSection_outOfFuel (parseSchema x d fuel) selfReferentialMap [] "x"
        (Json.object [("$ref", Json.string "#")]) cur3
        { st with requests := st.requests ++ [r] } (by decide) rfl hchild
      simp [parseSchema, rootSection_not_root x d _ cur hroot, hsec, parseKeywords, hks, hch]
    · rw [hks] at hnone
      simp at hnone

/-- C17: the finite document `selfReferential`, a root of type object whose property `x`
is `{"$ref": "#"}`, is one on which parsing never returns: whenever `#` is a relative
reference that resolves, against the reference of the document, to the whole
document, the parse of the root has not finished within any bound on the depth of the
recursion. -/
theorem self_reference_never_returns (x : Collaborators Ref) (d : JsonSchemaDocument Ref)
    (s h r : Ref)
    (hschema : x.NewJsonReference "http://json-schema.org/draft-04/schema#" = (s, none))
    (hnew : x.NewJsonReference "#" = (h, none)) (hfull : x.HasFullUrl h = false)
    (hinh0 : x.Inherits d.documentReference h = (some r, none))
    (hinh : x.Inherits r h = (some r, none))
    (hpool : d.pool.GetPoolDocument r = Except.ok selfReferential)
    (hget : x.PointerGet r selfReferential = (selfReferential, none)) :
    ∀ (fuel : Nat) (st : St Ref),
      (parse x d fuel selfReferential st).2.out = Outcome.outOfFuel := by
  intro fuel st
  cases fuel with
  | zero => rfl
  | succ fuel =>
    have hrs : rootSection x { d with rootSchema := some (newRootSchema st).addr }
        selfReferentialMap (newRootSchema st)
        = (none, { newRootSchema st with schema := some s, ref := some d.documentReference }) := by
      simp [rootSection, existsMapKey, mapIndex, List.lookup, selfReferentialMap, hschema,
        KEY_SCHEMA, KEY_REF]
    have hnone : (keywordSection selfReferentialMap
        { newRootSchema st with schema := some s, ref := some d.documentReference }).1
        = none := by
      obtain ⟨c, _, hc⟩ := keywordSection_valid_strings selfReferentialMap
        { newRootSchema st with schema := some s, ref := some d.documentReference }
        (by decide) (by decide) (by decide)
      rw [hc]
      simp [typeKeyword, existsMapKey, mapIndex, List.lookup, isKind, kindOf, isStringInSlice,
        selfReferentialMap, KEY_TYPE]
    rcases hks : keywordSection selfReferentialMap
        { newRootSchema st with schema := some s, ref := some d.documentReference }
      with ⟨_ | err, cur3⟩
    · have hg := keywordSection_grown selfReferentialMap
        { newRootSchema st with schema := some s, ref := some d.documentReference }
      rw [hks] at hg
      have hchild := self_reference_loop x { d with rootSchema := some (newRootSchema st).addr }
        h r st.next rfl hnew hfull hinh0 hinh hpool hget fuel
        (newPropertySchema "x" cur3 { st with next := st.next + 1 })
        { next := st.next + 1 + 1, requests := st.requests }
        (Nat.lt_succ_of_lt (Nat.lt_succ_self _)) (Nat.succ_ne_self _) (Or.inl hg.1)
      have hch := childrenSection_outOfFuel
        (parseSchema x { d with rootSchema := some (newRootSchema st).addr } fuel)
        selfReferentialMap [] "x" (Json.object [("$ref", Json.string "#")]) cur3
        { st with next := st.next + 1 } (by decide) rfl hchild
      simp [parse, selfReferential, parseSchema, hrs,
        refSection_no_ref x _ selfReferentialMap _ _ (by decide : KEY_REF ∉ mapKeys selfReferentialMap),
        parseKeywords, hks, hch]
    · rw [hks] at hnone
      simp at hnone

theorem self_reference_never_returns_witness :
    (parse exampleCollaborators
        (exampleDocument [("http://example.org/root.json", selfReferential)]) 1000
        selfReferential St.initial).2.out = Outcome.outOfFuel
    ∧ (parse exampleCollaborators
        (exampleDocument [("http://example.org/root.json", selfReferential)]) 3
        selfReferential St.initial).2.st.requests
      = [⟨"http://example.org/root.json", [], true⟩, ⟨"http://example.org/root.json", [], true⟩]
    ∧ ∀ (fuel : Nat) (st : St ExampleRef),
        (parse exampleCollaborators
          (exampleDocument [("http://example.org/root.json", selfReferential)]) fuel
          selfReferential st).2.out = Outcome.outOfFuel :=
  ⟨self_reference_never_returns exampleCollaborators
      (exampleDocument [("http://example.org/root.json", selfReferential)])
      ⟨"http://json-schema.org/draft-04/schema", [], true⟩ ⟨"", [], false⟩
      ⟨"http://example.org/root.json", [], true⟩ rfl rfl rfl rfl rfl rfl rfl 1000 St.initial,
    by decide,
    self_reference_never_returns exampleCollaborators
      (exampleDocument [("http://example.org/root.json", selfReferential)])
      ⟨"http://json-schema.org/draft-04/schema", [], true⟩ ⟨"", [], false⟩
      ⟨"http://example.org/root.json", [], true⟩ rfl rfl rfl rfl rfl rfl rfl⟩

/-! ## One step of substitution -/

theorem lookup_eraseRef (m : JsonMap) (k : String) (hk : k ≠ KEY_REF) :
    (eraseRef m).lookup k = m.lookup k := by
  induction m with
  | nil => rfl
  | cons e rest ih =>
    obtain ⟨a, v⟩ := e
    by_cases ha : a = KEY_REF
    · subst ha
      have hne : (k == KEY_REF) = false := by simpa using hk
      simp only [eraseRef, List.filter, bne_self_eq_false, List.lookup, hne] at ih ⊢
      exact ih
    · have hb : (a != KEY_REF) = true := by simpa using ha
      simp only [eraseRef, List.filter, hb, List.lookup] at ih ⊢
      rw [ih]

/-- A loop whose body does nothing on the key `$ref` runs the same over a mapping and
over the mapping without its `$ref` entries. -/
theorem forRange_eraseRef (body : String → JsonSchema Ref → St Ref → Res Ref)
    (hnoop : ∀ c s, body KEY_REF c s = ⟨Outcome.ok, c, s⟩) :
    ∀ (m : JsonMap) (cur : JsonSchema Ref) (st : St Ref),
      forRange body (mapKeys (eraseRef m)) cur st = forRange body (mapKeys m) cur st := by
  intro m
  induction m with
  | nil => intro cur st; rfl
  | cons e rest ih =>
    intro cur st
    obtain ⟨a, v⟩ := e
    by_cases ha : a = KEY_REF
    · subst ha
      have h1 : eraseRef ((KEY_REF, v) :: rest) = eraseRef rest := by
        simp [eraseRef, List.filter]
      rw [h1, ih]
      simp only [mapKeys, List.map_cons, forRange, hnoop, if_true]
    · have hb : (a != KEY_REF) = true := by simpa using ha
      have h1 : eraseRef ((a, v) :: rest) = (a, v) :: eraseRef rest := by
        simp only [eraseRef, List.filter, hb]
      rw [h1]
      simp only [mapKeys, List.map_cons, forRange]
      split
      · exact ih _ _
      · rfl

/-- Everything after the `$ref` section gives the same result on a mapping and on the
mapping without its `$ref` entries: the keyword `$ref` is not read there. -/
theorem parseKeywords_eraseRef (call : Json → JsonSchema Ref → St Ref → Res Ref)
    (m : JsonMap) (cur : JsonSchema Ref) (st : St Ref) :
    parseKeywords call (eraseRef m) cur st = parseKeywords call m cur st := by
  have hk := keywordSection_congr (eraseRef m) m cur (lookup_eraseRef m KEY_ID (by decide))
    (lookup_eraseRef m KEY_TITLE (by decide)) (lookup_eraseRef m KEY_DESCRIPTION (by decide))
    (lookup_eraseRef m KEY_TYPE (by decide))
  have hp : propertiesBody call (eraseRef m) = propertiesBody call m := by
    funext k c s
    simp only [propertiesBody, mapIndex]
    split
    · rename_i hk2
      rw [hk2, lookup_eraseRef m KEY_PROPERTIES (by decide)]
    · rfl
  have hi : itemsBody call (eraseRef m) = itemsBody call m := by
    funext k c s
    simp only [itemsBody, mapIndex]
    split
    · rename_i hk2
      rw [hk2, lookup_eraseRef m KEY_ITEMS (by decide)]
    · rfl
  have hpl : ∀ c s, forRange (propertiesBody call m) (mapKeys (eraseRef m)) c s
      = forRange (propertiesBody call m) (mapKeys m) c s :=
    forRange_eraseRef _ (fun c s => by simp [propertiesBody, KEY_REF, KEY_PROPERTIES]) m
  have hil : ∀ c s, forRange (itemsBody call m) (mapKeys (eraseRef m)) c s
      = forRange (itemsBody call m) (mapKeys m) c s :=
    forRange_eraseRef _ (fun c s => by simp [itemsBody, KEY_REF, KEY_ITEMS]) m
  simp only [parseKeywords, hk, childrenSection, hp, hi, hpl, hil]

/-- C20: substitution of `$ref` is a single step.  On a node that is not the root, when
the string `$ref` of the mapping resolves to a target mapping, the result of
`parseSchema` is the result of parsing the keywords of the target without its `$ref`
entries: a `$ref` inside the target is not followed and plays no part.  In particular,
when the target holds nothing but a `$ref`, as the schema `{"$ref": p}` of a property
does when `p` points at that same property, `parseSchema` returns the type-required
error of the node for every positive bound, instead of recursing. -/
theorem ref_substitution_single_step (x : Collaborators Ref) (d : JsonSchemaDocument Ref)
    (fuel : Nat) (m target : JsonMap) (k : String) (jr ref : Ref) (document : Json)
    (cur cur2 : JsonSchema Ref) (st : St Ref)
    (hroot : d.rootSchema ≠ some cur.addr)
    (hk : m.lookup KEY_REF = some (Json.string k))
    (hnew : x.NewJsonReference k = (jr, none))
    (hset : setRef x jr cur = (Outcome.ok, cur2)) (href : cur2.ref = some ref)
    (hpool : d.pool.GetPoolDocument ref = Except.ok document)
    (hget : x.PointerGet ref document = (Json.object target, none)) :
    parseSchema x d (fuel + 1) (Json.object m) cur st
      = parseKeywords (parseSchema x d fuel) (eraseRef target) cur2
          { st with requests := st.requests ++ [ref] }
    ∧ (eraseRef target = [] →
        (parseSchema x d (fuel + 1) (Json.object m) cur st).out
          = Outcome.error
              (Error.message ("schema " ++ cur.property ++ " - type is required"))) := by
  have hmain : parseSchema x d (fuel + 1) (Json.object m) cur st
      = parseKeywords (parseSchema x d fuel) (eraseRef target) cur2
          { st with requests := st.requests ++ [ref] } := by
    rw [parseKeywords_eraseRef]
    simp [parseSchema, rootSection_not_root x d m cur hroot,
      refSection_of_ref x d m k cur st hk, hnew, hset, resolve, href, hpool, hget]
  refine ⟨hmain, fun hempty => ?_⟩
  have hprop : cur2.property = cur.property := by
    obtain ⟨r, hr⟩ := setRef_node x jr cur
    rw [hset] at hr
    simp only at hr
    rw [hr]
  rw [hmain, hempty, ← hprop, ← required_message]
  simp [parseKeywords, keywordSection, andThen, idKeyword, titleKeyword, descriptionKeyword,
    typeKeyword, existsMapKey, mapIndex, List.lookup, isKind, kindOf]

theorem ref_substitution_single_step_witness :
    eraseRef [("$ref", Json.string "#/properties/x")] = []
    ∧ parseSchema exampleCollaborators
        (exampleDocument [("http://example.org/root.json", selfPointing)]) 1
        (Json.object [("$ref", Json.string "#/properties/x")]) exampleNode exampleState
      = parseKeywords
          (parseSchema exampleCollaborators
            (exampleDocument [("http://example.org/root.json", selfPointing)]) 0)
          (eraseRef [("$ref", Json.string "#/properties/x")])
          { exampleNode with
            ref := some ⟨"http://example.org/root.json", ["properties", "x"], true⟩ }
          { exampleState with
            requests := exampleState.requests
              ++ [⟨"http://example.org/root.json", ["properties", "x"], true⟩] }
    ∧ (parseSchema exampleCollaborators
        (exampleDocument [("http://example.org/root.json", selfPointing)]) 1
        (Json.object [("$ref", Json.string "#/properties/x")]) exampleNode exampleState).out
      = Outcome.error (Error.message ("schema " ++ exampleNode.property ++ " - type is required"))
    ∧ (parse exampleCollaborators
        (exampleDocument [("http://example.org/root.json", selfPointing)]) 50 selfPointing
        St.initial).2.out
      = Outcome.error (Error.message "schema x - type is required")
    ∧ (parse exampleCollaborators
        (exampleDocument [("http://example.org/root.json", selfPointing)]) 50 selfPointing
        St.initial).2.st.requests
      = [⟨"http://example.org/root.json", ["properties", "x"], true⟩] :=
  ⟨rfl,
    (ref_substitution_single_step exampleCollaborators
      (exampleDocument [("http://example.org/root.json", selfPointing)]) 0
      [("$ref", Json.string "#/properties/x")] [("$ref", Json.string "#/properties/x")]
      "#/properties/x" ⟨"", ["properties", "x"], false⟩
      ⟨"http://example.org/root.json", ["properties", "x"], true⟩ selfPointing exampleNode
      { exampleNode with
        ref := some ⟨"http://example.org/root.json", ["properties", "x"], true⟩ }
      exampleState (by decide) rfl rfl rfl rfl rfl rfl).1,
    (ref_substitution_single_step exampleCollaborators
      (exampleDocument [("http://example.org/root.json", selfPointing)]) 0
      [("$ref", Json.string "#/properties/x")] [("$ref", Json.string "#/properties/x")]
      "#/properties/x" ⟨"", ["properties", "x"], false⟩
      ⟨"http://example.org/root.json", ["properties", "x"], true⟩ selfPointing exampleNode
      { exampleNode with
        ref := some ⟨"http://example.org/root.json", ["properties", "x"], true⟩ }
      exampleState (by decide) rfl rfl rfl rfl rfl rfl).2 rfl,
    by decide, by decide⟩

/-! ## The order of the keyword checks -/

/-- A loop whose body acts on one key only, and never ends with `ok` on it, ends with
the result of that body as soon as the key is among the keys. -/
theorem forRange_first_failure (body : String → JsonSchema Ref → St Ref → Res Ref)
    (key : String) (hother : ∀ k, k ≠ key → ∀ c s, body k c s = ⟨Outcome.ok, c, s⟩)
    (hkey : ∀ c s, (body key c s).out ≠ Outcome.ok) :
    ∀ (keys : List String) (cur : JsonSchema Ref) (st : St Ref), key ∈ keys →
      forRange body keys cur st = body key cur st := by
  intro keys
  induction keys with
  | nil => intro cur st hmem; simp at hmem
  | cons k ks ih =>
    intro cur st hmem
    by_cases hk : k = key
    · subst hk
      simp only [forRange, hkey cur st, if_false]
    · simp only [forRange, hother k hk, if_true]
      rcases List.mem_cons.1 hmem with h | h
      · exact absurd h.symm hk
      · exact ih cur st h

theorem andThen_fst (r : Option Error × JsonSchema Ref)
    (next : JsonSchema Ref → Option Error × JsonSchema Ref) :
    (andThen r next).1 = [r.1, (next r.2).1].findSome? id := by
  obtain ⟨e, c⟩ := r
  cases e <;> cases h : (next c).1 <;> simp [andThen, List.findSome?, h]

theorem idKeyword_fst (m : JsonMap) (cur : JsonSchema Ref) :
    (idKeyword m cur).1 = wrongKind m KEY_ID := by
  unfold idKeyword wrongKind existsMapKey mapIndex
  rcases m.lookup KEY_ID with _ | v
  · simp
  · cases v <;> simp [isKind, kindOf]

theorem titleKeyword_fst (m : JsonMap) (cur : JsonSchema Ref) :
    (titleKeyword m cur).1 = wrongKind m KEY_TITLE := by
  unfold titleKeyword wrongKind existsMapKey mapIndex
  rcases m.lookup KEY_TITLE with _ | v
  · simp
  · cases v <;> simp [isKind, kindOf]

theorem descriptionKeyword_fst (m : JsonMap) (cur : JsonSchema Ref) :
    (descriptionKeyword m cur).1 = wrongKind m KEY_DESCRIPTION := by
  unfold descriptionKeyword wrongKind existsMapKey mapIndex
  rcases m.lookup KEY_DESCRIPTION with _ | v
  · simp
  · cases v <;> simp [isKind, kindOf]

theorem typeKeyword_fst (m : JsonMap) (cur : JsonSchema Ref) :
    (typeKeyword m cur).1 = typeInvalid m cur.property := by
  unfold typeKeyword typeInvalid existsMapKey mapIndex
  rcases m.lookup KEY_TYPE with _ | v
  · simp
  · cases v with
    | string k => by_cases h : isStringInSlice SCHEMA_TYPES k = true <;> simp [isKind, kindOf, h]
    | null => simp [isKind, kindOf]
    | bool b => simp [isKind, kindOf]
    | number n => simp [isKind, kindOf]
    | array xs => simp [isKind, kindOf]
    | object o => simp [isKind, kindOf]

/-- The error of the four keyword checks is the error of the earliest invalid keyword
among `$id`, `title`, `description` and `type`. -/
theorem keywordSection_fst (m : JsonMap) (cur : JsonSchema Ref) :
    (keywordSection m cur).1
      = [wrongKind m KEY_ID, wrongKind m KEY_TITLE, wrongKind m KEY_DESCRIPTION,
          typeInvalid m cur.property].findSome? id := by
  have h1 : ∀ c : JsonSchema Ref, (idKeyword m c).2.property = c.property :=
    fun c => (idKeyword_links m c).2.1
  have h2 : ∀ c : JsonSchema Ref, (titleKeyword m c).2.property = c.property :=
    fun c => (titleKeyword_links m c).2.1
  have h3 : ∀ c : JsonSchema Ref, (descriptionKeyword m c).2.property = c.property :=
    fun c => (descriptionKeyword_links m c).2.1
  unfold keywordSection
  rw [andThen_fst, andThen_fst, andThen_fst, idKeyword_fst, titleKeyword_fst,
    descriptionKeyword_fst, typeKeyword_fst, h3, h2, h1]
  cases wrongKind m KEY_ID <;> cases wrongKind m KEY_TITLE <;>
    cases wrongKind m KEY_DESCRIPTION <;> cases typeInvalid m cur.property <;>
    simp [List.findSome?]

/-- The part of `parseSchema` after the `$ref` section returns the error of the
earliest invalid keyword of the mapping it runs on. -/
theorem parseKeywords_earliest (call : Json → JsonSchema Ref → St Ref → Res Ref)
    (m : JsonMap) (cur : JsonSchema Ref) (st : St Ref) (e : Error)
    (h : earliestInvalid m cur.property = some e) :
    (parseKeywords call m cur st).out = Outcome.error e := by
  have hfst := keywordSection_fst m cur
  rcases hks : keywordSection m cur with ⟨_ | e2, c⟩
  · rw [hks] at hfst
    simp only [parseKeywords, hks]
    have hp : propertiesInvalid m = some e := by
      unfold earliestInvalid at h
      simp only [List.findSome?, id] at h hfst
      revert h hfst
      cases wrongKind m KEY_ID <;> cases wrongKind m KEY_TITLE <;>
        cases wrongKind m KEY_DESCRIPTION <;> cases typeInvalid m cur.property <;>
        cases propertiesInvalid m <;> simp
    unfold propertiesInvalid at hp
    rcases hl : m.lookup KEY_PROPERTIES with _ | v
    · rw [hl] at hp
      simp at hp
    · rw [hl] at hp
      have hmem := mem_mapKeys_of_lookup m _ v hl
      have hidx := mapIndex_of_lookup m _ v hl
      have hv : ∀ c s, parsePropertiesWith call v c s
          = ⟨Outcome.error e, c, s⟩ := by
        intro c s
        cases v <;> simp_all [parsePropertiesWith]
      have hloop := forRange_first_failure (propertiesBody call m) KEY_PROPERTIES
        (fun k hk c s => by simp [propertiesBody, hk])
        (fun c s => by simp [propertiesBody, hidx, hv]) (mapKeys m) c st hmem
      simp only [childrenSection, hloop]
      simp [propertiesBody, hidx, hv]
  · rw [hks] at hfst
    simp only [parseKeywords, hks]
    unfold earliestInvalid at h
    simp only [List.findSome?, id] at h hfst
    revert h hfst
    cases wrongKind m KEY_ID <;> cases wrongKind m KEY_TITLE <;>
      cases wrongKind m KEY_DESCRIPTION <;> cases typeInvalid m cur.property <;>
      cases propertiesInvalid m <;> simp <;> intro h1 h2 <;> simp_all

/-- C18 (as amended): within a node the checks run in the fixed order `$schema` (at the
root), `$ref`, `$id`, `title`, `description`, `type`, `properties`, `items`, the
keywords after `$ref` being read from the mapping the `$ref` section leaves (the mapping
of the node when it has no `$ref`, the mapping a string `$ref` resolves to otherwise).
An error of the `$schema` section of the root is returned whatever the other keywords
hold.  Once that section has passed: a `$ref` that is not a string is reported, and
any failure of the `$ref` section is returned, whatever the other keywords hold; when
the `$ref` section passes and leaves the mapping `target`,
the error returned is the one of the earliest invalid keyword of `target` among `$id`,
`title`, `description`, `type` and `properties`; when none of these is invalid, a
failure of `parseProperties` on the value of `properties` is returned whatever `items`
holds, and an `items` value that is not a mapping is reported when `properties` is
absent or parses without error. -/
theorem keyword_check_order (x : Collaborators Ref) (d : JsonSchemaDocument Ref)
    (fuel : Nat) (m : JsonMap) (cur : JsonSchema Ref) (st : St Ref) :
    (∀ e c, rootSection x d m cur = (some e, c) →
      (parseSchema x d (fuel + 1) (Json.object m) cur st).out = Outcome.error e)
    ∧ ∀ cur1, rootSection x d m cur = (none, cur1) →
      (∀ e, wrongKind m KEY_REF = some e →
        (parseSchema x d (fuel + 1) (Json.object m) cur st).out = Outcome.error e)
      ∧ ((refSection x d m cur1 st).out ≠ Outcome.ok →
        (parseSchema x d (fuel + 1) (Json.object m) cur st).out
          = (refSection x d m cur1 st).out)
      ∧ (∀ target cur2 st2 e, refSection x d m cur1 st = ⟨Outcome.ok, target, cur2, st2⟩ →
          earliestInvalid target cur.property = some e →
          (parseSchema x d (fuel + 1) (Json.object m) cur st).out = Outcome.error e)
      ∧ (∀ target cur2 st2, refSection x d m cur1 st = ⟨Outcome.ok, target, cur2, st2⟩ →
          (mapKeys target).Nodup → earliestInvalid target cur.property = none →
          (∀ v, target.lookup KEY_PROPERTIES = some v →
            (parseProperties x d (fuel + 1) v (keywordSection target cur2).2 st2).out
              ≠ Outcome.ok →
            (parseSchema x d (fuel + 2) (Json.object m) cur st).out
              = (parseProperties x d (fuel + 1) v (keywordSection target cur2).2 st2).out)
          ∧ (∀ e, itemsInvalid target = some e →
            (∀ v, target.lookup KEY_PROPERTIES = some v →
              (parseProperties x d (fuel + 1) v (keywordSection target cur2).2 st2).out
                = Outcome.ok) →
            (parseSchema x d (fuel + 2) (Json.object m) cur st).out = Outcome.error e)) := by
  refine ⟨fun e c hsome => by simp [parseSchema, hsome], fun cur1 hrootsec => ?_⟩
  have hroot1 : cur1.property = cur.property := by
    have := (rootSection_links x d m cur).2.1
    rw [hrootsec] at this
    exact this
  have hprop : ∀ target cur2 st2, refSection x d m cur1 st = ⟨Outcome.ok, target, cur2, st2⟩ →
      cur2.property = cur.property := by
    intro target cur2 st2 href
    have := (refSection_links x d m cur1 st).2.1
    rw [href] at this
    exact this.trans hroot1
  refine ⟨?_, ?_, ?_, ?_⟩
  · intro e he
    unfold wrongKind at he
    have hns : ∀ k, m.lookup KEY_REF ≠ some (Json.string k) := by
      intro k hk
      rw [hk] at he
      simp at he
    have hsome : (m.lookup KEY_REF).isSome = true := by
      rcases hl : m.lookup KEY_REF with _ | v
      · rw [hl] at he
        simp at he
      · rfl
    have he2 : e = ERROR_MESSAGE_X_MUST_BE_OF_TYPE_Y KEY_REF STRING_STRING := by
      rcases hl : m.lookup KEY_REF with _ | v
      · rw [hl] at he
        simp at he
      · rw [hl] at he
        cases v <;> simp_all
    simp [parseSchema, hrootsec, refSection_not_string x d m cur1 st hns, hsome, he2]
  · intro hfail
    simp [parseSchema, hrootsec, hfail]
  · intro target cur2 st2 e href he
    simp only [parseSchema, hrootsec, href, if_true]
    exact parseKeywords_earliest _ target cur2 st2 e (by rw [hprop target cur2 st2 href]; exact he)
  · intro target cur2 st2 href hnodup hnone
    have hks : (keywordSection target cur2).1 = none := by
      rw [keywordSection_fst, hprop target cur2 st2 href]
      unfold earliestInvalid at hnone
      simp only [List.findSome?, id] at hnone ⊢
      revert hnone
      cases wrongKind target KEY_ID <;> cases wrongKind target KEY_TITLE <;>
        cases wrongKind target KEY_DESCRIPTION <;> cases typeInvalid target cur.property <;>
        cases propertiesInvalid target <;> simp
    have hmain : parseSchema x d (fuel + 2) (Json.object m) cur st
        = childrenSection (parseSchema x d (fuel + 1)) target (keywordSection target cur2).2
            st2 := by
      rcases hk : keywordSection target cur2 with ⟨_ | e2, c⟩
      · simp only [parseSchema, hrootsec, href, if_true, parseKeywords, hk]
      · rw [hk] at hks
        simp at hks
    rw [hmain]
    simp only [childrenSection, propertiesLoop_eq _ target hnodup, parseProperties]
    constructor
    · intro v hv hfail
      simp only [hv] at hfail ⊢
      simp [hfail]
    · intro e hitems hprops
      unfold itemsInvalid at hitems
      rcases hl : target.lookup KEY_ITEMS with _ | w
      · rw [hl] at hitems
        simp at hitems
      · rw [hl] at hitems
        have hw : ∀ c s, parseSchema x d (fuel + 1) w c s = ⟨Outcome.error e, c, s⟩ := by
          intro c s
          cases w <;> simp_all [parseSchema]
        rcases hp : target.lookup KEY_PROPERTIES with _ | v
        · simp [itemsLoop_eq _ target hnodup, hl, hw]
        · have hok := hprops v hp
          simp only [parseProperties] at hok
          simp [hok, itemsLoop_eq _ target hnodup, hl, hw]

theorem keyword_check_order_witness :
    (parseSchema exampleCollaborators (exampleRootDocument []) 1
        (Json.object [("title", Json.number 5)]) (newRootSchema St.initial) ⟨1, []⟩).out
      = Outcome.error (ERROR_MESSAGE_X_IS_REQUIRED KEY_SCHEMA)
    ∧ (earliestInvalid [("title", Json.number 5)] exampleNode.property
        = some (ERROR_MESSAGE_X_MUST_BE_OF_TYPE_Y KEY_TITLE STRING_STRING)
      ∧ (parseSchema exampleCollaborators (exampleDocument []) 1
          (Json.object [("title", Json.number 5)]) exampleNode exampleState).out
        = Outcome.error (ERROR_MESSAGE_X_MUST_BE_OF_TYPE_Y KEY_TITLE STRING_STRING))
    ∧ (earliestInvalid [("type", Json.string "float"), ("properties", Json.number 3)]
          exampleNode.property
        = some (Error.message "schema x - type is invalid")
      ∧ (parseSchema exampleCollaborators (exampleDocument []) 1
          (Json.object [("type", Json.string "float"), ("properties", Json.number 3)])
          exampleNode exampleState).out
        = Outcome.error (Error.message "schema x - type is invalid"))
    ∧ (parseSchema exampleCollaborators (exampleDocument []) 1
          (Json.object [("title", Json.number 5), ("$ref", Json.number 1)])
          exampleNode exampleState).out
        = Outcome.error (ERROR_MESSAGE_X_MUST_BE_OF_TYPE_Y KEY_REF STRING_STRING)
    ∧ (parseSchema exampleCollaborators (exampleDocument []) 1
          (Json.object [("title", Json.number 5), ("$ref", Json.string "#/definitions/a")])
          exampleNode exampleState).out
        = Outcome.error (Error.message "Document not found")
    ∧ (parseSchema exampleCollaborators
          (exampleDocument [("http://example.org/root.json", selfPointing)]) 1
          (Json.object [("$ref", Json.string "#/properties/x"), ("title", Json.number 5)])
          exampleNode exampleState).out
        = Outcome.error (Error.message "schema x - type is required")
    ∧ (parseSchema exampleCollaborators (exampleDocument []) 2
          (Json.object
            [("items", Json.number 3), ("type", Json.string "object"),
             ("properties", Json.object [("a", Json.object [])])])
          exampleNode exampleState).out
        = Outcome.error (Error.message "schema a - type is required")
    ∧ (parseSchema exampleCollaborators (exampleDocument []) 2
          (Json.object
            [("type", Json.string "object"),
             ("properties", Json.object [("a", Json.object [("type", Json.string "string")])]),
             ("items", Json.number 3)])
          exampleNode exampleState).out
        = Outcome.error (ERROR_MESSAGE_X_MUST_BE_AN_OBJECT STRING_SCHEMA)
    ∧ (parseSchema exampleCollaborators (exampleDocument []) 2
          (Json.object [("items", Json.number 3), ("type", Json.string "array")])
          exampleNode exampleState).out
        = Outcome.error (ERROR_MESSAGE_X_MUST_BE_AN_OBJECT STRING_SCHEMA) :=
  ⟨(keyword_check_order exampleCollaborators (exampleRootDocument []) 0
      [("title", Json.number 5)] (newRootSchema St.initial) ⟨1, []⟩).1 _ _ rfl,
    ⟨rfl,
      ((keyword_check_order exampleCollaborators (exampleDocument []) 0
        [("title", Json.number 5)] exampleNode exampleState).2 exampleNode rfl).2.2.1
        [("title", Json.number 5)] exampleNode exampleState _ rfl rfl⟩,
    ⟨rfl,
      ((keyword_check_order exampleCollaborators (exampleDocument []) 0
        [("type", Json.string "float"), ("properties", Json.number 3)] exampleNode
        exampleState).2 exampleNode rfl).2.2.1
        [("type", Json.string "float"), ("properties", Json.number 3)] exampleNode
        exampleState _ rfl rfl⟩,
    ((keyword_check_order exampleCollaborators (exampleDocument []) 0
      [("title", Json.number 5), ("$ref", Json.number 1)] exampleNode exampleState).2
      exampleNode rfl).1 _ rfl,
    (((keyword_check_order exampleCollaborators (exampleDocument []) 0
      [("title", Json.number 5), ("$ref", Json.string "#/definitions/a")] exampleNode
      exampleState).2 exampleNode rfl).2.1 (by decide)).trans (by decide),
    ((keyword_check_order exampleCollaborators
      (exampleDocument [("http://example.org/root.json", selfPointing)]) 0
      [("$ref", Json.string "#/properties/x"), ("title", Json.number 5)] exampleNode
      exampleState).2 exampleNode rfl).2.2.1
      [("$ref", Json.string "#/properties/x")]
      { exampleNode with
        ref := some ⟨"http://example.org/root.json", ["properties", "x"], true⟩ }
      { exampleState with
        requests := exampleState.requests
          ++ [⟨"http://example.org/root.json", ["properties", "x"], true⟩] }
      _ rfl rfl,
    ((((keyword_check_order exampleCollaborators (exampleDocument []) 0
      [("items", Json.number 3), ("type", Json.string "object"),
       ("properties", Json.object [("a", Json.object [])])] exampleNode exampleState).2
      exampleNode rfl).2.2.2
      [("items", Json.number 3), ("type", Json.string "object"),
       ("properties", Json.object [("a", Json.object [])])] exampleNode exampleState rfl
      (by decide) rfl).1 (Json.object [("a", Json.object [])]) rfl (by decide)).trans
      (by decide),
    (((keyword_check_order exampleCollaborators (exampleDocument []) 0
      [("type", Json.string "object"),
       ("properties", Json.object [("a", Json.object [("type", Json.string "string")])]),
       ("items", Json.number 3)] exampleNode exampleState).2 exampleNode rfl).2.2.2
      [("type", Json.string "object"),
       ("properties", Json.object [("a", Json.object [("type", Json.string "string")])]),
       ("items", Json.number 3)] exampleNode exampleState rfl (by decide) rfl).2 _ rfl
      (fun v hv => by
        have hv2 : v = Json.object [("a", Json.object [("type", Json.string "string")])] :=
          (Option.some.inj hv).symm
        subst hv2
        decide),
    (((keyword_check_order exampleCollaborators (exampleDocument []) 0
      [("items", Json.number 3), ("type", Json.string "array")] exampleNode exampleState).2
      exampleNode rfl).2.2.2
      [("items", Json.number 3), ("type", Json.string "array")] exampleNode exampleState rfl
      (by decide) rfl).2 _ rfl (fun v hv => by simp [KEY_PROPERTIES, List.lookup] at hv)⟩

/-- C18 (as stated) fails: in the mapping `refBesideInvalid` the `$ref` is a valid
string and `title` and `type` are numbers, so `title` is its earliest invalid keyword in
the order `$ref`, `$id`, `title`, `description`, `type`; as the `$ref` resolves to a
typed mapping, `parseSchema` reads `title` and `type` from that mapping and returns no
error.  At the root, a missing `$schema` is reported before a `title` that is not a
string. -/
theorem ref_hides_invalid_keywords :
    wrongKind refBesideInvalid KEY_REF = none
    ∧ wrongKind refBesideInvalid KEY_TITLE
        = some (ERROR_MESSAGE_X_MUST_BE_OF_TYPE_Y KEY_TITLE STRING_STRING)
    ∧ typeInvalid refBesideInvalid exampleNode.property
        = some (ERROR_MESSAGE_X_MUST_BE_OF_TYPE_Y KEY_TYPE STRING_STRING)
    ∧ earliestInvalid refBesideInvalid exampleNode.property
        = some (ERROR_MESSAGE_X_MUST_BE_OF_TYPE_Y KEY_TITLE STRING_STRING)
    ∧ (parseSchema exampleCollaborators
        (exampleDocument [("http://example.org/root.json", exampleDefinitions)]) 1
        (Json.object refBesideInvalid) exampleNode exampleState).out = Outcome.ok
    ∧ (parse exampleCollaborators (exampleDocument []) 1
        (Json.object [("title", Json.number 5)]) St.initial).2.out
        = Outcome.error (ERROR_MESSAGE_X_IS_REQUIRED KEY_SCHEMA) := by
  refine ⟨rfl, rfl, rfl, rfl, ?_, ?_⟩ <;> decide

/-! ## Sharing of references -/

theorem frame_refl (p : Nat) (s : Ptr.Store Ref) : Ptr.Store.Frame p s s :=
  ⟨List.prefix_refl _, Nat.le_refl _, fun _ _ _ => rfl⟩

theorem frame_trans {p : Nat} {s t u : Ptr.Store Ref} (h1 : Ptr.Store.Frame p s t)
    (h2 : Ptr.Store.Frame p t u) : Ptr.Store.Frame p s u :=
  ⟨h1.1.trans h2.1, Nat.le_trans h1.2.1 h2.2.1, fun q hq hne =>
    (h2.2.2 q (Nat.lt_of_lt_of_le hq h1.2.1) hne).trans (h1.2.2 q hq hne)⟩

/-- A change below a node allocated later is no change to the nodes there were. -/
theorem frame_of_later {p c : Nat} {s t u : Ptr.Store Ref} (h1 : Ptr.Store.Frame p s t)
    (hc : s.schemas.length ≤ c) (h2 : Ptr.Store.Frame c t u) : Ptr.Store.Frame p s u :=
  ⟨h1.1.trans h2.1, Nat.le_trans h1.2.1 h2.2.1, fun q hq hne =>
    (h2.2.2 q (Nat.lt_of_lt_of_le hq h1.2.1) (Nat.ne_of_lt (Nat.lt_of_lt_of_le hq hc))).trans
      (h1.2.2 q hq hne)⟩

theorem assign_schemas (s : Ptr.Store Ref) (p : Nat) (f : Ptr.JsonSchema → Ptr.JsonSchema)
    (q : Nat) :
    (s.assign p f).schemas[q]? = if q = p then (s.schemas[q]?).map f else s.schemas[q]? := by
  unfold Ptr.Store.assign
  rcases h : s.schemas[p]? with _ | n
  · by_cases hq : q = p
    · subst hq
      simp [h]
    · simp [hq]
  · by_cases hq : q = p
    · subst hq
      have hlt : q < s.schemas.length := by
        by_contra hge
        rw [List.getElem?_eq_none (Nat.le_of_not_lt hge)] at h
        exact absurd h (by simp)
      simp [h, List.getElem?_set, hlt]
    · have hne : p ≠ q := fun e => hq e.symm
      simp [hq, List.getElem?_set, hne]

theorem assign_references (s : Ptr.Store Ref) (p : Nat) (f : Ptr.JsonSchema → Ptr.JsonSchema) :
    (s.assign p f).references = s.references := by
  unfold Ptr.Store.assign
  split <;> rfl

theorem assign_length (s : Ptr.Store Ref) (p : Nat) (f : Ptr.JsonSchema → Ptr.JsonSchema) :
    (s.assign p f).schemas.length = s.schemas.length := by
  unfold Ptr.Store.assign
  split <;> simp

theorem frame_assign (p : Nat) (s : Ptr.Store Ref) (f : Ptr.JsonSchema → Ptr.JsonSchema) :
    Ptr.Store.Frame p s (s.assign p f) := by
  refine ⟨?_, ?_, fun q _ hne => ?_⟩
  · rw [assign_references]
  · rw [assign_length]
  · rw [assign_schemas, if_neg hne]

theorem frame_addressOf (p : Nat) (s : Ptr.Store Ref) (r : Ref) :
    Ptr.Store.Frame p s (s.addressOf r).2 :=
  ⟨List.prefix_append _ _, Nat.le_refl _, fun _ _ _ => rfl⟩

theorem frame_alloc (p : Nat) (s : Ptr.Store Ref) (n : Ptr.JsonSchema) :
    Ptr.Store.Frame p s (s.alloc n).2 := by
  refine ⟨List.prefix_refl _, ?_, fun q hq _ => ?_⟩
  · simp [Ptr.Store.alloc]
  · simp [Ptr.Store.alloc, List.getElem?_append_left hq]

theorem frame_requests (p : Nat) (s : Ptr.Store Ref) (l : List Ref) :
    Ptr.Store.Frame p s { s with requests := l } :=
  ⟨List.prefix_refl _, Nat.le_refl _, fun _ _ _ => rfl⟩

theorem rootSection_frame (x : Collaborators Ref) (d : Ptr.JsonSchemaDocument Ref)
    (m : JsonMap) (p : Nat) (s : Ptr.Store Ref) :
    Ptr.Store.Frame p s (Ptr.rootSection x d m p s).2 := by
  unfold Ptr.rootSection
  split
  · split
    · exact frame_refl p s
    · split
      · rename_i schemaRef _
        rcases x.NewJsonReference schemaRef with ⟨schemaReference, err⟩
        have h1 : Ptr.Store.Frame p s
            ((s.addressOf schemaReference).2.assign p fun n =>
              { n with schema := some (s.addressOf schemaReference).1 }) :=
          frame_trans (frame_addressOf p s schemaReference) (frame_assign p _ _)
        cases err with
        | some e => exact h1
        | none =>
          simp only
          split
          · exact frame_trans h1 (frame_assign p _ _)
          · exact frame_trans h1 (frame_assign p _ _)
      · exact frame_refl p s
  · exact frame_refl p s

theorem setRef_frame (x : Collaborators Ref) (jsonReference : Ref) (p : Nat)
    (s : Ptr.Store Ref) : Ptr.Store.Frame p s (Ptr.setRef x jsonReference p s).2 := by
  unfold Ptr.setRef
  split
  · exact frame_trans (frame_addressOf p s jsonReference) (frame_assign p _ _)
  · split
    · exact frame_refl p s
    · split
      · exact frame_refl p s
      · rename_i inheritedReference _
        exact frame_trans (frame_addressOf p s inheritedReference) (frame_assign p _ _)
      · exact frame_assign p _ _

theorem resolve_frame (x : Collaborators Ref) (d : Ptr.JsonSchemaDocument Ref) (m : JsonMap)
    (p : Nat) (s : Ptr.Store Ref) : Ptr.Store.Frame p s (Ptr.resolve x d m p s).2.2 := by
  unfold Ptr.resolve
  split
  · exact frame_refl p s
  · simp only
    split
    · exact frame_requests p s _
    · split <;> exact frame_requests p s _

theorem refSection_frame (x : Collaborators Ref) (d : Ptr.JsonSchemaDocument Ref)
    (m : JsonMap) (p : Nat) (s : Ptr.Store Ref) :
    Ptr.Store.Frame p s (Ptr.refSection x d m p s).2.2 := by
  unfold Ptr.refSection
  split
  · exact frame_refl p s
  · split
    · split
      · exact frame_refl p s
      · rename_i jsonReference _
        have h1 := setRef_frame x jsonReference p s
        split
        · rename_i s2 heq
          rw [heq] at h1
          exact frame_trans h1 (resolve_frame x d m p s2)
        · rename_i out s2 _ heq
          rw [heq] at h1
          exact h1
    · exact frame_refl p s

theorem idKeyword_frame (m : JsonMap) (p : Nat) (s : Ptr.Store Ref) :
    Ptr.Store.Frame p s (Ptr.idKeyword m p s).2 := by
  unfold Ptr.idKeyword
  split
  · exact frame_refl p s
  · split
    · exact frame_assign p _ _
    · exact frame_refl p s

theorem titleKeyword_frame (m : JsonMap) (p : Nat) (s : Ptr.Store Ref) :
    Ptr.Store.Frame p s (Ptr.titleKeyword m p s).2 := by
  unfold Ptr.titleKeyword
  split
  · exact frame_refl p s
  · split
    · exact frame_assign p _ _
    · exact frame_refl p s

theorem descriptionKeyword_frame (m : JsonMap) (p : Nat) (s : Ptr.Store Ref) :
    Ptr.Store.Frame p s (Ptr.descriptionKeyword m p s).2 := by
  unfold Ptr.descriptionKeyword
  split
  · exact frame_refl p s
  · split
    · exact frame_assign p _ _
    · exact frame_refl p s

theorem typeKeyword_frame (m : JsonMap) (p : Nat) (s : Ptr.Store Ref) :
    Ptr.Store.Frame p s (Ptr.typeKeyword m p s).2 := by
  unfold Ptr.typeKeyword
  split
  · exact frame_refl p s
  · split
    · split
      · exact frame_refl p s
      · exact frame_assign p _ _
    · exact frame_refl p s

theorem andThen_frame (p : Nat) (s : Ptr.Store Ref) (r : Option Error × Ptr.Store Ref)
    (next : Ptr.Store Ref → Option Error × Ptr.Store Ref) (hr : Ptr.Store.Frame p s r.2)
    (hnext : ∀ t, Ptr.Store.Frame p t (next t).2) :
    Ptr.Store.Frame p s (Ptr.andThen r next).2 := by
  obtain ⟨e, t⟩ := r
  cases e with
  | some err => exact hr
  | none => exact frame_trans hr (hnext t)

theorem keywordSection_frame (m : JsonMap) (p : Nat) (s : Ptr.Store Ref) :
    Ptr.Store.Frame p s (Ptr.keywordSection m p s).2 := by
  unfold Ptr.keywordSection
  refine andThen_frame p s _ _ (idKeyword_frame m p s) fun t1 => ?_
  refine andThen_frame p t1 _ _ (titleKeyword_frame m p t1) fun t2 => ?_
  exact andThen_frame p t2 _ _ (descriptionKeyword_frame m p t2) fun t3 =>
    typeKeyword_frame m p t3

theorem forRange_frame (p : Nat) (body : String → Ptr.Store Ref → Outcome × Ptr.Store Ref)
    (hbody : ∀ k s, Ptr.Store.Frame p s (body k s).2) :
    ∀ (keys : List String) (s : Ptr.Store Ref), Ptr.Store.Frame p s (Ptr.forRange body keys s).2 := by
  intro keys
  induction keys with
  | nil => intro s; exact frame_refl p s
  | cons k ks ih =>
    intro s
    simp only [Ptr.forRange]
    split
    · exact frame_trans (hbody k s) (ih _)
    · exact hbody k s

/-- A new node registered with the node at `p` and then parsed by a call that keeps to
its own node: the nodes and references there were, the one at `p` apart, are as they
were. -/
theorem child_frame (call : Json → Nat → Ptr.Store Ref → Outcome × Ptr.Store Ref)
    (hcall : ∀ doc q s, Ptr.Store.Frame q s (call doc q s).2) (doc : Json) (p : Nat)
    (s : Ptr.Store Ref) (n : Ptr.JsonSchema) :
    Ptr.Store.Frame p s
      (call doc (s.alloc n).1 (Ptr.AddPropertiesChild p (s.alloc n).1 (s.alloc n).2)).2 :=
  frame_of_later (frame_trans (frame_alloc p s n) (frame_assign p _ _)) (Nat.le_refl _)
    (hcall doc _ _)

theorem parsePropertiesWith_frame (call : Json → Nat → Ptr.Store Ref → Outcome × Ptr.Store Ref)
    (hcall : ∀ doc q s, Ptr.Store.Frame q s (call doc q s).2) (doc : Json) (p : Nat)
    (s : Ptr.Store Ref) : Ptr.Store.Frame p s (Ptr.parsePropertiesWith call doc p s).2 := by
  unfold Ptr.parsePropertiesWith
  split
  · exact forRange_frame p _ (fun k t => child_frame call hcall _ p t _) _ s
  · exact frame_refl p s

theorem childrenSection_frame (call : Json → Nat → Ptr.Store Ref → Outcome × Ptr.Store Ref)
    (hcall : ∀ doc q s, Ptr.Store.Frame q s (call doc q s).2) (m : JsonMap) (p : Nat)
    (s : Ptr.Store Ref) : Ptr.Store.Frame p s (Ptr.childrenSection call m p s).2 := by
  have h1 : ∀ t, Ptr.Store.Frame p t
      (Ptr.forRange (Ptr.propertiesBody call m p) (mapKeys m) t).2 := fun t =>
    forRange_frame p _ (fun k u => by
      unfold Ptr.propertiesBody
      split
      · exact parsePropertiesWith_frame call hcall _ p u
      · exact frame_refl p u) _ t
  have h2 : ∀ t, Ptr.Store.Frame p t
      (Ptr.forRange (Ptr.itemsBody call m p) (mapKeys m) t).2 := fun t =>
    forRange_frame p _ (fun k u => by
      unfold Ptr.itemsBody
      split
      · exact child_frame call hcall _ p u _
      · exact frame_refl p u) _ t
  unfold Ptr.childrenSection
  simp only
  split
  · exact frame_trans (h1 s) (h2 _)
  · exact h1 s

theorem parseKeywords_frame (call : Json → Nat → Ptr.Store Ref → Outcome × Ptr.Store Ref)
    (hcall : ∀ doc q s, Ptr.Store.Frame q s (call doc q s).2) (m : JsonMap) (p : Nat)
    (s : Ptr.Store Ref) : Ptr.Store.Frame p s (Ptr.parseKeywords call m p s).2 := by
  have hk := keywordSection_frame m p s
  unfold Ptr.parseKeywords
  split
  · rename_i err t heq
    rw [heq] at hk
    exact hk
  · rename_i t heq
    rw [heq] at hk
    exact frame_trans hk (childrenSection_frame call hcall m p t)

/-- A call of `parseSchema` on the node at `p` writes to that node and to what it
allocates: every other node there was, and every reference there was, is as it was. -/
theorem parseSchema_frame (x : Collaborators Ref) (d : Ptr.JsonSchemaDocument Ref) :
    ∀ (fuel : Nat) (doc : Json) (p : Nat) (s : Ptr.Store Ref),
      Ptr.Store.Frame p s (Ptr.parseSchema x d fuel doc p s).2 := by
  intro fuel
  induction fuel with
  | zero => intro doc p s; exact frame_refl p s
  | succ fuel ih =>
    intro doc p s
    cases doc with
    | object m =>
      have hr := rootSection_frame x d m p s
      simp only [Ptr.parseSchema]
      split
      · rename_i err t heq
        rw [heq] at hr
        exact hr
      · rename_i t heq
        rw [heq] at hr
        have hf := refSection_frame x d m p t
        split
        · rename_i m2 t2 heq2
          rw [heq2] at hf
          exact frame_trans hr (frame_trans hf (parseKeywords_frame _ ih m2 p t2))
        · rename_i out m2 t2 _ heq2
          rw [heq2] at hf
          exact frame_trans hr hf
    | null => exact frame_refl p s
    | bool b => exact frame_refl p s
    | number n => exact frame_refl p s
    | string str => exact frame_refl p s
    | array xs => exact frame_refl p s

theorem getElem?_of_extension {α : Type} {l1 l2 : List α} (h : l1 <+: l2) (a : Nat) (r : α)
    (hr : l1[a]? = some r) : l2[a]? = some r := by
  obtain ⟨t, rfl⟩ := h
  have hlt : a < l1.length := by
    by_contra hge
    rw [List.getElem?_eq_none (Nat.le_of_not_lt hge)] at hr
    exact absurd hr (by simp)
  rw [List.getElem?_append_left hlt]
  exact hr

/-- Registering a child changes no `ref`. -/
theorem addPropertiesChild_ref (p c : Nat) (s : Ptr.Store Ref) (q : Nat) :
    (Ptr.AddPropertiesChild p c s).ref q = s.ref q := by
  unfold Ptr.AddPropertiesChild Ptr.Store.ref
  rw [assign_schemas]
  split
  · cases s.schemas[q]? <;> rfl
  · rfl

/-- One round of the loop of `parseProperties`, over a call that keeps to its own node,
leaves the `ref` pointers of the nodes there were, and the references there were. -/
theorem propertyBody_refs (call : Json → Nat → Ptr.Store Ref → Outcome × Ptr.Store Ref)
    (hcall : ∀ doc q s, Ptr.Store.Frame q s (call doc q s).2) (m : JsonMap) (p : Nat)
    (k : String) (s : Ptr.Store Ref) :
    s.references <+: (Ptr.propertyBody call m p k s).2.references
    ∧ s.schemas.length ≤ (Ptr.propertyBody call m p k s).2.schemas.length
    ∧ ∀ q, q < s.schemas.length → (Ptr.propertyBody call m p k s).2.ref q = s.ref q := by
  have hf := child_frame call hcall (mapIndex m k) p s
    { property := k, parent := some p, ref := s.ref p }
  have hc := hcall (mapIndex m k) s.schemas.length
    (Ptr.AddPropertiesChild p s.schemas.length
      (s.alloc { property := k, parent := some p, ref := s.ref p }).2)
  refine ⟨hf.1, hf.2.1, fun q hq => ?_⟩
  have hne : q ≠ s.schemas.length := Nat.ne_of_lt hq
  have hlen : q < (Ptr.AddPropertiesChild p s.schemas.length
      (s.alloc { property := k, parent := some p, ref := s.ref p }).2).schemas.length := by
    unfold Ptr.AddPropertiesChild
    rw [assign_length]
    simp only [Ptr.Store.alloc, List.length_append, List.length_singleton]
    omega
  have h1 := hc.2.2 q hlen hne
  have h2 := addPropertiesChild_ref p s.schemas.length
    (s.alloc { property := k, parent := some p, ref := s.ref p }).2 q
  have h3 : (s.alloc { property := k, parent := some p, ref := s.ref p }).2.ref q = s.ref q := by
    simp [Ptr.Store.ref, Ptr.Store.alloc, List.getElem?_append_left hq]
  show Ptr.Store.ref (call (mapIndex m k) s.schemas.length
    (Ptr.AddPropertiesChild p s.schemas.length
      (s.alloc { property := k, parent := some p, ref := s.ref p }).2)).2 q = s.ref q
  rw [← h3, ← h2]
  exact congrArg (fun o : Option Ptr.JsonSchema => o.bind fun n => n.ref) h1

theorem forRange_refs (body : String → Ptr.Store Ref → Outcome × Ptr.Store Ref)
    (hbody : ∀ k s, s.references <+: (body k s).2.references
      ∧ s.schemas.length ≤ (body k s).2.schemas.length
      ∧ ∀ q, q < s.schemas.length → (body k s).2.ref q = s.ref q) :
    ∀ (keys : List String) (s : Ptr.Store Ref),
      s.references <+: (Ptr.forRange body keys s).2.references
      ∧ s.schemas.length ≤ (Ptr.forRange body keys s).2.schemas.length
      ∧ ∀ q, q < s.schemas.length → (Ptr.forRange body keys s).2.ref q = s.ref q := by
  intro keys
  induction keys with
  | nil => intro s; exact ⟨List.prefix_refl _, Nat.le_refl _, fun _ _ => rfl⟩
  | cons k ks ih =>
    intro s
    simp only [Ptr.forRange]
    split
    · have h1 := hbody k s
      have h2 := ih (body k s).2
      exact ⟨h1.1.trans h2.1, Nat.le_trans h1.2.1 h2.2.1, fun q hq =>
        (h2.2.2 q (Nat.lt_of_lt_of_le hq h1.2.1)).trans (h1.2.2 q hq)⟩
    · exact hbody k s

/-- C19: a property child is created with the pointer `currentSchema.ref` of its parent
in its own `ref`, so that the two nodes share one reference.  After the child and its
whole subtree have been parsed, whatever `$ref` was resolved below, every node there
was before (the parent and the children created before among them) has the `ref`
pointer it had, and every reference there was has the value it had: the `ref` of each
of these nodes is the same value as before.  The same holds after a whole call of
`parseProperties`. -/
theorem property_child_ref_frame (x : Collaborators Ref) (d : Ptr.JsonSchemaDocument Ref)
    (fuel : Nat) (m : JsonMap) (k : String) (currentSchema : Nat) (s : Ptr.Store Ref) :
    (Ptr.AddPropertiesChild currentSchema s.schemas.length
        (s.alloc { property := k, parent := some currentSchema,
                   ref := s.ref currentSchema }).2).ref s.schemas.length
      = s.ref currentSchema
    ∧ (∀ q, q < s.schemas.length →
        (Ptr.propertyBody (Ptr.parseSchema x d fuel) m currentSchema k s).2.ref q = s.ref q)
    ∧ (∀ (a : Nat) (r : Ref), s.references[a]? = some r →
        (Ptr.propertyBody (Ptr.parseSchema x d fuel) m currentSchema k s).2.references[a]?
          = some r)
    ∧ (∀ q r, q < s.schemas.length → s.deref (s.ref q) = some r →
        (Ptr.propertyBody (Ptr.parseSchema x d fuel) m currentSchema k s).2.deref
          ((Ptr.propertyBody (Ptr.parseSchema x d fuel) m currentSchema k s).2.ref q) = some r)
    ∧ ∀ doc : Json,
        (∀ q, q < s.schemas.length →
          (Ptr.parseProperties x d fuel doc currentSchema s).2.ref q = s.ref q)
        ∧ (∀ (a : Nat) (r : Ref), s.references[a]? = some r →
          (Ptr.parseProperties x d fuel doc currentSchema s).2.references[a]? = some r) := by
  have hb := fun (kk : String) (t : Ptr.Store Ref) =>
    propertyBody_refs (Ptr.parseSchema x d fuel) (parseSchema_frame x d fuel) m currentSchema kk t
  have h := hb k s
  refine ⟨?_, h.2.2, fun a r hr => getElem?_of_extension h.1 a r hr, fun q r hq hr => ?_,
    fun doc => ?_⟩
  · rw [addPropertiesChild_ref]
    simp [Ptr.Store.ref, Ptr.Store.alloc]
  · rw [h.2.2 q hq]
    unfold Ptr.Store.deref at hr ⊢
    rcases hp : s.ref q with _ | a
    · rw [hp] at hr
      simp at hr
    · rw [hp] at hr
      exact getElem?_of_extension h.1 a r hr
  · unfold Ptr.parseProperties Ptr.parsePropertiesWith
    split
    · rename_i ps
      have hl := forRange_refs (Ptr.propertyBody (Ptr.parseSchema x d fuel) ps currentSchema)
        (fun kk t => propertyBody_refs (Ptr.parseSchema x d fuel) (parseSchema_frame x d fuel)
          ps currentSchema kk t) (mapKeys ps) s
      exact ⟨hl.2.2, fun a r hr => getElem?_of_extension hl.1 a r hr⟩
    · exact ⟨fun _ _ => rfl, fun _ _ hr => hr⟩

theorem property_child_ref_frame_witness :
    ((Ptr.parseProperties exampleCollaborators
        (examplePtrDocument [("http://example.org/root.json", exampleDefinitions)]) 1
        (Json.object
          [("y", Json.object [("type", Json.string "string")]),
           ("z", Json.object [("$ref", Json.string "#/definitions/a")])])
        1 exampleStore).2.ref 1 = exampleStore.ref 1
      ∧ (Ptr.parseProperties exampleCollaborators
        (examplePtrDocument [("http://example.org/root.json", exampleDefinitions)]) 1
        (Json.object
          [("y", Json.object [("type", Json.string "string")]),
           ("z", Json.object [("$ref", Json.string "#/definitions/a")])])
        1 exampleStore).2.ref 0 = exampleStore.ref 0)
    ∧ (Ptr.parseProperties exampleCollaborators
        (examplePtrDocument [("http://example.org/root.json", exampleDefinitions)]) 1
        (Json.object
          [("y", Json.object [("type", Json.string "string")]),
           ("z", Json.object [("$ref", Json.string "#/definitions/a")])])
        1 exampleStore).1 = Outcome.ok
    ∧ (Ptr.parseProperties exampleCollaborators
        (examplePtrDocument [("http://example.org/root.json", exampleDefinitions)]) 1
        (Json.object
          [("y", Json.object [("type", Json.string "string")]),
           ("z", Json.object [("$ref", Json.string "#/definitions/a")])])
        1 exampleStore).2.schemas.map (fun n => (n.property, n.ref))
      = [("(root)", some 0), ("x", some 0), ("y", some 0), ("z", some 1)]
    ∧ (Ptr.parseProperties exampleCollaborators
        (examplePtrDocument [("http://example.org/root.json", exampleDefinitions)]) 1
        (Json.object
          [("y", Json.object [("type", Json.string "string")]),
           ("z", Json.object [("$ref", Json.string "#/definitions/a")])])
        1 exampleStore).2.references
      = [⟨"http://example.org/root.json", [], true⟩,
         ⟨"http://example.org/root.json", ["definitions", "a"], true⟩] :=
  ⟨⟨((property_child_ref_frame exampleCollaborators
        (examplePtrDocument [("http://example.org/root.json", exampleDefinitions)]) 1 [] ""
        1 exampleStore).2.2.2.2 _).1 1 (by decide),
      ((property_child_ref_frame exampleCollaborators
        (examplePtrDocument [("http://example.org/root.json", exampleDefinitions)]) 1 [] ""
        1 exampleStore).2.2.2.2 _).1 0 (by decide)⟩,
    by decide, by decide, by decide⟩

/-! ## Independence of the enumeration order -/

theorem reordered_cases {a b : Json} (h : Reordered a b) :
    (b = a ∧ kindOf a ≠ Kind.Map) ∨ (∃ xs ys, a = Json.array xs ∧ b = Json.array ys)
    ∨ ∃ m1 m2, a = Json.object m1 ∧ b = Json.object m2 := by
  cases h with
  | atom _ hv => exact Or.inl ⟨rfl, hv⟩
  | array xs ys => exact Or.inr (Or.inl ⟨xs, ys, rfl, rfl⟩)
  | object m1 m2 => exact Or.inr (Or.inr ⟨m1, m2, rfl, rfl⟩)

theorem reordered_object_inv {m1 m2 : JsonMap} (h : Reordered (Json.object m1) (Json.object m2)) :
    (mapKeys m1).Nodup ∧ (mapKeys m2).Nodup ∧ (∀ k, k ∈ mapKeys m1 ↔ k ∈ mapKeys m2)
    ∧ ∀ k v1 v2, m1.lookup k = some v1 → m2.lookup k = some v2 → Reordered v1 v2 := by
  cases h with
  | atom _ h => exact absurd rfl h
  | object _ _ h1 h2 hkeys hval => exact ⟨h1, h2, hkeys, hval⟩

theorem lookup_isSome_of_mem (m : JsonMap) (k : String) (h : k ∈ mapKeys m) :
    ∃ v, m.lookup k = some v := by
  have := (existsMapKey_iff_mem m k).2 h
  rcases hl : m.lookup k with _ | v
  · simp [existsMapKey, hl] at this
  · exact ⟨v, rfl⟩

/-- A value that is the same as another up to the enumeration order is the same as
itself up to that order. -/
theorem reordered_left {a b : Json} (h : Reordered a b) : Reordered a a := by
  induction h with
  | atom v hv => exact Reordered.atom v hv
  | array xs ys hlen h ih =>
    refine Reordered.array xs xs rfl fun i v w hv hw => ?_
    have hvw : v = w := Option.some.inj (hv.symm.trans hw)
    subst hvw
    have hlt : i < ys.length := by
      rw [← hlen]
      by_contra hge
      rw [List.getElem?_eq_none (Nat.le_of_not_lt hge)] at hv
      exact absurd hv (by simp)
    exact ih i v ys[i] hv (List.getElem?_eq_getElem hlt)
  | object m1 m2 h1 h2 hkeys hval ih =>
    refine Reordered.object m1 m1 h1 h1 (fun _ => Iff.rfl) fun k v1 v2 hv1 hv2 => ?_
    have hvw : v1 = v2 := Option.some.inj (hv1.symm.trans hv2)
    subst hvw
    obtain ⟨w, hw⟩ := lookup_isSome_of_mem m2 k ((hkeys k).1 (mem_mapKeys_of_lookup m1 k v1 hv1))
    exact ih k v1 w hv1 hw

/-- Under a key, two mappings that are the same up to the enumeration order both hold
nothing, or hold values that are the same up to that order. -/
theorem reordered_lookup {m1 m2 : JsonMap} (h : Reordered (Json.object m1) (Json.object m2))
    (k : String) :
    (m1.lookup k = none ∧ m2.lookup k = none)
    ∨ ∃ v1 v2, m1.lookup k = some v1 ∧ m2.lookup k = some v2 ∧ Reordered v1 v2 := by
  obtain ⟨_, _, hkeys, hval⟩ := reordered_object_inv h
  by_cases hk : k ∈ mapKeys m1
  · obtain ⟨v1, hv1⟩ := lookup_isSome_of_mem m1 k hk
    obtain ⟨v2, hv2⟩ := lookup_isSome_of_mem m2 k ((hkeys k).1 hk)
    exact Or.inr ⟨v1, v2, hv1, hv2, hval k v1 v2 hv1 hv2⟩
  · exact Or.inl ⟨lookup_eq_none_of_not_mem m1 k hk,
      lookup_eq_none_of_not_mem m2 k (fun h2 => hk ((hkeys k).2 h2))⟩

theorem wrongKind_reordered {m1 m2 : JsonMap}
    (h : Reordered (Json.object m1) (Json.object m2)) (k : String) :
    wrongKind m1 k = wrongKind m2 k := by
  unfold wrongKind
  rcases reordered_lookup h k with ⟨h1, h2⟩ | ⟨v1, v2, h1, h2, hr⟩
  · rw [h1, h2]
  · rw [h1, h2]
    cases hr with
    | atom => rfl
    | array => rfl
    | object => rfl

theorem typeInvalid_reordered {m1 m2 : JsonMap}
    (h : Reordered (Json.object m1) (Json.object m2)) (property : String) :
    typeInvalid m1 property = typeInvalid m2 property := by
  unfold typeInvalid
  rcases reordered_lookup h KEY_TYPE with ⟨h1, h2⟩ | ⟨v1, v2, h1, h2, hr⟩
  · rw [h1, h2]
  · rw [h1, h2]
    cases hr with
    | atom => rfl
    | array => rfl
    | object => rfl

/-- The four keyword checks return the same error on two mappings that are the same up
to the enumeration order, for two nodes with the same label. -/
theorem keywordSection_reordered {m1 m2 : JsonMap}
    (h : Reordered (Json.object m1) (Json.object m2)) (cur1 cur2 : JsonSchema Ref)
    (hp : cur1.property = cur2.property) :
    (keywordSection m1 cur1).1 = (keywordSection m2 cur2).1 := by
  rw [keywordSection_fst, keywordSection_fst, wrongKind_reordered h KEY_ID,
    wrongKind_reordered h KEY_TITLE, wrongKind_reordered h KEY_DESCRIPTION,
    typeInvalid_reordered h, hp]

theorem childrenSection_next_le (call : Json → JsonSchema Ref → St Ref → Res Ref)
    (hcall : ∀ doc cur st, st.next ≤ (call doc cur st).st.next) (m : JsonMap)
    (cur : JsonSchema Ref) (st : St Ref) :
    st.next ≤ (forRange (propertiesBody call m) (mapKeys m) cur st).st.next
    ∧ st.next ≤ (childrenSection call m cur st).st.next := by
  have hprop : ∀ (ps : JsonMap) (c : JsonSchema Ref) (s : St Ref),
      s.next ≤ (parsePropertiesWith call (Json.object ps) c s).st.next := by
    intro ps c s
    simp only [parsePropertiesWith]
    refine forRange_always_state (fun _ s2 => s.next ≤ s2.next) _ (fun k c2 s2 h2 => ?_) _ c s
      (Nat.le_refl _)
    simp only [propertyBody]
    exact Nat.le_trans (Nat.le_trans h2 (Nat.le_succ _))
      (hcall _ _ { s2 with next := s2.next + 1 })
  have h1 : ∀ (c : JsonSchema Ref) (s : St Ref),
      s.next ≤ (forRange (propertiesBody call m) (mapKeys m) c s).st.next := by
    intro c s
    refine forRange_always_state (fun _ s2 => s.next ≤ s2.next) _ (fun k c2 s2 h2 => ?_) _ c s
      (Nat.le_refl _)
    simp only [propertiesBody]
    split
    · cases hv : mapIndex m k with
      | object ps => exact Nat.le_trans h2 (hprop ps c2 s2)
      | null => exact h2
      | bool b => exact h2
      | number n => exact h2
      | string str => exact h2
      | array xs => exact h2
    · exact h2
  have h2 : ∀ (c : JsonSchema Ref) (s : St Ref),
      s.next ≤ (forRange (itemsBody call m) (mapKeys m) c s).st.next := by
    intro c s
    refine forRange_always_state (fun _ s2 => s.next ≤ s2.next) _ (fun k c2 s2 h2 => ?_) _ c s
      (Nat.le_refl _)
    simp only [itemsBody]
    split
    · exact Nat.le_trans (Nat.le_trans h2 (Nat.le_succ _))
        (hcall _ _ { s2 with next := s2.next + 1 })
    · exact h2
  refine ⟨h1 cur st, ?_⟩
  simp only [childrenSection]
  split
  · exact Nat.le_trans (h1 cur st) (h2 _ _)
  · exact h1 cur st

/-- A call of `parseSchema` never lowers the next free address. -/
theorem parseSchema_next_le (x : Collaborators Ref) (d : JsonSchemaDocument Ref) :
    ∀ (fuel : Nat) (doc : Json) (cur : JsonSchema Ref) (st : St Ref),
      st.next ≤ (parseSchema x d fuel doc cur st).st.next := by
  intro fuel
  induction fuel with
  | zero => intro doc cur st; simp [parseSchema]
  | succ fuel ih =>
    intro doc cur st
    cases doc with
    | object m =>
      simp only [parseSchema]
      split
      · exact Nat.le_refl _
      · split
        · simp only [parseKeywords]
          split
          · exact Nat.le_of_eq (refSection_st_next x d m _ st).symm
          · exact Nat.le_trans (Nat.le_of_eq (refSection_st_next x d m _ st).symm)
              (childrenSection_next_le _ ih _ _ _).2
        · exact Nat.le_of_eq (refSection_st_next x d m _ st).symm
    | null => simp [parseSchema]
    | bool b => simp [parseSchema]
    | number n => simp [parseSchema]
    | string str => simp [parseSchema]
    | array xs => simp [parseSchema]

theorem existsMapKey_reordered {m1 m2 : JsonMap}
    (h : Reordered (Json.object m1) (Json.object m2)) (k : String) :
    existsMapKey m1 k = existsMapKey m2 k := by
  unfold existsMapKey
  rcases reordered_lookup h k with ⟨h1, h2⟩ | ⟨v1, v2, h1, h2, _⟩
  · rw [h1, h2]
  · rw [h1, h2]
    rfl

/-- The `$schema` section returns the same error on two mappings that are the same up
to the enumeration order, for two nodes that are both the root or both not, and leaves
them with the same `ref` when they had the same `ref`. -/
theorem rootSection_reordered (x : Collaborators Ref) (d1 d2 : JsonSchemaDocument Ref)
    (hdoc : d1.documentReference = d2.documentReference) {m1 m2 : JsonMap}
    (h : Reordered (Json.object m1) (Json.object m2)) (cur1 cur2 : JsonSchema Ref)
    (hroot : some cur1.addr = d1.rootSchema ↔ some cur2.addr = d2.rootSchema)
    (href : cur1.ref = cur2.ref) :
    (rootSection x d1 m1 cur1).1 = (rootSection x d2 m2 cur2).1
    ∧ (rootSection x d1 m1 cur1).2.ref = (rootSection x d2 m2 cur2).2.ref := by
  have he1 := existsMapKey_reordered h KEY_SCHEMA
  have he2 := existsMapKey_reordered h KEY_REF
  unfold rootSection
  by_cases hr : some cur1.addr = d1.rootSchema
  · have hr2 := hroot.1 hr
    simp only [hr, hr2, if_true, he1, he2]
    by_cases hs : existsMapKey m2 KEY_SCHEMA = true
    · simp only [hs, Bool.not_true, Bool.false_eq_true, if_false]
      rcases reordered_lookup h KEY_SCHEMA with ⟨h1, h2⟩ | ⟨v1, v2, h1, h2, hr⟩
      · simp [existsMapKey, h2] at hs
      · simp only [mapIndex, h1, h2, Option.getD_some]
        rcases reordered_cases hr with ⟨hv, _⟩ | ⟨xs, ys, hxs, hys⟩ | ⟨o1, o2, ho1, ho2⟩
        · rw [hv]
          cases v1 with
          | string s =>
            simp only
            rcases x.NewJsonReference s with ⟨schemaReference, _ | err⟩
            · simp only [hdoc]
              split <;> exact ⟨rfl, rfl⟩
            · exact ⟨rfl, href⟩
          | null => exact ⟨rfl, href⟩
          | bool b => exact ⟨rfl, href⟩
          | number n => exact ⟨rfl, href⟩
          | array xs => exact ⟨rfl, href⟩
          | object o => exact ⟨rfl, href⟩
        · subst hxs hys
          exact ⟨rfl, href⟩
        · subst ho1 ho2
          exact ⟨rfl, href⟩
    · have hs2 : existsMapKey m2 KEY_SCHEMA = false := by simpa using hs
      simp only [hs2, Bool.not_false, if_true]
      exact ⟨by trivial, href⟩
  · have hr2 : ¬ (some cur2.addr = d2.rootSchema) := fun h2 => hr (hroot.2 h2)
    simp only [hr, hr2, if_false]
    exact ⟨by trivial, href⟩

theorem setRef_reordered (x : Collaborators Ref) (jsonReference : Ref)
    (cur1 cur2 : JsonSchema Ref) (href : cur1.ref = cur2.ref) :
    (setRef x jsonReference cur1).1 = (setRef x jsonReference cur2).1
    ∧ (setRef x jsonReference cur1).2.ref = (setRef x jsonReference cur2).2.ref := by
  unfold setRef
  split
  · exact ⟨rfl, rfl⟩
  · rw [href]
    split
    · exact ⟨rfl, href⟩
    · split
      · exact ⟨rfl, href⟩
      · exact ⟨rfl, rfl⟩

/-- In two worlds whose pools hold the same documents up to the enumeration order, the
resolution of the `ref` of two nodes with the same `ref` has the same outcome, and on
success it leaves mappings that are the same up to that order. -/
theorem resolve_reordered (x : Collaborators Ref) (hx : x.OrderBlind)
    (d1 d2 : JsonSchemaDocument Ref) (hpool : d1.pool.SameUpToOrder d2.pool)
    (m1 m2 : JsonMap) (cur1 cur2 : JsonSchema Ref) (st1 st2 : St Ref)
    (href : cur1.ref = cur2.ref) :
    (resolve x d1 m1 cur1 st1).out = (resolve x d2 m2 cur2 st2).out
    ∧ ((resolve x d1 m1 cur1 st1).out = Outcome.ok →
        Reordered (Json.object (resolve x d1 m1 cur1 st1).m)
          (Json.object (resolve x d2 m2 cur2 st2).m)) := by
  unfold resolve
  rw [href]
  rcases cur2.ref with _ | ref
  · exact ⟨rfl, fun h => by simp at h⟩
  · simp only
    have hp := hpool ref
    rcases h1 : d1.pool.GetPoolDocument ref with e1 | a <;>
      rcases h2 : d2.pool.GetPoolDocument ref with e2 | b <;> rw [h1, h2] at hp
    · simp only at hp
      subst hp
      exact ⟨rfl, fun h => by simp at h⟩
    · exact absurd hp (by simp)
    · exact absurd hp (by simp)
    · simp only at hp ⊢
      have hg := hx ref a b hp
      rcases hga : x.PointerGet ref a with ⟨va, ea⟩
      rcases hgb : x.PointerGet ref b with ⟨vb, eb⟩
      rw [hga, hgb] at hg
      simp only at hg
      obtain ⟨hge, hgv⟩ := hg
      subst hge
      cases ea with
      | some err => exact ⟨by simp, fun h => by simp at h⟩
      | none =>
        rcases reordered_cases hgv with ⟨hv, hk⟩ | ⟨xs, ys, hxs, hys⟩ | ⟨o1, o2, ho1, ho2⟩
        · rw [hv]
          cases va with
          | object o => exact absurd rfl hk
          | null => exact ⟨rfl, fun h => by simp at h⟩
          | bool b => exact ⟨rfl, fun h => by simp at h⟩
          | number n => exact ⟨rfl, fun h => by simp at h⟩
          | string s => exact ⟨rfl, fun h => by simp at h⟩
          | array xs => exact ⟨rfl, fun h => by simp at h⟩
        · subst hxs hys
          exact ⟨rfl, fun h => by simp at h⟩
        · subst ho1 ho2
          exact ⟨rfl, fun _ => hgv⟩

/-- In two worlds whose pools hold the same documents up to the enumeration order, the
`$ref` section has the same outcome on two mappings that are the same up to that order,
for two nodes with the same `ref`; on success it leaves mappings that are the same up
to that order, and in any case nodes with the same `ref`. -/
theorem refSection_reordered (x : Collaborators Ref) (hx : x.OrderBlind)
    (d1 d2 : JsonSchemaDocument Ref) (hpool : d1.pool.SameUpToOrder d2.pool)
    {m1 m2 : JsonMap} (h : Reordered (Json.object m1) (Json.object m2))
    (cur1 cur2 : JsonSchema Ref) (st1 st2 : St Ref) (href : cur1.ref = cur2.ref) :
    (refSection x d1 m1 cur1 st1).out = (refSection x d2 m2 cur2 st2).out
    ∧ ((refSection x d1 m1 cur1 st1).out = Outcome.ok →
        Reordered (Json.object (refSection x d1 m1 cur1 st1).m)
          (Json.object (refSection x d2 m2 cur2 st2).m))
    ∧ (refSection x d1 m1 cur1 st1).node.ref = (refSection x d2 m2 cur2 st2).node.ref := by
  have hnot : ∀ (hn1 : ∀ k, m1.lookup KEY_REF ≠ some (Json.string k))
      (hn2 : ∀ k, m2.lookup KEY_REF ≠ some (Json.string k))
      (_ : (m1.lookup KEY_REF).isSome = (m2.lookup KEY_REF).isSome),
      (refSection x d1 m1 cur1 st1).out = (refSection x d2 m2 cur2 st2).out
      ∧ ((refSection x d1 m1 cur1 st1).out = Outcome.ok →
          Reordered (Json.object (refSection x d1 m1 cur1 st1).m)
            (Json.object (refSection x d2 m2 cur2 st2).m))
      ∧ (refSection x d1 m1 cur1 st1).node.ref
          = (refSection x d2 m2 cur2 st2).node.ref := by
    intro hn1 hn2 hsome
    rw [refSection_not_string x d1 m1 cur1 st1 hn1, refSection_not_string x d2 m2 cur2 st2 hn2,
      hsome]
    exact ⟨rfl, fun _ => h, href⟩
  rcases reordered_lookup h KEY_REF with ⟨h1, h2⟩ | ⟨v1, v2, h1, h2, hr⟩
  · exact hnot (fun k hk => by rw [h1] at hk; simp at hk)
      (fun k hk => by rw [h2] at hk; simp at hk) (by rw [h1, h2])
  · rcases reordered_cases hr with ⟨hv, _⟩ | ⟨xs, ys, hxs, hys⟩ | ⟨o1, o2, ho1, ho2⟩
    · rw [hv] at h2
      by_cases hstr : ∃ k, v1 = Json.string k
      · obtain ⟨k, hk⟩ := hstr
        rw [hk] at h1 h2
        rw [refSection_of_ref x d1 m1 k cur1 st1 h1, refSection_of_ref x d2 m2 k cur2 st2 h2]
        rcases x.NewJsonReference k with ⟨jsonReference, _ | err⟩
        · simp only
          have hs := setRef_reordered x jsonReference cur1 cur2 href
          rcases hs1 : setRef x jsonReference cur1 with ⟨out1, c1⟩
          rcases hs2 : setRef x jsonReference cur2 with ⟨out2, c2⟩
          rw [hs1, hs2] at hs
          simp only at hs
          obtain ⟨hout, hcref⟩ := hs
          subst hout
          cases out1 with
          | ok =>
            simp only
            have hres := resolve_reordered x hx d1 d2 hpool m1 m2 c1 c2 st1 st2 hcref
            refine ⟨hres.1, hres.2, ?_⟩
            rw [resolve_node, resolve_node]
            exact hcref
          | error e => exact ⟨rfl, fun hc => by simp at hc, hcref⟩
          | nilDereference => exact ⟨rfl, fun hc => by simp at hc, hcref⟩
          | outOfFuel => exact ⟨rfl, fun hc => by simp at hc, hcref⟩
        · exact ⟨rfl, fun hc => by simp at hc, href⟩
      · exact hnot (fun k hk => hstr ⟨k, Option.some.inj (h1.symm.trans hk)⟩)
          (fun k hk => hstr ⟨k, Option.some.inj (h2.symm.trans hk)⟩) (by rw [h1, h2])
    · rw [hxs] at h1
      rw [hys] at h2
      exact hnot (fun k hk => by rw [h1] at hk; simp at hk)
        (fun k hk => by rw [h2] at hk; simp at hk) (by rw [h1, h2]; rfl)
    · rw [ho1] at h1
      rw [ho2] at h2
      exact hnot (fun k hk => by rw [h1] at hk; simp at hk)
        (fun k hk => by rw [h2] at hk; simp at hk) (by rw [h1, h2]; rfl)

theorem firstFailure_ok (l : List Outcome) :
    firstFailure l = Outcome.ok ↔ ∀ o ∈ l, o = Outcome.ok := by
  induction l with
  | nil => simp [firstFailure]
  | cons o os ih =>
    by_cases ho : o = Outcome.ok
    · simp [firstFailure, ho, ih]
    · simp [firstFailure, ho]

theorem firstFailure_mem (l : List Outcome) (h : firstFailure l ≠ Outcome.ok) :
    firstFailure l ∈ l := by
  induction l with
  | nil => exact absurd rfl h
  | cons o os ih =>
    by_cases ho : o = Outcome.ok
    · simp only [firstFailure, ho, if_true] at h ⊢
      exact List.mem_cons_of_mem _ (ih h)
    · simp [firstFailure, ho]

/-- The first failure of a list does not depend on the order of the list when all the
failures in it are the same. -/
theorem firstFailure_unique (l1 l2 : List Outcome) (hmem : ∀ o, o ∈ l1 ↔ o ∈ l2)
    (hsame : ∀ a ∈ l1, ∀ b ∈ l1, a ≠ Outcome.ok → b ≠ Outcome.ok → a = b) :
    firstFailure l1 = firstFailure l2 := by
  by_cases h1 : firstFailure l1 = Outcome.ok
  · have h2 : firstFailure l2 = Outcome.ok :=
      (firstFailure_ok l2).2 fun o ho => (firstFailure_ok l1).1 h1 o ((hmem o).2 ho)
    rw [h1, h2]
  · have h2 : firstFailure l2 ≠ Outcome.ok := fun h2 =>
      h1 ((firstFailure_ok l1).2 fun o ho => (firstFailure_ok l2).1 h2 o ((hmem o).1 ho))
    exact hsame _ (firstFailure_mem l1 h1) _ ((hmem _).2 (firstFailure_mem l2 h2)) h1 h2

/-- The outcome of the loop of `parseProperties` is the first failure among the
outcomes of its entries, when the outcome of an entry does not depend on the entries
parsed before it. -/
theorem propertyLoop_out (call : Json → JsonSchema Ref → St Ref → Res Ref) (ps : JsonMap)
    (o : String → Outcome) (I : JsonSchema Ref → St Ref → Prop) :
    ∀ (keys : List String),
      (∀ k ∈ keys, ∀ c s, I c s →
        (call (mapIndex ps k) (newPropertySchema k c s) { s with next := s.next + 1 }).out = o k
        ∧ I (c.AddPropertiesChild
              (call (mapIndex ps k) (newPropertySchema k c s)
                { s with next := s.next + 1 }).node)
            (call (mapIndex ps k) (newPropertySchema k c s) { s with next := s.next + 1 }).st) →
      ∀ (c : JsonSchema Ref) (s : St Ref), I c s →
        (forRange (propertyBody call ps) keys c s).out = firstFailure (keys.map o) := by
  intro keys
  induction keys with
  | nil => intro _ c s _; rfl
  | cons k ks ih =>
    intro hbody c s hI
    have hk := hbody k (List.mem_cons_self k ks) c s hI
    simp only [forRange, List.map_cons, firstFailure]
    have hout : (propertyBody call ps k c s).out = o k := hk.1
    rw [hout]
    by_cases ho : o k = Outcome.ok
    · simp only [ho, if_true]
      exact ih (fun k2 hk2 => hbody k2 (List.mem_cons_of_mem k hk2)) _ _ hk.2
    · simp only [ho, if_false]
      exact hout

/-- What `Unambiguous` says of a node that passes its keyword checks: in its
`properties` mapping every entry is unambiguous and no two entries fail in different
ways when parsed first, and its `items` value is unambiguous when it is reached. -/
theorem unambiguous_children (x : Collaborators Ref) (d : JsonSchemaDocument Ref) (fuel : Nat)
    (m : JsonMap) (cur c1 k1 : JsonSchema Ref) (st : St Ref)
    (hr : rootSection x d m cur = (none, c1))
    (hok : (refSection x d m c1 st).out = Outcome.ok)
    (hk : keywordSection (refSection x d m c1 st).m (refSection x d m c1 st).node = (none, k1))
    (hU : Unambiguous x d (fuel + 1) (Json.object m) cur st = true) :
    (∀ ps, (refSection x d m c1 st).m.lookup KEY_PROPERTIES = some (Json.object ps) →
      ∀ k ∈ mapKeys ps,
        Unambiguous x d fuel (mapIndex ps k)
            (newPropertySchema k k1 (refSection x d m c1 st).st)
            { (refSection x d m c1 st).st with next := (refSection x d m c1 st).st.next + 1 }
          = true
        ∧ ∀ k2 ∈ mapKeys ps,
          entryOutcome (parseSchema x d fuel) ps k1 (refSection x d m c1 st).st k = Outcome.ok
          ∨ entryOutcome (parseSchema x d fuel) ps k1 (refSection x d m c1 st).st k2
              = Outcome.ok
          ∨ entryOutcome (parseSchema x d fuel) ps k1 (refSection x d m c1 st).st k
              = entryOutcome (parseSchema x d fuel) ps k1 (refSection x d m c1 st).st k2)
    ∧ (∀ v, (refSection x d m c1 st).m.lookup KEY_ITEMS = some v →
        (forRange (propertiesBody (parseSchema x d fuel) (refSection x d m c1 st).m)
          (mapKeys (refSection x d m c1 st).m) k1 (refSection x d m c1 st).st).out = Outcome.ok →
        Unambiguous x d fuel v
          (newItemsSchema
            (forRange (propertiesBody (parseSchema x d fuel) (refSection x d m c1 st).m)
              (mapKeys (refSection x d m c1 st).m) k1 (refSection x d m c1 st).st).node
            (forRange (propertiesBody (parseSchema x d fuel) (refSection x d m c1 st).m)
              (mapKeys (refSection x d m c1 st).m) k1 (refSection x d m c1 st).st).st)
          { (forRange (propertiesBody (parseSchema x d fuel) (refSection x d m c1 st).m)
              (mapKeys (refSection x d m c1 st).m) k1 (refSection x d m c1 st).st).st with
            next := (forRange (propertiesBody (parseSchema x d fuel) (refSection x d m c1 st).m)
              (mapKeys (refSection x d m c1 st).m) k1
              (refSection x d m c1 st).st).st.next + 1 } = true) := by
  simp only [Unambiguous, hr, hok, if_true, hk, Bool.and_eq_true] at hU
  obtain ⟨hU1, hU2⟩ := hU
  constructor
  · intro ps hps k hkm
    rw [hps] at hU1
    simp only [List.all_eq_true, Bool.and_eq_true, decide_eq_true_eq] at hU1
    exact hU1 k hkm
  · intro v hv hP
    rw [hv] at hU2
    simpa only [hP, if_true] using hU2

/-- The outcome of `parseSchema` is the same in two worlds whose pools hold the same
documents up to the enumeration order, on two documents that are the same up to that
order and two nodes with the same `ref` and label, both the root or both not, when the
first document is unambiguous. -/
theorem parseSchema_out_reordered (x : Collaborators Ref) (hx : x.OrderBlind) :
    ∀ (fuel : Nat) (d1 d2 : JsonSchemaDocument Ref),
      d1.documentReference = d2.documentReference → d1.pool.SameUpToOrder d2.pool →
      ∀ (doc1 doc2 : Json) (cur1 cur2 : JsonSchema Ref) (st1 st2 : St Ref),
        Reordered doc1 doc2 → cur1.ref = cur2.ref → cur1.property = cur2.property →
        (some cur1.addr = d1.rootSchema ↔ some cur2.addr = d2.rootSchema) →
        (∀ a, d1.rootSchema = some a → a < st1.next) →
        (∀ a, d2.rootSchema = some a → a < st2.next) →
        Unambiguous x d1 fuel doc1 cur1 st1 = true →
        (parseSchema x d1 fuel doc1 cur1 st1).out
          = (parseSchema x d2 fuel doc2 cur2 st2).out := by
  intro fuel
  induction fuel with
  | zero => intros; simp [parseSchema]
  | succ fuel ih =>
    intro d1 d2 hdoc hpool doc1 doc2 cur1 cur2 st1 st2 hre href hprop hroot hf1 hf2 hU
    rcases reordered_cases hre with ⟨hv, hkind⟩ | ⟨xs, ys, hxs, hys⟩ | ⟨m1, m2, hm1, hm2⟩
    · rw [hv]
      cases doc1 with
      | object o => exact absurd rfl hkind
      | null => simp [parseSchema]
      | bool b => simp [parseSchema]
      | number n => simp [parseSchema]
      | string s => simp [parseSchema]
      | array zs => simp [parseSchema]
    · rw [hxs, hys]
      simp [parseSchema]
    · subst hm1 hm2
      -- the `$schema` section
      have hrs := rootSection_reordered x d1 d2 hdoc hre cur1 cur2 hroot href
      have hl1 := rootSection_links x d1 m1 cur1
      have hl2 := rootSection_links x d2 m2 cur2
      rcases hr1 : rootSection x d1 m1 cur1 with ⟨e1, c1⟩
      rcases hr2 : rootSection x d2 m2 cur2 with ⟨e2, c2⟩
      rw [hr1] at hrs hl1
      rw [hr2] at hrs hl2
      simp only at hrs hl1 hl2
      obtain ⟨he, hcref⟩ := hrs
      subst he
      simp only [parseSchema, hr1, hr2]
      cases e1 with
      | some err => rfl
      | none =>
        simp only
        -- the `$ref` section
        have hfs := refSection_reordered x hx d1 d2 hpool hre c1 c2 st1 st2 hcref
        have hn1 := refSection_links x d1 m1 c1 st1
        have hn2 := refSection_links x d2 m2 c2 st2
        have hs1 := refSection_st_next x d1 m1 c1 st1
        have hs2 := refSection_st_next x d2 m2 c2 st2
        by_cases hok : (refSection x d1 m1 c1 st1).out = Outcome.ok
        · have hok2 : (refSection x d2 m2 c2 st2).out = Outcome.ok := hfs.1 ▸ hok
          simp only [hok, hok2, if_true]
          have ht := hfs.2.1 hok
          obtain ⟨hnd1, hnd2, hkeys, hval⟩ := reordered_object_inv ht
          have hnprop : (refSection x d1 m1 c1 st1).node.property
              = (refSection x d2 m2 c2 st2).node.property := by
            rw [hn1.2.1, hn2.2.1, hl1.2.1, hl2.2.1, hprop]
          -- the keywords `$id`, `title`, `description`, `type`
          have hks := keywordSection_reordered ht _ _ hnprop
          have hg1 := keywordSection_grown (refSection x d1 m1 c1 st1).m
            (refSection x d1 m1 c1 st1).node
          have hg2 := keywordSection_grown (refSection x d2 m2 c2 st2).m
            (refSection x d2 m2 c2 st2).node
          rcases hk1 : keywordSection (refSection x d1 m1 c1 st1).m
            (refSection x d1 m1 c1 st1).node with ⟨ke1, k1⟩
          rcases hk2 : keywordSection (refSection x d2 m2 c2 st2).m
            (refSection x d2 m2 c2 st2).node with ⟨ke2, k2⟩
          rw [hk1] at hks hg1
          rw [hk2] at hks hg2
          simp only at hks hg1 hg2
          subst hks
          simp only [parseKeywords, hk1, hk2]
          cases ke1 with
          | some err => rfl
          | none =>
            simp only
            obtain ⟨hUp, hUi⟩ := unambiguous_children x d1 fuel m1 cur1 c1 k1 st1 hr1 hok hk1 hU
            have hkref : k1.ref = k2.ref := by rw [hg1.1, hg2.1, hfs.2.2]
            have hfr1 : ∀ a, d1.rootSchema = some a → a < (refSection x d1 m1 c1 st1).st.next :=
              fun a ha => hs1 ▸ hf1 a ha
            have hfr2 : ∀ a, d2.rootSchema = some a → a < (refSection x d2 m2 c2 st2).st.next :=
              fun a ha => hs2 ▸ hf2 a ha
            have hpool11 : d1.pool.SameUpToOrder d1.pool := by
              intro ref
              have hp := hpool ref
              rcases h1 : d1.pool.GetPoolDocument ref with e | a
              · simp
              · rcases h2 : d2.pool.GetPoolDocument ref with e | b
                · rw [h1, h2] at hp
                  exact absurd hp (by simp)
                · rw [h1, h2] at hp
                  exact reordered_left hp
            have hmono1 := childrenSection_next_le (parseSchema x d1 fuel)
              (parseSchema_next_le x d1 fuel) (refSection x d1 m1 c1 st1).m k1
              (refSection x d1 m1 c1 st1).st
            have hmono2 := childrenSection_next_le (parseSchema x d2 fuel)
              (parseSchema_next_le x d2 fuel) (refSection x d2 m2 c2 st2).m k2
              (refSection x d2 m2 c2 st2).st
            -- the loop over `properties`
            have hP : (forRange (propertiesBody (parseSchema x d1 fuel)
                  (refSection x d1 m1 c1 st1).m) (mapKeys (refSection x d1 m1 c1 st1).m) k1
                  (refSection x d1 m1 c1 st1).st).out
                = (forRange (propertiesBody (parseSchema x d2 fuel)
                  (refSection x d2 m2 c2 st2).m) (mapKeys (refSection x d2 m2 c2 st2).m) k2
                  (refSection x d2 m2 c2 st2).st).out := by
              rw [propertiesLoop_eq _ _ hnd1, propertiesLoop_eq _ _ hnd2]
              rcases reordered_lookup ht KEY_PROPERTIES with ⟨h1, h2⟩ | ⟨v1, v2, h1, h2, hr⟩
              · rw [h1, h2]
              · rw [h1, h2]
                simp only
                rcases reordered_cases hr with ⟨hv, hkind⟩ | ⟨xs, ys, hxs, hys⟩
                  | ⟨ps1, ps2, hps1, hps2⟩
                · rw [hv]
                  cases v1 with
                  | object o => exact absurd rfl hkind
                  | null => rfl
                  | bool b => rfl
                  | number n => rfl
                  | string s => rfl
                  | array zs => rfl
                · rw [hxs, hys]
                  rfl
                · subst hps1 hps2
                  obtain ⟨_, _, hpkeys, hpval⟩ := reordered_object_inv hr
                  have hUps := hUp ps1 h1
                  simp only [parsePropertiesWith]
                  have hloop1 := propertyLoop_out (parseSchema x d1 fuel) ps1
                    (entryOutcome (parseSchema x d1 fuel) ps1 k1 (refSection x d1 m1 c1 st1).st)
                    (fun c s => c.ref = k1.ref ∧ ∀ a, d1.rootSchema = some a → a < s.next)
                    (mapKeys ps1) (fun k hk c s hI => by
                      obtain ⟨v, hv⟩ := lookup_isSome_of_mem ps1 k hk
                      have hw := lookup_isSome_of_mem ps2 k ((hpkeys k).1 hk)
                      obtain ⟨w, hw⟩ := hw
                      constructor
                      · refine (ih d1 d1 rfl hpool11 (mapIndex ps1 k) (mapIndex ps1 k)
                          (newPropertySchema k k1 (refSection x d1 m1 c1 st1).st)
                          (newPropertySchema k c s)
                          { (refSection x d1 m1 c1 st1).st with
                            next := (refSection x d1 m1 c1 st1).st.next + 1 }
                          { s with next := s.next + 1 } ?_ ?_ rfl ?_ ?_ ?_
                          (hUps k hk).1).symm
                        · rw [mapIndex_of_lookup ps1 k v hv]
                          exact reordered_left (hpval k v w hv hw)
                        · exact hI.1.symm
                        · constructor
                          · intro h
                            exact absurd (hfr1 _ h.symm) (Nat.lt_irrefl _)
                          · intro h
                            exact absurd (hI.2 _ h.symm) (Nat.lt_irrefl _)
                        · exact fun a ha => Nat.lt_succ_of_lt (hfr1 a ha)
                        · exact fun a ha => Nat.lt_succ_of_lt (hI.2 a ha)
                      · refine ⟨hI.1, fun a ha => ?_⟩
                        exact Nat.lt_of_lt_of_le (Nat.lt_succ_of_lt (hI.2 a ha))
                          (parseSchema_next_le x d1 fuel _ _ { s with next := s.next + 1 }))
                    k1 (refSection x d1 m1 c1 st1).st ⟨rfl, hfr1⟩
                  have hloop2 := propertyLoop_out (parseSchema x d2 fuel) ps2
                    (entryOutcome (parseSchema x d1 fuel) ps1 k1 (refSection x d1 m1 c1 st1).st)
                    (fun c s => c.ref = k2.ref ∧ ∀ a, d2.rootSchema = some a → a < s.next)
                    (mapKeys ps2) (fun k hk c s hI => by
                      have hk1m := (hpkeys k).2 hk
                      obtain ⟨v, hv⟩ := lookup_isSome_of_mem ps1 k hk1m
                      obtain ⟨w, hw⟩ := lookup_isSome_of_mem ps2 k hk
                      constructor
                      · refine (ih d1 d2 hdoc hpool (mapIndex ps1 k) (mapIndex ps2 k)
                          (newPropertySchema k k1 (refSection x d1 m1 c1 st1).st)
                          (newPropertySchema k c s)
                          { (refSection x d1 m1 c1 st1).st with
                            next := (refSection x d1 m1 c1 st1).st.next + 1 }
                          { s with next := s.next + 1 } ?_ ?_ rfl ?_ ?_ ?_
                          (hUps k hk1m).1).symm
                        · rw [mapIndex_of_lookup ps1 k v hv, mapIndex_of_lookup ps2 k w hw]
                          exact hpval k v w hv hw
                        · exact hkref.trans hI.1.symm
                        · constructor
                          · intro h
                            exact absurd (hfr1 _ h.symm) (Nat.lt_irrefl _)
                          · intro h
                            exact absurd (hI.2 _ h.symm) (Nat.lt_irrefl _)
                        · exact fun a ha => Nat.lt_succ_of_lt (hfr1 a ha)
                        · exact fun a ha => Nat.lt_succ_of_lt (hI.2 a ha)
                      · refine ⟨hI.1, fun a ha => ?_⟩
                        exact Nat.lt_of_lt_of_le (Nat.lt_succ_of_lt (hI.2 a ha))
                          (parseSchema_next_le x d2 fuel _ _ { s with next := s.next + 1 }))
                    k2 (refSection x d2 m2 c2 st2).st ⟨rfl, hfr2⟩
                  rw [hloop1, hloop2]
                  refine firstFailure_unique _ _ (fun o => ?_) ?_
                  · simp only [List.mem_map]
                    constructor
                    · rintro ⟨k, hk, rfl⟩
                      exact ⟨k, (hpkeys k).1 hk, rfl⟩
                    · rintro ⟨k, hk, rfl⟩
                      exact ⟨k, (hpkeys k).2 hk, rfl⟩
                  · intro a ha b hb hna hnb
                    simp only [List.mem_map] at ha hb
                    obtain ⟨ka, hka, rfl⟩ := ha
                    obtain ⟨kb, hkb, rfl⟩ := hb
                    rcases (hUps ka hka).2 kb hkb with h | h | h
                    · exact absurd h hna
                    · exact absurd h hnb
                    · exact h
            simp only [childrenSection]
            by_cases hPok : (forRange (propertiesBody (parseSchema x d1 fuel)
                  (refSection x d1 m1 c1 st1).m) (mapKeys (refSection x d1 m1 c1 st1).m) k1
                  (refSection x d1 m1 c1 st1).st).out = Outcome.ok
            · have hPok2 := hP ▸ hPok
              simp only [hPok, hPok2, if_true]
              -- the loop over `items`
              rw [itemsLoop_eq _ _ hnd1, itemsLoop_eq _ _ hnd2]
              rcases reordered_lookup ht KEY_ITEMS with ⟨h1, h2⟩ | ⟨v1, v2, h1, h2, hr⟩
              · rw [h1, h2]
              · rw [h1, h2]
                simp only
                refine ih d1 d2 hdoc hpool v1 v2 _ _ _ _ hr rfl rfl ?_ ?_ ?_ (hUi v1 h1 hPok)
                · constructor
                  · intro h
                    exact absurd (Nat.lt_of_lt_of_le (hfr1 _ h.symm) hmono1.1) (Nat.lt_irrefl _)
                  · intro h
                    exact absurd (Nat.lt_of_lt_of_le (hfr2 _ h.symm) hmono2.1) (Nat.lt_irrefl _)
                · exact fun a ha => Nat.lt_succ_of_lt (Nat.lt_of_lt_of_le (hfr1 a ha) hmono1.1)
                · exact fun a ha => Nat.lt_succ_of_lt (Nat.lt_of_lt_of_le (hfr2 a ha) hmono2.1)
            · have hPok2 : ¬ (forRange (propertiesBody (parseSchema x d2 fuel)
                  (refSection x d2 m2 c2 st2).m) (mapKeys (refSection x d2 m2 c2 st2).m) k2
                  (refSection x d2 m2 c2 st2).st).out = Outcome.ok := fun h => hPok (hP ▸ h)
              simp only [hPok, hPok2, if_false]
              exact hP
        · have hok2 : ¬ (refSection x d2 m2 c2 st2).out = Outcome.ok := fun h =>
            hok (hfs.1 ▸ h)
          simp only [hok, hok2, if_false]
          exact hfs.1

theorem mem_of_lookup (m : JsonMap) (k : String) (v : Json) (h : m.lookup k = some v) :
    (k, v) ∈ m := by
  induction m with
  | nil => simp at h
  | cons e rest ih =>
    obtain ⟨a, w⟩ := e
    by_cases hk : k = a
    · subst hk
      simp only [List.lookup, beq_self_eq_true] at h
      cases h
      exact List.mem_cons_self _ _
    · have hb : (k == a) = false := by simpa using hk
      simp only [List.lookup, hb] at h
      exact List.mem_cons_of_mem _ (ih h)

/-- Two mappings that hold each key once are the same up to the enumeration order when
each entry of the first has, under its key in the second, a value that is the same up
to that order, and the second has no other key. -/
theorem reordered_of_entries (m1 m2 : JsonMap) (hn1 : (mapKeys m1).Nodup)
    (hn2 : (mapKeys m2).Nodup)
    (h12 : ∀ e ∈ m1, ∃ v2, m2.lookup e.1 = some v2 ∧ Reordered e.2 v2)
    (h21 : ∀ k ∈ mapKeys m2, k ∈ mapKeys m1) :
    Reordered (Json.object m1) (Json.object m2) := by
  refine Reordered.object m1 m2 hn1 hn2 (fun k => ⟨fun hk => ?_, h21 k⟩) fun k v1 v2 hv1 hv2 => ?_
  · obtain ⟨v, hv⟩ := lookup_isSome_of_mem m1 k hk
    obtain ⟨v2, hv2, _⟩ := h12 (k, v) (mem_of_lookup m1 k v hv)
    exact mem_mapKeys_of_lookup m2 k v2 hv2
  · obtain ⟨w, hw, hr⟩ := h12 (k, v1) (mem_of_lookup m1 k v1 hv1)
    have hwv : w = v2 := Option.some.inj (hw.symm.trans hv2)
    rw [← hwv]
    exact hr

/-- The pointer navigation of the example world does not depend on the enumeration
order. -/
theorem exampleGet_reordered :
    ∀ (tokens : List String) (a b : Json), Reordered a b →
      (exampleGet tokens a).2 = (exampleGet tokens b).2
      ∧ Reordered (exampleGet tokens a).1 (exampleGet tokens b).1 := by
  intro tokens
  induction tokens with
  | nil => intro a b h; exact ⟨rfl, h⟩
  | cons t ts ih =>
    intro a b h
    rcases reordered_cases h with ⟨hv, hkind⟩ | ⟨xs, ys, hxs, hys⟩ | ⟨m1, m2, hm1, hm2⟩
    · rw [hv]
      have hnull : Reordered Json.null Json.null := Reordered.atom _ (by decide)
      cases a with
      | object o => exact absurd rfl hkind
      | null => exact ⟨rfl, by simpa only [exampleGet] using hnull⟩
      | bool c => exact ⟨rfl, by simpa only [exampleGet] using hnull⟩
      | number n => exact ⟨rfl, by simpa only [exampleGet] using hnull⟩
      | string s => exact ⟨rfl, by simpa only [exampleGet] using hnull⟩
      | array zs => exact ⟨rfl, by simpa only [exampleGet] using hnull⟩
    · rw [hxs, hys]
      have hnull : Reordered Json.null Json.null := Reordered.atom _ (by decide)
      exact ⟨rfl, by simpa only [exampleGet] using hnull⟩
    · subst hm1 hm2
      rcases reordered_lookup h t with ⟨h1, h2⟩ | ⟨v1, v2, h1, h2, hr⟩
      · have hnull : Reordered Json.null Json.null := Reordered.atom _ (by decide)
        refine ⟨by simp only [exampleGet, h1, h2], ?_⟩
        simpa only [exampleGet, h1, h2] using hnull
      · simp only [exampleGet, h1, h2]
        exact ih v1 v2 hr

theorem exampleCollaborators_orderBlind : exampleCollaborators.OrderBlind :=
  fun ref a b h => exampleGet_reordered ref.pointer a b h

/-- Two pools of the example world that hold, under one name, two documents that are
the same up to the enumeration order. -/
theorem examplePool_sameUpToOrder (name : String) (a b : Json) (h : Reordered a b) :
    (examplePool [(name, a)]).SameUpToOrder (examplePool [(name, b)]) := by
  intro ref
  by_cases hn : ref.url = name
  · simp [examplePool, List.lookup, hn, h]
  · have hb : (ref.url == name) = false := by simpa using hn
    simp [examplePool, List.lookup, hb]

theorem reorderExample_reordered : Reordered reorderExample1 reorderExample2 := by
  have hx : Reordered
      (Json.object [("title", Json.string "t"), ("type", Json.string "string")])
      (Json.object [("type", Json.string "string"), ("title", Json.string "t")]) := by
    refine reordered_of_entries _ _ (by decide) (by decide) (fun e he => ?_) (by decide)
    simp only [List.mem_cons, List.mem_singleton, List.not_mem_nil, or_false] at he
    rcases he with rfl | rfl
    · exact ⟨_, rfl, Reordered.atom _ (by decide)⟩
    · exact ⟨_, rfl, Reordered.atom _ (by decide)⟩
  have hother : Reordered (Json.object [("$ref", Json.string "#/properties/x")])
      (Json.object [("$ref", Json.string "#/properties/x")]) := by
    refine reordered_of_entries _ _ (by decide) (by decide) (fun e he => ?_) (by decide)
    simp only [List.mem_singleton] at he
    subst he
    exact ⟨_, rfl, Reordered.atom _ (by decide)⟩
  have hy : Reordered (Json.object []) (Json.object []) :=
    reordered_of_entries _ _ (by decide) (by decide) (fun e he => by simp at he) (by decide)
  have hprops : Reordered
      (Json.object
        [("x", Json.object [("title", Json.string "t"), ("type", Json.string "string")]),
         ("other", Json.object [("$ref", Json.string "#/properties/x")]),
         ("y", Json.object [])])
      (Json.object
        [("y", Json.object []),
         ("other", Json.object [("$ref", Json.string "#/properties/x")]),
         ("x", Json.object [("type", Json.string "string"), ("title", Json.string "t")])]) := by
    refine reordered_of_entries _ _ (by decide) (by decide) (fun e he => ?_) (by decide)
    simp only [List.mem_cons, List.mem_singleton, List.not_mem_nil, or_false] at he
    rcases he with rfl | rfl | rfl
    · exact ⟨_, rfl, hx⟩
    · exact ⟨_, rfl, hother⟩
    · exact ⟨_, rfl, hy⟩
  refine reordered_of_entries _ _ (by decide) (by decide) (fun e he => ?_) (by decide)
  simp only [List.mem_cons, List.mem_singleton, List.not_mem_nil, or_false] at he
  rcases he with rfl | rfl | rfl
  · exact ⟨_, rfl, Reordered.atom _ (by decide)⟩
  · exact ⟨_, rfl, Reordered.atom _ (by decide)⟩
  · exact ⟨_, rfl, hprops⟩

/-- C8 (as amended): the error that `parse`, and any call of `parseSchema`, returns is
the same for two enumeration orders of the entries of the mappings of the document, at
every depth, the `properties` mappings and the documents reached through `$ref`
included (`Reordered`), provided that in no `properties` mapping the parse reaches two
entries fail in different ways (`Unambiguous`); this holds in particular when at most
one entry of each `properties` mapping fails.  The two runs are in worlds whose pools
hold the same documents up to the order, the navigation of a pointer is taken not to
depend on the order (`OrderBlind`), and a call of `parseSchema` starts in a state in
which the root node has its address, as it has in `parse`.  The entries of a `properties` mapping are parsed in enumeration order
and the outcome of the first failing entry is returned: when the entries enumerated
before an entry parse without error and that entry fails, its outcome is the outcome of
`parseProperties`, whatever entries follow. -/
theorem parse_error_order_independent (x : Collaborators Ref) (d : JsonSchemaDocument Ref)
    (pool2 : SchemaPool Ref) (fuel : Nat) (doc1 doc2 : Json) (hx : x.OrderBlind)
    (hpool : d.pool.SameUpToOrder pool2) (hdoc : Reordered doc1 doc2) :
    (∀ st0 : St Ref,
        Unambiguous x { d with rootSchema := some (newRootSchema st0).addr } fuel doc1
          (newRootSchema st0) { st0 with next := st0.next + 1 } = true →
        (parse x d fuel doc1 st0).2.out
          = (parse x { d with pool := pool2 } fuel doc2 st0).2.out)
    ∧ (∀ (cur : JsonSchema Ref) (st : St Ref),
        (∀ a, d.rootSchema = some a → a < st.next) →
        Unambiguous x d fuel doc1 cur st = true →
        (parseSchema x d fuel doc1 cur st).out
          = (parseSchema x { d with pool := pool2 } fuel doc2 cur st).out)
    ∧ ∀ (pre post : JsonMap) (name : String) (v : Json) (c : JsonSchema Ref) (s : St Ref),
        name ∉ mapKeys pre →
        (parseProperties x d fuel (Json.object pre) c s).out = Outcome.ok →
        (parseSchema x d fuel v
            (newPropertySchema name (parseProperties x d fuel (Json.object pre) c s).node
              (parseProperties x d fuel (Json.object pre) c s).st)
            { (parseProperties x d fuel (Json.object pre) c s).st with
              next := (parseProperties x d fuel (Json.object pre) c s).st.next + 1 }).out
          ≠ Outcome.ok →
        (parseProperties x d fuel (Json.object (pre ++ (name, v) :: post)) c s).out
          = (parseSchema x d fuel v
              (newPropertySchema name (parseProperties x d fuel (Json.object pre) c s).node
                (parseProperties x d fuel (Json.object pre) c s).st)
              { (parseProperties x d fuel (Json.object pre) c s).st with
                next := (parseProperties x d fuel (Json.object pre) c s).st.next + 1 }).out :=
  ⟨fun st0 hU =>
      parseSchema_out_reordered x hx fuel
        { d with rootSchema := some (newRootSchema st0).addr }
        { d with pool := pool2, rootSchema := some (newRootSchema st0).addr } rfl hpool doc1
        doc2 (newRootSchema st0) (newRootSchema st0) { st0 with next := st0.next + 1 }
        { st0 with next := st0.next + 1 } hdoc rfl rfl Iff.rfl
        (fun a ha => by
          have h0 : a = st0.next := (Option.some.inj ha).symm
          rw [h0]
          exact Nat.lt_succ_self _)
        (fun a ha => by
          have h0 : a = st0.next := (Option.some.inj ha).symm
          rw [h0]
          exact Nat.lt_succ_self _)
        hU,
    fun cur st hfresh hU =>
      parseSchema_out_reordered x hx fuel d { d with pool := pool2 } rfl hpool doc1 doc2 cur cur
        st st hdoc rfl rfl Iff.rfl hfresh hfresh hU,
    fun pre post name v c s hname hpre hfail =>
      propertyLoop_first_failure (parseSchema x d fuel) pre post name v c s hname hpre hfail⟩

theorem parse_error_order_independent_witness :
    Reordered reorderExample1 reorderExample2
    ∧ Unambiguous exampleCollaborators
        (exampleRootDocument [("http://example.org/root.json", reorderExample1)]) 3
        reorderExample1 (newRootSchema St.initial) ⟨1, []⟩ = true
    ∧ (parseSchema exampleCollaborators
        (exampleRootDocument [("http://example.org/root.json", reorderExample1)]) 3
        reorderExample1 (newRootSchema St.initial) ⟨1, []⟩).out
      = (parseSchema exampleCollaborators
        { exampleRootDocument [("http://example.org/root.json", reorderExample1)] with
          pool := examplePool [("http://example.org/root.json", reorderExample2)] } 3
        reorderExample2 (newRootSchema St.initial) ⟨1, []⟩).out
    ∧ (parse exampleCollaborators
        (exampleDocument [("http://example.org/root.json", reorderExample1)]) 3
        reorderExample1 St.initial).2.out
      = (parse exampleCollaborators
        { exampleDocument [("http://example.org/root.json", reorderExample1)] with
          pool := examplePool [("http://example.org/root.json", reorderExample2)] } 3
        reorderExample2 St.initial).2.out
    ∧ (parse exampleCollaborators
        (exampleDocument [("http://example.org/root.json", reorderExample1)]) 3
        reorderExample1 St.initial).2.out
      = Outcome.error (Error.message "schema y - type is required")
    ∧ (parse exampleCollaborators
        (exampleDocument [("http://example.org/root.json", reorderExample2)]) 3
        reorderExample2 St.initial).2.out
      = Outcome.error (Error.message "schema y - type is required")
    ∧ (parseProperties exampleCollaborators (exampleDocument []) 1
        (Json.object
          ([("a", Json.object [("type", Json.string "string")])]
            ++ ("b", Json.object [("title", Json.number 5)]) :: [("c", Json.object [])]))
        exampleNode exampleState).out
      = Outcome.error (ERROR_MESSAGE_X_MUST_BE_OF_TYPE_Y KEY_TITLE STRING_STRING)
    ∧ Unambiguous exampleCollaborators (exampleDocument []) 2
        (Json.object
          [("type", Json.string "object"),
           ("properties", Json.object [("a", Json.object []), ("b", Json.object [])])])
        exampleNode exampleState = false :=
  ⟨reorderExample_reordered, by decide,
    (parse_error_order_independent exampleCollaborators
      (exampleRootDocument [("http://example.org/root.json", reorderExample1)])
      (examplePool [("http://example.org/root.json", reorderExample2)]) 3 reorderExample1
      reorderExample2 exampleCollaborators_orderBlind
      (examplePool_sameUpToOrder _ _ _ reorderExample_reordered)
      reorderExample_reordered).2.1 (newRootSchema St.initial) ⟨1, []⟩
      (fun a ha => by
        have h0 : a = 0 := (Option.some.inj ha).symm
        subst h0
        decide)
      (by decide),
    (parse_error_order_independent exampleCollaborators
      (exampleDocument [("http://example.org/root.json", reorderExample1)])
      (examplePool [("http://example.org/root.json", reorderExample2)]) 3 reorderExample1
      reorderExample2 exampleCollaborators_orderBlind
      (examplePool_sameUpToOrder _ _ _ reorderExample_reordered)
      reorderExample_reordered).1 St.initial (by decide),
    by decide, by decide,
    ((parse_error_order_independent exampleCollaborators (exampleDocument [])
      (examplePool []) 1 (Json.object []) (Json.object [])
      exampleCollaborators_orderBlind
      (fun ref => by simp [exampleDocument, examplePool, List.lookup])
      (reordered_of_entries _ _ (by decide) (by decide) (fun e he => by simp at he)
        (by decide))).2.2 [("a", Json.object [("type", Json.string "string")])]
      [("c", Json.object [])] "b" (Json.object [("title", Json.number 5)]) exampleNode
      exampleState (by decide) (by decide) (by decide)).trans (by decide),
    by decide⟩

/-! ## The first node without a type -/

/-- When the parse comes, before anything fails, to a node labelled `name` without
`type`, it fails with the type-required error of that node, at whatever depth the node
lies. -/
theorem firstMissingType_error (x : Collaborators Ref) (d : JsonSchemaDocument Ref)
    (fuel : Nat) (doc : Json) (cur : JsonSchema Ref) (st : St Ref) (name : String)
    (h : FirstMissingType x d fuel doc cur st name) :
    (parseSchema x d fuel doc cur st).out
      = Outcome.error (Error.message ("schema " ++ name ++ " - type is required")) := by
  induction h with
  | here fuel m cur st hroot href hid htitle hdesc htype =>
    rw [parseSchema_absent_type x d fuel m cur st hroot href hid htitle hdesc htype]
  | property fuel m target pre post k v cur c1 c2 c3 st s2 name hroot href hkey hn hps hk hpre
      _ ih =>
    unfold parseProperties at hpre ih
    have hloop := propertyLoop_first_failure (parseSchema x d fuel) pre post k v c3 s2 hk hpre
      (by rw [ih]; simp)
    rw [ih] at hloop
    simp only [parseSchema, hroot, href, if_true, parseKeywords, hkey, childrenSection,
      propertiesLoop_eq _ target hn, hps, hloop]
    simp [hloop]
  | items fuel m target v cur c1 c2 c3 st s2 name hroot href hkey hn hprops hv _ ih =>
    simp only [parseSchema, hroot, href, if_true, parseKeywords, hkey, childrenSection, hprops,
      itemsLoop_eq _ target hn, hv, ih]

/-- In `nestedMissingType` the parse comes to the property `x` of the property `a`
before anything fails. -/
theorem nestedMissingType_first :
    FirstMissingType exampleCollaborators (exampleDocument []) 3 nestedMissingType exampleNode
      exampleState "x" := by
  refine FirstMissingType.property 2 _ _ [("b", Json.object [("type", Json.string "string")])]
    [] "a"
    (Json.object [("type", Json.string "object"),
      ("properties", Json.object [("x", Json.object [])])])
    exampleNode exampleNode exampleNode { exampleNode with etype := some "object" }
    exampleState exampleState "x" rfl rfl rfl (by decide) rfl (by decide) (by decide) ?_
  refine FirstMissingType.property 1 _ _ [] [] "x" (Json.object []) _ _ _
    { (newPropertySchema "a"
        (parseProperties exampleCollaborators (exampleDocument []) 2
          (Json.object [("b", Json.object [("type", Json.string "string")])])
          { exampleNode with etype := some "object" } exampleState).node
        (parseProperties exampleCollaborators (exampleDocument []) 2
          (Json.object [("b", Json.object [("type", Json.string "string")])])
          { exampleNode with etype := some "object" } exampleState).st) with
      etype := some "object" }
    _ _ "x" rfl rfl rfl (by decide) rfl (by decide) (by decide) ?_
  exact FirstMissingType.here 0 [] _ _ rfl (by decide) rfl rfl rfl (by decide)

/-- C4 (as amended): a document with a node without `type`, root or nested under
`properties` or `items` and reached without following a `$ref`, never parses
successfully.  When the parse comes to such a node before anything fails (at any depth:
the checks of the nodes above it pass, at the root the `$schema` section included, its
own `$id`, `title` and `description` pass, and the properties enumerated before it on
the way parse without error), it fails with the type-required error
"schema <property> - type is required" of that node.  In particular, as the value of a
property named `name`, among any other properties, such a node makes `parseProperties`
fail with "schema name - type is required" whenever the properties enumerated before
`name` parse without error.  The node created for the property is a new one and so is
not the root node: its address is not the one of `d.rootSchema`. -/
theorem missing_type_fails (x : Collaborators Ref) (d : JsonSchemaDocument Ref) :
    (∀ doc : Json, MissingType doc → ∀ (fuel : Nat) (cur : JsonSchema Ref) (st : St Ref),
      (parseSchema x d fuel doc cur st).out ≠ Outcome.ok)
    ∧ (∀ (fuel : Nat) (doc : Json) (cur : JsonSchema Ref) (st : St Ref) (name : String),
        FirstMissingType x d fuel doc cur st name →
        (parseSchema x d fuel doc cur st).out
          = Outcome.error (Error.message ("schema " ++ name ++ " - type is required")))
    ∧ (∀ m : JsonMap, KEY_TYPE ∉ mapKeys m → KEY_REF ∉ mapKeys m →
        stringOrAbsent m KEY_ID = true → stringOrAbsent m KEY_TITLE = true →
        stringOrAbsent m KEY_DESCRIPTION = true →
        ∀ (fuel : Nat) (name : String) (pre post : JsonMap) (cur : JsonSchema Ref)
          (st : St Ref), name ∉ mapKeys pre →
          (parseProperties x d (fuel + 1) (Json.object pre) cur st).out = Outcome.ok →
          d.rootSchema
            ≠ some (parseProperties x d (fuel + 1) (Json.object pre) cur st).st.next →
          (parseProperties x d (fuel + 1) (Json.object (pre ++ (name, Json.object m) :: post))
            cur st).out
            = Outcome.error (Error.message ("schema " ++ name ++ " - type is required"))) := by
  refine ⟨fun doc h => missingType_not_ok x d doc h, firstMissingType_error x d, ?_⟩
  intro m htype href hid htitle hdesc fuel name pre post cur st hname hpre hroot
  unfold parseProperties at hpre hroot ⊢
  have hps : ∀ (c : JsonSchema Ref) (s : St Ref), d.rootSchema ≠ some s.next →
      (parseSchema x d (fuel + 1) (Json.object m) (newPropertySchema name c s)
        { s with next := s.next + 1 }).out
        = Outcome.error (Error.message ("schema " ++ name ++ " - type is required")) := by
    intro c s hs
    have hnot : (rootSection x d m (newPropertySchema name c s)).1 = none := by
      rw [rootSection_not_root x d m _ hs]
    rw [parseSchema_absent_type x d fuel m (newPropertySchema name c s)
      { s with next := s.next + 1 } hnot href hid htitle hdesc htype]
    rfl
  rw [propertyLoop_first_failure (parseSchema x d (fuel + 1)) pre post name (Json.object m)
    cur st hname hpre (by rw [hps _ _ hroot]; simp)]
  exact hps _ _ hroot

theorem missing_type_fails_witness :
    (∀ (fuel : Nat) (cur : JsonSchema ExampleRef) (st : St ExampleRef),
      (parseSchema exampleCollaborators (exampleDocument []) fuel scenario2 cur st).out
        ≠ Outcome.ok)
    ∧ (parseSchema exampleCollaborators (exampleDocument []) 1 (Json.object [])
        exampleNode exampleState).out
      = Outcome.error (Error.message ("schema " ++ exampleNode.property ++ " - type is required"))
    ∧ (parseSchema exampleCollaborators (exampleDocument []) 3 nestedMissingType exampleNode
        exampleState).out
      = Outcome.error (Error.message ("schema " ++ "x" ++ " - type is required"))
    ∧ (parseProperties exampleCollaborators (exampleDocument []) 1
        (Json.object
          ([("y", Json.object [("type", Json.string "string")])]
            ++ ("x", Json.object []) :: [("z", Json.object [("title", Json.number 5)])]))
        exampleNode exampleState).out
      = Outcome.error (Error.message ("schema " ++ "x" ++ " - type is required"))
    ∧ (parseProperties exampleCollaborators (exampleDocument []) 1
        (Json.object
          ([] ++ ("x", Json.object []) :: [("y", Json.object [("type", Json.string "string")])]))
        exampleNode exampleState).out
      = Outcome.error (Error.message ("schema " ++ "x" ++ " - type is required"))
    ∧ (parse exampleCollaborators (exampleDocument []) 2 scenario2 St.initial).2.out
      = Outcome.error (Error.message "schema x - type is required") :=
  ⟨(missing_type_fails exampleCollaborators (exampleDocument [])).1 scenario2
      (MissingType.property _ [("x", Json.object [])] "x" (Json.object []) (by decide) rfl rfl
        (MissingType.here [] (by decide) (by decide))),
    (missing_type_fails exampleCollaborators (exampleDocument [])).2.1 1 (Json.object [])
      exampleNode exampleState _
      (FirstMissingType.here 0 [] exampleNode exampleState rfl (by decide) rfl rfl rfl
        (by decide)),
    (missing_type_fails exampleCollaborators (exampleDocument [])).2.1 3 nestedMissingType
      exampleNode exampleState "x" nestedMissingType_first,
    (missing_type_fails exampleCollaborators (exampleDocument [])).2.2 [] (by decide)
      (by decide) (by decide) (by decide) (by decide) 0 "x"
      [("y", Json.object [("type", Json.string "string")])]
      [("z", Json.object [("title", Json.number 5)])] exampleNode exampleState (by decide)
      (by decide) (by decide),
    (missing_type_fails exampleCollaborators (exampleDocument [])).2.2 [] (by decide)
      (by decide) (by decide) (by decide) (by decide) 0 "x" []
      [("y", Json.object [("type", Json.string "string")])] exampleNode exampleState (by decide)
      (by decide) (by decide),
    by decide⟩

/-! ## Agreement of the two embeddings -/

theorem ref_assign (s : Ptr.Store Ref) (p : Nat) (f : Ptr.JsonSchema → Ptr.JsonSchema) :
    (s.assign p f).ref p = (s.schemas[p]?).bind fun n => (f n).ref := by
  unfold Ptr.Store.ref
  rw [assign_schemas, if_pos rfl]
  cases s.schemas[p]? <;> rfl

theorem property_assign (s : Ptr.Store Ref) (p : Nat) (f : Ptr.JsonSchema → Ptr.JsonSchema) :
    (s.assign p f).property p = ((s.schemas[p]?).map fun n => (f n).property).getD "" := by
  unfold Ptr.Store.property
  rw [assign_schemas, if_pos rfl]
  cases s.schemas[p]? <;> rfl

/-- An assignment to a field other than `ref` and `property` keeps what the node stands
for. -/
theorem represents_assign (s : Ptr.Store Ref) (p : Nat) (cur cur2 : JsonSchema Ref)
    (f : Ptr.JsonSchema → Ptr.JsonSchema) (hr : ∀ n, (f n).ref = n.ref)
    (hp : ∀ n, (f n).property = n.property) (h : Represents s p cur)
    (h2r : cur2.ref = cur.ref) (h2p : cur2.property = cur.property) :
    Represents (s.assign p f) p cur2 := by
  obtain ⟨hlt, hprop, href, hvalid⟩ := h
  have hrefeq : (s.assign p f).ref p = s.ref p := by
    rw [ref_assign]
    unfold Ptr.Store.ref
    cases s.schemas[p]? with
    | none => rfl
    | some n => exact hr n
  have hpropeq : (s.assign p f).property p = s.property p := by
    rw [property_assign]
    unfold Ptr.Store.property
    cases s.schemas[p]? with
    | none => rfl
    | some n => simp [hp n]
  refine ⟨by rw [assign_length]; exact hlt, by rw [hpropeq, h2p]; exact hprop, ?_, ?_⟩
  · rw [hrefeq, h2r, href]
    unfold Ptr.Store.deref
    rw [assign_references]
  · intro a ha
    rw [hrefeq] at ha
    rw [assign_references]
    exact hvalid a ha

/-- The assignment of a pointer to `ref` makes the node stand for a node with the
reference the pointer points to. -/
theorem represents_assign_ref (s : Ptr.Store Ref) (p : Nat) (cur cur2 : JsonSchema Ref)
    (a : Option Nat) (h : Represents s p cur) (h2p : cur2.property = cur.property)
    (h2r : cur2.ref = s.deref a) (ha : ∀ b, a = some b → b < s.references.length) :
    Represents (s.assign p fun n => { n with ref := a }) p cur2 := by
  obtain ⟨hlt, hprop, _, _⟩ := h
  have hsome : ∃ n, s.schemas[p]? = some n := ⟨s.schemas[p], List.getElem?_eq_getElem hlt⟩
  obtain ⟨n, hn⟩ := hsome
  have hrefeq : (s.assign p fun n => { n with ref := a }).ref p = a := by
    rw [ref_assign, hn]
    rfl
  have hpropeq : (s.assign p fun n => { n with ref := a }).property p = s.property p := by
    rw [property_assign]
    unfold Ptr.Store.property
    rw [hn]
  refine ⟨by rw [assign_length]; exact hlt, by rw [hpropeq, h2p]; exact hprop, ?_, ?_⟩
  · rw [hrefeq, h2r]
    unfold Ptr.Store.deref
    rw [assign_references]
  · intro b hb
    rw [hrefeq] at hb
    rw [assign_references]
    exact ha b hb

/-- What a node stands for does not change when the store gets more references, the
other nodes changing or not. -/
theorem represents_of_frame (s t : Ptr.Store Ref) (p : Nat) (cur : JsonSchema Ref)
    (h : Represents s p cur) (href : s.references <+: t.references)
    (hlen : s.schemas.length ≤ t.schemas.length) (hcell : t.schemas[p]? = s.schemas[p]?) :
    Represents t p cur := by
  obtain ⟨hlt, hprop, hr, hvalid⟩ := h
  have hrefeq : t.ref p = s.ref p := by
    unfold Ptr.Store.ref
    rw [hcell]
  refine ⟨Nat.lt_of_lt_of_le hlt hlen, ?_, ?_, ?_⟩
  · unfold Ptr.Store.property
    rw [hcell]
    exact hprop
  · rw [hrefeq, hr]
    unfold Ptr.Store.deref
    rcases hp : s.ref p with _ | a
    · rfl
    · have ha := hvalid a hp
      obtain ⟨v, hv⟩ : ∃ v, s.references[a]? = some v :=
        ⟨s.references[a], List.getElem?_eq_getElem ha⟩
      show s.references[a]? = t.references[a]?
      rw [hv, getElem?_of_extension href a v hv]
  · intro a ha
    rw [hrefeq] at ha
    exact Nat.lt_of_lt_of_le (hvalid a ha) href.length_le

theorem sameDocument_of_frame (d : JsonSchemaDocument Ref) (dP : Ptr.JsonSchemaDocument Ref)
    (s t : Ptr.Store Ref) (h : SameDocument d dP s) (href : s.references <+: t.references) :
    SameDocument d dP t :=
  ⟨h.1, getElem?_of_extension href _ _ h.2⟩

theorem represents_addressOf (s : Ptr.Store Ref) (p : Nat) (cur : JsonSchema Ref) (r : Ref)
    (h : Represents s p cur) : Represents (s.addressOf r).2 p cur :=
  represents_of_frame s _ p cur h (List.prefix_append _ _) (Nat.le_refl _) rfl

theorem deref_addressOf (s : Ptr.Store Ref) (r : Ref) :
    (s.addressOf r).2.deref (some (s.addressOf r).1) = some r := by
  simp [Ptr.Store.deref, Ptr.Store.addressOf]

/-- The two embeddings agree on the `$schema` section. -/
theorem rootSection_agree (x : Collaborators Ref) (d : JsonSchemaDocument Ref)
    (dP : Ptr.JsonSchemaDocument Ref) (m : JsonMap) (p : Nat) (s : Ptr.Store Ref)
    (cur : JsonSchema Ref) (h : Represents s p cur) (hd : SameDocument d dP s)
    (hroot : some cur.addr = d.rootSchema ↔ some p = dP.rootSchema) :
    (Ptr.rootSection x dP m p s).1 = (rootSection x d m cur).1
    ∧ Represents (Ptr.rootSection x dP m p s).2 p (rootSection x d m cur).2 := by
  unfold Ptr.rootSection rootSection
  by_cases hr : some cur.addr = d.rootSchema
  · have hr2 := hroot.1 hr
    rw [if_pos hr2, if_pos hr]
    split
    · exact ⟨rfl, h⟩
    · split
      · rename_i schemaRef _
        rcases hn : x.NewJsonReference schemaRef with ⟨schemaReference, err⟩
        have h1 : Represents
            ((s.addressOf schemaReference).2.assign p fun n =>
              { n with schema := some (s.addressOf schemaReference).1 }) p
            { cur with schema := some schemaReference } :=
          represents_assign _ p cur _ _ (fun _ => rfl) (fun _ => rfl)
            (represents_addressOf s p cur schemaReference h) rfl rfl
        cases err with
        | some e => exact ⟨rfl, h1⟩
        | none =>
          simp only
          have hd2 : ((s.addressOf schemaReference).2.assign p fun n =>
              { n with schema := some (s.addressOf schemaReference).1 }).references[
                dP.documentReference]? = some d.documentReference := by
            rw [assign_references]
            exact getElem?_of_extension (List.prefix_append _ _) _ _ hd.2
          have hlt : dP.documentReference
              < ((s.addressOf schemaReference).2.assign p fun n =>
                { n with schema := some (s.addressOf schemaReference).1 }).references.length := by
            by_contra hge
            rw [List.getElem?_eq_none (Nat.le_of_not_lt hge)] at hd2
            exact absurd hd2 (by simp)
          have h2 : Represents
              (((s.addressOf schemaReference).2.assign p fun n =>
                { n with schema := some (s.addressOf schemaReference).1 }).assign p fun n =>
                  { n with ref := some dP.documentReference }) p
              { cur with schema := some schemaReference, ref := some d.documentReference } :=
            represents_assign_ref _ p _ _ (some dP.documentReference) h1 rfl
              (by simp only [Ptr.Store.deref, Option.bind]; exact hd2.symm)
              (fun b hb => by cases hb; exact hlt)
          split
          · exact ⟨rfl, h2⟩
          · exact ⟨rfl, h2⟩
      · exact ⟨rfl, h⟩
  · have hr2 : ¬ (some p = dP.rootSchema) := fun h2 => hr (hroot.2 h2)
    rw [if_neg hr2, if_neg hr]
    exact ⟨rfl, h⟩

/-- The two embeddings agree on the assignment of the `ref` of the node. -/
theorem setRef_agree (x : Collaborators Ref) (jsonReference : Ref) (p : Nat)
    (s : Ptr.Store Ref) (cur : JsonSchema Ref) (h : Represents s p cur) :
    (Ptr.setRef x jsonReference p s).1 = (setRef x jsonReference cur).1
    ∧ Represents (Ptr.setRef x jsonReference p s).2 p (setRef x jsonReference cur).2 := by
  have hnew : ∀ r : Ref, Represents
      ((s.addressOf r).2.assign p fun n => { n with ref := some (s.addressOf r).1 }) p
      { cur with ref := some r } := fun r =>
    represents_assign_ref _ p cur _ (some (s.addressOf r).1) (represents_addressOf s p cur r h)
      rfl (deref_addressOf s r).symm
      (fun b hb => by cases hb; simp [Ptr.Store.addressOf])
  unfold Ptr.setRef setRef
  split
  · exact ⟨rfl, hnew jsonReference⟩
  · rw [← h.2.2.1]
    rcases cur.ref with _ | base
    · exact ⟨rfl, h⟩
    · simp only
      rcases x.Inherits base jsonReference with ⟨inherited, err⟩
      cases err with
      | some e => cases inherited <;> exact ⟨rfl, h⟩
      | none =>
        cases inherited with
        | some r => exact ⟨rfl, hnew r⟩
        | none =>
          exact ⟨rfl, represents_assign_ref s p cur _ none h rfl rfl (fun b hb => by cases hb)⟩

theorem represents_requests (s : Ptr.Store Ref) (p : Nat) (cur : JsonSchema Ref)
    (l : List Ref) (h : Represents s p cur) : Represents { s with requests := l } p cur :=
  h

/-- The two embeddings agree on the resolution of the `ref` of the node. -/
theorem resolve_agree (x : Collaborators Ref) (d : JsonSchemaDocument Ref)
    (dP : Ptr.JsonSchemaDocument Ref) (hpool : dP.pool = d.pool) (m : JsonMap) (p : Nat)
    (s : Ptr.Store Ref) (cur : JsonSchema Ref) (st : St Ref) (h : Represents s p cur) :
    (Ptr.resolve x dP m p s).1 = (resolve x d m cur st).out
    ∧ (Ptr.resolve x dP m p s).2.1 = (resolve x d m cur st).m
    ∧ Represents (Ptr.resolve x dP m p s).2.2 p (resolve x d m cur st).node := by
  unfold Ptr.resolve resolve
  rw [← h.2.2.1, hpool]
  rcases cur.ref with _ | ref
  · exact ⟨rfl, rfl, h⟩
  · simp only
    rcases d.pool.GetPoolDocument ref with err | document
    · exact ⟨rfl, rfl, h⟩
    · simp only
      rcases x.PointerGet ref document with ⟨v, e⟩
      cases e with
      | some err => cases v <;> exact ⟨rfl, rfl, h⟩
      | none => cases v <;> exact ⟨rfl, rfl, h⟩

/-- The two embeddings agree on the `$ref` section. -/
theorem refSection_agree (x : Collaborators Ref) (d : JsonSchemaDocument Ref)
    (dP : Ptr.JsonSchemaDocument Ref) (hpool : dP.pool = d.pool) (m : JsonMap) (p : Nat)
    (s : Ptr.Store Ref) (cur : JsonSchema Ref) (st : St Ref) (h : Represents s p cur) :
    (Ptr.refSection x dP m p s).1 = (refSection x d m cur st).out
    ∧ (Ptr.refSection x dP m p s).2.1 = (refSection x d m cur st).m
    ∧ Represents (Ptr.refSection x dP m p s).2.2 p (refSection x d m cur st).node := by
  unfold Ptr.refSection refSection
  split
  · exact ⟨rfl, rfl, h⟩
  · split
    · rename_i k _
      rcases x.NewJsonReference k with ⟨jsonReference, err⟩
      cases err with
      | some e => exact ⟨rfl, rfl, h⟩
      | none =>
        simp only
        have hs := setRef_agree x jsonReference p s cur h
        rcases hs1 : Ptr.setRef x jsonReference p s with ⟨out1, s2⟩
        rcases hs2 : setRef x jsonReference cur with ⟨out2, cur2⟩
        rw [hs1, hs2] at hs
        simp only at hs
        obtain ⟨hout, hrep⟩ := hs
        subst hout
        cases out1 with
        | ok => exact resolve_agree x d dP hpool m p s2 cur2 st hrep
        | error e => exact ⟨rfl, rfl, hrep⟩
        | nilDereference => exact ⟨rfl, rfl, hrep⟩
        | outOfFuel => exact ⟨rfl, rfl, hrep⟩
    · exact ⟨rfl, rfl, h⟩

theorem idKeyword_agree (m : JsonMap) (p : Nat) (s : Ptr.Store Ref) (cur : JsonSchema Ref)
    (h : Represents s p cur) :
    (Ptr.idKeyword m p s).1 = (idKeyword m cur).1
    ∧ Represents (Ptr.idKeyword m p s).2 p (idKeyword m cur).2 := by
  unfold Ptr.idKeyword idKeyword
  split
  · exact ⟨rfl, h⟩
  · split
    · exact ⟨rfl, represents_assign s p cur _ _ (fun _ => rfl) (fun _ => rfl) h rfl rfl⟩
    · exact ⟨rfl, h⟩

theorem titleKeyword_agree (m : JsonMap) (p : Nat) (s : Ptr.Store Ref) (cur : JsonSchema Ref)
    (h : Represents s p cur) :
    (Ptr.titleKeyword m p s).1 = (titleKeyword m cur).1
    ∧ Represents (Ptr.titleKeyword m p s).2 p (titleKeyword m cur).2 := by
  unfold Ptr.titleKeyword titleKeyword
  split
  · exact ⟨rfl, h⟩
  · split
    · exact ⟨rfl, represents_assign s p cur _ _ (fun _ => rfl) (fun _ => rfl) h rfl rfl⟩
    · exact ⟨rfl, h⟩

theorem descriptionKeyword_agree (m : JsonMap) (p : Nat) (s : Ptr.Store Ref)
    (cur : JsonSchema Ref) (h : Represents s p cur) :
    (Ptr.descriptionKeyword m p s).1 = (descriptionKeyword m cur).1
    ∧ Represents (Ptr.descriptionKeyword m p s).2 p (descriptionKeyword m cur).2 := by
  unfold Ptr.descriptionKeyword descriptionKeyword
  split
  · exact ⟨rfl, h⟩
  · split
    · exact ⟨rfl, represents_assign s p cur _ _ (fun _ => rfl) (fun _ => rfl) h rfl rfl⟩
    · exact ⟨rfl, h⟩

theorem typeKeyword_agree (m : JsonMap) (p : Nat) (s : Ptr.Store Ref) (cur : JsonSchema Ref)
    (h : Represents s p cur) :
    (Ptr.typeKeyword m p s).1 = (typeKeyword m cur).1
    ∧ Represents (Ptr.typeKeyword m p s).2 p (typeKeyword m cur).2 := by
  unfold Ptr.typeKeyword typeKeyword
  rw [← h.2.1]
  split
  · exact ⟨rfl, h⟩
  · split
    · split
      · exact ⟨rfl, h⟩
      · exact ⟨rfl, represents_assign s p cur _ _ (fun _ => rfl) (fun _ => rfl) h rfl rfl⟩
    · exact ⟨rfl, h⟩

theorem andThen_agree (p : Nat) (rP : Option Error × Ptr.Store Ref)
    (nextP : Ptr.Store Ref → Option Error × Ptr.Store Ref)
    (rT : Option Error × JsonSchema Ref)
    (nextT : JsonSchema Ref → Option Error × JsonSchema Ref)
    (hr : rP.1 = rT.1 ∧ Represents rP.2 p rT.2)
    (hnext : ∀ s c, Represents s p c →
      (nextP s).1 = (nextT c).1 ∧ Represents (nextP s).2 p (nextT c).2) :
    (Ptr.andThen rP nextP).1 = (andThen rT nextT).1
    ∧ Represents (Ptr.andThen rP nextP).2 p (andThen rT nextT).2 := by
  obtain ⟨eP, sP⟩ := rP
  obtain ⟨eT, cT⟩ := rT
  obtain ⟨he, hrep⟩ := hr
  simp only at he hrep
  subst he
  cases eP with
  | some err => exact ⟨rfl, hrep⟩
  | none => exact hnext sP cT hrep

/-- The two embeddings agree on the keywords `$id`, `title`, `description` and
`type`. -/
theorem keywordSection_agree (m : JsonMap) (p : Nat) (s : Ptr.Store Ref)
    (cur : JsonSchema Ref) (h : Represents s p cur) :
    (Ptr.keywordSection m p s).1 = (keywordSection m cur).1
    ∧ Represents (Ptr.keywordSection m p s).2 p (keywordSection m cur).2 := by
  unfold Ptr.keywordSection keywordSection
  refine andThen_agree p _ _ _ _ (idKeyword_agree m p s cur h) fun s1 c1 h1 => ?_
  refine andThen_agree p _ _ _ _ (titleKeyword_agree m p s1 c1 h1) fun s2 c2 h2 => ?_
  exact andThen_agree p _ _ _ _ (descriptionKeyword_agree m p s2 c2 h2) fun s3 c3 h3 =>
    typeKeyword_agree m p s3 c3 h3

/-- A node stands for what it stood for when the node of the other embedding gets a
child. -/
theorem represents_addChild (t : Ptr.Store Ref) (p : Nat) (c child : JsonSchema Ref)
    (h : Represents t p c) : Represents t p (c.AddPropertiesChild child) :=
  ⟨h.1, h.2.1, h.2.2.1, h.2.2.2⟩

theorem forRange_agree (bodyP : String → Ptr.Store Ref → Outcome × Ptr.Store Ref)
    (bodyT : String → JsonSchema Ref → St Ref → Res Ref)
    (Inv : Ptr.Store Ref → JsonSchema Ref → St Ref → Prop)
    (h : ∀ k s c st, Inv s c st →
      (bodyP k s).1 = (bodyT k c st).out
      ∧ Inv (bodyP k s).2 (bodyT k c st).node (bodyT k c st).st) :
    ∀ (keys : List String) (s : Ptr.Store Ref) (c : JsonSchema Ref) (st : St Ref),
      Inv s c st →
      (Ptr.forRange bodyP keys s).1 = (forRange bodyT keys c st).out
      ∧ Inv (Ptr.forRange bodyP keys s).2 (forRange bodyT keys c st).node
          (forRange bodyT keys c st).st := by
  intro keys
  induction keys with
  | nil => intro s c st hI; exact ⟨rfl, hI⟩
  | cons k ks ih =>
    intro s c st hI
    obtain ⟨hout, hI2⟩ := h k s c st hI
    simp only [Ptr.forRange, forRange, hout]
    split
    · exact ih _ _ _ hI2
    · exact ⟨hout, hI2⟩

/-- A new node registered with the node at `p` and then parsed: the two embeddings
agree on the outcome, and the node at `p` still stands for the node of the other
embedding with the child registered. -/
theorem child_agree (d : JsonSchemaDocument Ref) (dP : Ptr.JsonSchemaDocument Ref)
    (callP : Json → Nat → Ptr.Store Ref → Outcome × Ptr.Store Ref)
    (callT : Json → JsonSchema Ref → St Ref → Res Ref) (hcall : AgreeCall d dP callP callT)
    (hframe : ∀ doc q s, Ptr.Store.Frame q s (callP doc q s).2)
    (hmono : ∀ doc cur st, st.next ≤ (callT doc cur st).st.next) (v : Json) (p : Nat)
    (s : Ptr.Store Ref) (c : JsonSchema Ref) (st : St Ref) (nP : Ptr.JsonSchema)
    (nT : JsonSchema Ref) (haddr : nT.addr = st.next) (hprop : nT.property = nP.property)
    (href : nT.ref = s.deref nP.ref) (hvalid : ∀ a, nP.ref = some a → a < s.references.length)
    (hI : AgreeInv d dP p s c st) :
    (callP v (s.alloc nP).1 (Ptr.AddPropertiesChild p (s.alloc nP).1 (s.alloc nP).2)).1
      = (callT v nT { st with next := st.next + 1 }).out
    ∧ AgreeInv d dP p
        (callP v (s.alloc nP).1 (Ptr.AddPropertiesChild p (s.alloc nP).1 (s.alloc nP).2)).2
        (c.AddPropertiesChild (callT v nT { st with next := st.next + 1 }).node)
        (callT v nT { st with next := st.next + 1 }).st := by
  obtain ⟨hrep, hdoc, hfT, hfP⟩ := hI
  have hplt := hrep.1
  have hne : s.schemas.length ≠ p := fun e => absurd (e ▸ hplt) (Nat.lt_irrefl _)
  -- the store after the allocation and the registration
  have hs2refs : (Ptr.AddPropertiesChild p (s.alloc nP).1 (s.alloc nP).2).references
      = s.references := by
    unfold Ptr.AddPropertiesChild
    rw [assign_references]
    rfl
  have hs2len : (Ptr.AddPropertiesChild p (s.alloc nP).1 (s.alloc nP).2).schemas.length
      = s.schemas.length + 1 := by
    unfold Ptr.AddPropertiesChild
    rw [assign_length]
    simp [Ptr.Store.alloc]
  have hs2new : (Ptr.AddPropertiesChild p (s.alloc nP).1 (s.alloc nP).2).schemas[
      s.schemas.length]? = some nP := by
    unfold Ptr.AddPropertiesChild
    rw [assign_schemas, if_neg hne]
    simp [Ptr.Store.alloc]
  have hrepAlloc : Represents (s.alloc nP).2 p c :=
    represents_of_frame s _ p c hrep (List.prefix_refl _) (by simp [Ptr.Store.alloc])
      (by simp [Ptr.Store.alloc, List.getElem?_append_left hplt])
  have hrepParent : Represents (Ptr.AddPropertiesChild p (s.alloc nP).1 (s.alloc nP).2) p c :=
    represents_assign _ p c c _ (fun _ => rfl) (fun _ => rfl) hrepAlloc rfl rfl
  have hrepChild : Represents (Ptr.AddPropertiesChild p (s.alloc nP).1 (s.alloc nP).2)
      (s.alloc nP).1 nT := by
    refine ⟨?_, ?_, ?_, ?_⟩
    · rw [hs2len]
      exact Nat.lt_succ_self _
    · show nT.property = Ptr.Store.property _ s.schemas.length
      unfold Ptr.Store.property
      rw [hs2new]
      exact hprop
    · show nT.ref = Ptr.Store.deref _ (Ptr.Store.ref _ s.schemas.length)
      unfold Ptr.Store.ref Ptr.Store.deref
      rw [hs2new, hs2refs]
      exact href
    · intro a ha
      have ha2 : nP.ref = some a := by
        have : Ptr.Store.ref (Ptr.AddPropertiesChild p (s.alloc nP).1 (s.alloc nP).2)
            s.schemas.length = nP.ref := by
          unfold Ptr.Store.ref
          rw [hs2new]
          rfl
        rw [← this]
        exact ha
      rw [hs2refs]
      exact hvalid a ha2
  have hdoc2 : SameDocument d dP (Ptr.AddPropertiesChild p (s.alloc nP).1 (s.alloc nP).2) :=
    ⟨hdoc.1, by rw [hs2refs]; exact hdoc.2⟩
  have hchildInv : AgreeInv d dP (s.alloc nP).1
      (Ptr.AddPropertiesChild p (s.alloc nP).1 (s.alloc nP).2) nT
      { st with next := st.next + 1 } :=
    ⟨hrepChild, hdoc2, fun a ha => Nat.lt_succ_of_lt (hfT a ha),
      fun a ha => by rw [hs2len]; exact Nat.lt_succ_of_lt (hfP a ha)⟩
  have hroot : some nT.addr = d.rootSchema ↔ some (s.alloc nP).1 = dP.rootSchema := by
    constructor
    · intro h
      rw [haddr] at h
      exact absurd (hfT _ h.symm) (Nat.lt_irrefl _)
    · intro h
      exact absurd (hfP _ h.symm) (Nat.lt_irrefl _)
  have hout := hcall v (s.alloc nP).1 _ nT { st with next := st.next + 1 } hchildInv hroot
  have hfr := hframe v (s.alloc nP).1 (Ptr.AddPropertiesChild p (s.alloc nP).1 (s.alloc nP).2)
  refine ⟨hout, ?_, ?_, ?_, ?_⟩
  · have hcell := hfr.2.2 p (by rw [hs2len]; exact Nat.lt_succ_of_lt hplt)
      (fun e => hne e.symm)
    exact represents_addChild _ p c _ (represents_of_frame _ _ p c hrepParent hfr.1 hfr.2.1
      hcell)
  · exact sameDocument_of_frame d dP _ _ hdoc2 hfr.1
  · intro a ha
    exact Nat.lt_of_lt_of_le (Nat.lt_succ_of_lt (hfT a ha))
      (hmono v nT { st with next := st.next + 1 })
  · intro a ha
    have hle := hfr.2.1
    rw [hs2len] at hle
    exact Nat.lt_of_lt_of_le (Nat.lt_succ_of_lt (hfP a ha)) hle

theorem parsePropertiesWith_agree (d : JsonSchemaDocument Ref)
    (dP : Ptr.JsonSchemaDocument Ref)
    (callP : Json → Nat → Ptr.Store Ref → Outcome × Ptr.Store Ref)
    (callT : Json → JsonSchema Ref → St Ref → Res Ref) (hcall : AgreeCall d dP callP callT)
    (hframe : ∀ doc q s, Ptr.Store.Frame q s (callP doc q s).2)
    (hmono : ∀ doc cur st, st.next ≤ (callT doc cur st).st.next) (v : Json) (p : Nat)
    (s : Ptr.Store Ref) (c : JsonSchema Ref) (st : St Ref) (hI : AgreeInv d dP p s c st) :
    (Ptr.parsePropertiesWith callP v p s).1 = (parsePropertiesWith callT v c st).out
    ∧ AgreeInv d dP p (Ptr.parsePropertiesWith callP v p s).2
        (parsePropertiesWith callT v c st).node (parsePropertiesWith callT v c st).st := by
  cases v with
  | object ps =>
    simp only [Ptr.parsePropertiesWith, parsePropertiesWith]
    refine forRange_agree _ _ (AgreeInv d dP p) (fun k s2 c2 st2 hI2 => ?_) _ s c st hI
    exact child_agree d dP callP callT hcall hframe hmono (mapIndex ps k) p s2 c2 st2
      { property := k, parent := some p, ref := s2.ref p } (newPropertySchema k c2 st2) rfl rfl
      hI2.1.2.2.1 hI2.1.2.2.2 hI2
  | null => exact ⟨rfl, hI⟩
  | bool b => exact ⟨rfl, hI⟩
  | number n => exact ⟨rfl, hI⟩
  | string str => exact ⟨rfl, hI⟩
  | array xs => exact ⟨rfl, hI⟩

theorem childrenSection_agree_embeddings (d : JsonSchemaDocument Ref)
    (dP : Ptr.JsonSchemaDocument Ref)
    (callP : Json → Nat → Ptr.Store Ref → Outcome × Ptr.Store Ref)
    (callT : Json → JsonSchema Ref → St Ref → Res Ref) (hcall : AgreeCall d dP callP callT)
    (hframe : ∀ doc q s, Ptr.Store.Frame q s (callP doc q s).2)
    (hmono : ∀ doc cur st, st.next ≤ (callT doc cur st).st.next) (m : JsonMap) (p : Nat)
    (s : Ptr.Store Ref) (c : JsonSchema Ref) (st : St Ref) (hI : AgreeInv d dP p s c st) :
    (Ptr.childrenSection callP m p s).1 = (childrenSection callT m c st).out := by
  have h1 := forRange_agree (Ptr.propertiesBody callP m p) (propertiesBody callT m)
    (AgreeInv d dP p) (fun k s2 c2 st2 hI2 => by
      unfold Ptr.propertiesBody propertiesBody
      split
      · exact parsePropertiesWith_agree d dP callP callT hcall hframe hmono _ p s2 c2 st2 hI2
      · exact ⟨rfl, hI2⟩) (mapKeys m) s c st hI
  have h2 := fun (s2 : Ptr.Store Ref) (c2 : JsonSchema Ref) (st2 : St Ref)
      (hI2 : AgreeInv d dP p s2 c2 st2) =>
    forRange_agree (Ptr.itemsBody callP m p) (itemsBody callT m) (AgreeInv d dP p)
      (fun k s3 c3 st3 hI3 => by
        unfold Ptr.itemsBody itemsBody
        split
        · exact child_agree d dP callP callT hcall hframe hmono (mapIndex m k) p s3 c3 st3
            { parent := some p } (newItemsSchema c3 st3) rfl rfl rfl
            (fun a ha => by cases ha) hI3
        · exact ⟨rfl, hI3⟩) (mapKeys m) s2 c2 st2 hI2
  unfold Ptr.childrenSection childrenSection
  simp only [h1.1]
  split
  · exact (h2 _ _ _ h1.2).1
  · exact h1.1

/-- The two embeddings of `parseSchema` return the same outcome: the embedding over
values, in which the `ref` of a node is a value of its own, loses nothing of the
embedding over pointers, in which nodes share references. -/
theorem parseSchema_agree (x : Collaborators Ref) (d : JsonSchemaDocument Ref)
    (dP : Ptr.JsonSchemaDocument Ref) :
    ∀ fuel : Nat, AgreeCall d dP (Ptr.parseSchema x dP fuel) (parseSchema x d fuel) := by
  intro fuel
  induction fuel with
  | zero => intro doc q s cur st _ _; rfl
  | succ fuel ih =>
    intro doc q s cur st hI hroot
    obtain ⟨hrep, hdoc, hfT, hfP⟩ := hI
    cases doc with
    | object m =>
      -- the `$schema` section
      have hrs := rootSection_agree x d dP m q s cur hrep hdoc hroot
      have hfr := rootSection_frame x dP m q s
      have hl := rootSection_links x d m cur
      rcases hr1 : Ptr.rootSection x dP m q s with ⟨e1, s1⟩
      rcases hr2 : rootSection x d m cur with ⟨e2, c1⟩
      rw [hr1] at hrs hfr
      rw [hr2] at hrs hl
      simp only at hrs hfr hl
      obtain ⟨he, hrep1⟩ := hrs
      subst he
      simp only [Ptr.parseSchema, parseSchema, hr1, hr2]
      cases e1 with
      | some err => rfl
      | none =>
        simp only
        -- the `$ref` section
        have hfs := refSection_agree x d dP hdoc.1 m q s1 c1 st hrep1
        have hff := refSection_frame x dP m q s1
        have hsn := refSection_st_next x d m c1 st
        rcases hf1 : Ptr.refSection x dP m q s1 with ⟨out1, m1, s2⟩
        rw [hf1] at hfs hff
        simp only at hfs hff
        obtain ⟨hout, hm, hrep2⟩ := hfs
        by_cases hok : (refSection x d m c1 st).out = Outcome.ok
        · rw [hok] at hout
          subst hout
          simp only [hok, if_true]
          subst hm
          -- the keywords
          have hks := keywordSection_agree (refSection x d m c1 st).m q s2
            (refSection x d m c1 st).node hrep2
          have hkf := keywordSection_frame (refSection x d m c1 st).m q s2
          rcases hk1 : Ptr.keywordSection (refSection x d m c1 st).m q s2 with ⟨ke1, s3⟩
          rcases hk2 : keywordSection (refSection x d m c1 st).m (refSection x d m c1 st).node
            with ⟨ke2, c3⟩
          rw [hk1] at hks hkf
          rw [hk2] at hks
          simp only at hks hkf
          obtain ⟨hke, hrep3⟩ := hks
          subst hke
          simp only [Ptr.parseKeywords, parseKeywords, hk1, hk2]
          cases ke1 with
          | some err => rfl
          | none =>
            simp only
            have hframe13 := frame_trans hfr (frame_trans hff hkf)
            refine childrenSection_agree_embeddings d dP _ _ ih (parseSchema_frame x dP fuel)
              (parseSchema_next_le x d fuel) _ q s3 c3 _ ⟨hrep3, ?_, ?_, ?_⟩
            · exact sameDocument_of_frame d dP s s3 hdoc hframe13.1
            · intro a ha
              rw [hsn]
              exact hfT a ha
            · intro a ha
              exact Nat.lt_of_lt_of_le (hfP a ha) hframe13.2.1
        · have hne : out1 ≠ Outcome.ok := fun h => hok (hout ▸ h)
          simp only [hok, if_false]
          cases out1 with
          | ok => exact absurd rfl hne
          | error e => exact hout
          | nilDereference => exact hout
          | outOfFuel => exact hout
    | null => rfl
    | bool b => rfl
    | number n => rfl
    | string str => rfl
    | array xs => rfl

end gojsonschema
